import Mathlib

/-!
# Si4735 RDS/RBDS decoder: embedding and verification

Shallow embedding of the RDS part of the Arduino Si4735 library
(`RDS.cpp`, `Si4735.cpp`, `Si4735.h`).

Machine types.  `byte` and `char` are 8 bits, `word` and `unsigned short`
are 16 bits, `unsigned long` is 32 bits.  Values are natural numbers (signed
ones are integers) and every store into a narrower type is written out as a
reduction `u8`, `u16` or `u32`.  The width of `int` depends on the target:
16 bits on AVR, 32 bits on ARM.  The width matters for the day count of the
clock group, whose shift by 15 does not fit a 16-bit `int` and whose result
goes into an `unsigned long`; that expression is evaluated in `int` of the
width recorded in `_intBits`.  The other intermediate expressions are
evaluated exactly and reduced where the source stores them.
Characters are their ASCII codes.
-/

/-! ## Machine arithmetic -/

/-- Store an integer into an 8-bit unsigned variable. -/
def u8 (x : Int) : Nat := (x % 256).toNat

/-- Store an integer into a 16-bit unsigned variable. -/
def u16 (x : Int) : Nat := (x % 65536).toNat

/-- Store an integer into a 32-bit unsigned variable. -/
def u32 (x : Int) : Nat := (x % 4294967296).toNat

/-- The value of an expression of type `int` on a target whose `int` has
`bits` bits: the exact value wrapped into the two's complement range
`-2^(bits-1) .. 2^(bits-1)-1`, which is what the shift instructions of the
target leave when the exact value does not fit. -/
def wrapInt (bits : Nat) (x : Int) : Int := Int.bmod x (2 ^ bits)

/-- The C conversion of a condition to an integer, also `bool(x)` stored in
a `ternary` or a `byte`: 1 for true, 0 for false. -/
def ofBool (b : Bool) : Int := if b then 1 else 0

/-! ## Constants of `Si4735.h` -/

/-- FM band mode. -/
def FM : Nat := 1

/-- Interrupt bit `RDS_MASK= 0b00000100`. -/
def RDS_MASK : Nat := 0b00000100

/-- Locale `LOCALE_OTHER=0`. -/
def LOCALE_OTHER : Nat := 0

/-- Locale Italy. -/
def LOCALE_IT : Nat := 1

/-- Locale USA. -/
def LOCALE_US : Nat := 2

/-- Locale Canada, Mexico. -/
def LOCALE_CA_MX : Nat := 3

/-- Locale Japan. -/
def LOCALE_JP : Nat := 4

/-- Locale South Korea. -/
def LOCALE_KR : Nat := 5

/-- Threshold for larger variables. -/
def RDS_THRESHOLD : Nat := 3

/-- Extended country code: unknown. -/
def ECC_UNKNOWN : Nat := 0

/-- Extended country code: USA. -/
def ECC_US : Nat := 0xA0

/-- Language code: unknown. -/
def LANG_UNKNOWN : Nat := 0

/-- The value of `rds.offset` that means no date/time has been saved. -/
def NO_DATE_TIME : Int := 127

/-- The third value of a `ternary`: neither true nor false. -/
def unknown : Int := -1

/-- Macro `MAKE_WORD(hb, lb) ((byte(hb) << 8U) | byte(lb))`, stored in a `word`. -/
def MAKE_WORD (hb lb : Nat) : Nat := u16 ((((hb % 256) <<< 8) ||| (lb % 256) : Nat))

/-- Field masks and values of byte 12 of the FM_RDS_STATUS response. -/
def FIELD_RDS_STATUS_RESP12_BLOCK_A : Nat := 0b11000000

/-- Block B error field. -/
def FIELD_RDS_STATUS_RESP12_BLOCK_B : Nat := 0b00110000

/-- Block C error field. -/
def FIELD_RDS_STATUS_RESP12_BLOCK_C : Nat := 0b00001100

/-- Block D error field. -/
def FIELD_RDS_STATUS_RESP12_BLOCK_D : Nat := 0b00000011

/-- Block A was uncorrectable: `3U<<6`. -/
def RDS_STATUS_RESP12_BLOCK_A_UNCORRECTABLE : Nat := 3 <<< 6

/-- Block B had no errors: `0U<<4`. -/
def RDS_STATUS_RESP12_BLOCK_B_NO_ERRORS : Nat := 0 <<< 4

/-- Block C had no errors: `0U<<2`. -/
def RDS_STATUS_RESP12_BLOCK_C_NO_ERRORS : Nat := 0 <<< 2

/-- Block D had no errors: `0U<<0`. -/
def RDS_STATUS_RESP12_BLOCK_D_NO_ERRORS : Nat := 0 <<< 0

/-- RDS currently synchronized. -/
def FIELD_RDS_STATUS_RESP2_SYNC : Nat := 0b00000001

/-! ## Data model -/

/-- The caller's `struct DateTime`. -/
structure DateTime where
  year : Nat
  month : Nat
  day : Nat
  wday : Nat
  hour : Nat
  minute : Nat
deriving DecidableEq

/-- The caller's `struct Time`. -/
structure Time where
  hour : Nat
  minute : Nat
deriving DecidableEq

/-- The public `rds` member of class `Si4735`.  Character arrays are lists of
character codes of the declared array length. -/
structure RDSData where
  programId : Nat
  groupA : Nat
  groupB : Nat
  RDSSignal : Bool
  RBDS : Bool
  programType : Nat
  extendedCountryCode : Nat
  language : Nat
  trafficProgram : Int
  trafficAlert : Int
  music : Int
  dynamicPTY : Int
  compressedAudio : Int
  binauralAudio : Int
  RDSStereo : Int
  programService : List Nat
  radioTextLen : Nat
  radioText : List Nat
  programTypeName : List Nat
  MJD : Nat
  hour : Nat
  minute : Nat
  offset : Int
deriving DecidableEq

/-- The members of class `Si4735` that the RDS code reads or writes.  The
last field is not a member of the class: `_intBits` is the width in bits of
`int` on the target the library is compiled for, 16 on AVR and 32 on ARM
(the header has both under `#ifdef __AVR__`); no function changes it. -/
structure Si4735 where
  rds : RDSData
  _mode : Nat
  _locale : Nat
  _interrupts : Nat
  _abRadioText : Int
  _abProgramTypeName : Int
  _extendedCountryCode_count : Nat
  _language_count : Nat
  _intBits : Nat := 32
deriving DecidableEq

/-- One 13-byte reply to the FM_RDS_STATUS command, as filled in by
`getResponse`.  Bytes 0 and 1 are not read by `getRDS` and are left out;
`resp2`, `resp3` and `resp12` are `response[2]`, `response[3]` and
`response[12]`, the others carry the names of the index enum of `getRDS`. -/
structure Response where
  resp2 : Nat
  resp3 : Nat
  PI_H : Nat
  PI_L : Nat
  Block_B_H : Nat
  Block_B_L : Nat
  Block_C_H : Nat
  Block_C_L : Nat
  Block_D_H : Nat
  Block_D_L : Nat
  resp12 : Nat
deriving DecidableEq

/-- Every field of the reply is a byte. -/
def Response.wf (r : Response) : Prop :=
  r.resp2 < 256 ∧ r.resp3 < 256 ∧ r.PI_H < 256 ∧ r.PI_L < 256 ∧
  r.Block_B_H < 256 ∧ r.Block_B_L < 256 ∧ r.Block_C_H < 256 ∧ r.Block_C_L < 256 ∧
  r.Block_D_H < 256 ∧ r.Block_D_L < 256 ∧ r.resp12 < 256

namespace Si4735

/-! ## Region policy: `check_if_RBDS` -/

/-- Label `no_ecc` of `check_if_RBDS`, shared with `case ECC_UNKNOWN`: the
switch on `_locale`.  For LOCALE_US and LOCALE_CA_MX a received PI code below
0xB000 says USA, and without a PI code the locale decides; every path that
does not return true leaves the switch and returns false. -/
def no_ecc (s : Si4735) : Bool :=
  if s._locale = LOCALE_US ∨ s._locale = LOCALE_CA_MX then
    if s.rds.programId ≠ 0 then
      if s.rds.programId < 0xB000 then true else false
    else
      if s._locale = LOCALE_US then true else false
  else false

/-- Source `Si4735::check_if_RBDS`: true if the current station is taken to
use RBDS. -/
def check_if_RBDS (s : Si4735) : Bool :=
  if s._extendedCountryCode_count < RDS_THRESHOLD then no_ecc s
  else if s.rds.extendedCountryCode = ECC_US then true
  else if s.rds.extendedCountryCode = ECC_UNKNOWN then no_ecc s
  else false

/-! ## Reset: `clearStationInfo` -/

/-- Source `Si4735::clearStationInfo`.  The assignments are made in the order
of the source: `rds.RBDS` is computed after `programId` is cleared and before
the country code and its counter are. -/
def clearStationInfo (s : Si4735) : Si4735 :=
  let s1 : Si4735 := { s with rds.programId := 0, rds.RDSSignal := false }
  let s2 : Si4735 := { s1 with rds.RBDS := check_if_RBDS s1 }
  { s2 with
    rds.programType := 0
    rds.groupA := 0
    rds.groupB := 0
    rds.extendedCountryCode := ECC_UNKNOWN
    rds.language := LANG_UNKNOWN
    rds.trafficProgram := unknown
    rds.trafficAlert := unknown
    rds.music := unknown
    rds.dynamicPTY := unknown
    rds.compressedAudio := unknown
    rds.binauralAudio := unknown
    rds.RDSStereo := unknown
    rds.offset := NO_DATE_TIME
    _abRadioText := unknown
    _abProgramTypeName := unknown
    _extendedCountryCode_count := 0
    _language_count := 0
    rds.programService :=
      (List.range 8).foldl (fun ps i => ps.set i ' '.toNat) s2.rds.programService
    rds.radioText := s2.rds.radioText.set 0 0
    rds.radioTextLen := 0
    rds.programTypeName := s2.rds.programTypeName.set 0 0 }

/-! ## Call-sign decoder: `getCallSign` -/

/-- Local enum `NAME_SPACE_BEGIN=0x1000`. -/
def NAME_SPACE_BEGIN : Nat := 0x1000

/-- Local enum `NAME_SPACE=26*26*26`. -/
def NAME_SPACE : Nat := 26 * 26 * 26

/-- Macro `PACK(L3,L2,L1)`. -/
def PACK (L3 L2 L1 : Char) : Nat :=
  (L3.toNat - 'A'.toNat) * 26 * 26 + (L2.toNat - 'A'.toNat) * 26 + (L1.toNat - 'A'.toNat)

/-- Table `legacy[]`: call signs for legacy stations, 0 for an unused PI code. -/
def legacy : List Nat := [
  PACK 'K' 'E' 'X', PACK 'K' 'F' 'H', PACK 'K' 'F' 'I', PACK 'K' 'G' 'A',
  PACK 'K' 'G' 'O', PACK 'K' 'G' 'U', PACK 'K' 'G' 'W', PACK 'K' 'G' 'Y',
  PACK 'K' 'I' 'D', PACK 'K' 'I' 'T', PACK 'K' 'J' 'R', PACK 'K' 'L' 'O',
  PACK 'K' 'L' 'Z', PACK 'K' 'M' 'A', PACK 'K' 'M' 'J', PACK 'K' 'N' 'X',
  PACK 'K' 'O' 'A', 0,                0,                0,
  PACK 'K' 'Q' 'V', PACK 'K' 'S' 'L', PACK 'K' 'U' 'J', PACK 'K' 'V' 'I',
  PACK 'K' 'W' 'G', 0,                0,                PACK 'K' 'Y' 'W',
  0,                PACK 'W' 'B' 'Z', PACK 'W' 'D' 'Z', PACK 'W' 'E' 'W',
  0,                PACK 'W' 'G' 'L', PACK 'W' 'G' 'N', PACK 'W' 'G' 'R',
  0,                PACK 'W' 'H' 'A', PACK 'W' 'H' 'B', PACK 'W' 'H' 'K',
  PACK 'W' 'H' 'O', 0,                PACK 'W' 'I' 'P', PACK 'W' 'J' 'R',
  PACK 'W' 'K' 'Y', PACK 'W' 'L' 'S', PACK 'W' 'L' 'W', 0,
  0,                PACK 'W' 'O' 'C', 0,                PACK 'W' 'O' 'L',
  PACK 'W' 'O' 'R', 0,                0,                0,
  PACK 'W' 'W' 'J', PACK 'W' 'W' 'L', 0,                0,
  0,                0,                0,                0,
  PACK 'K' 'D' 'B', PACK 'K' 'G' 'B', PACK 'K' 'O' 'Y', PACK 'K' 'P' 'Q',
  PACK 'K' 'S' 'D', PACK 'K' 'U' 'T', PACK 'K' 'X' 'L', PACK 'K' 'X' 'O',
  0,                PACK 'W' 'B' 'T', PACK 'W' 'G' 'H', PACK 'W' 'G' 'Y',
  PACK 'W' 'H' 'P', PACK 'W' 'I' 'L', PACK 'W' 'M' 'C', PACK 'W' 'M' 'T',
  PACK 'W' 'O' 'I', PACK 'W' 'O' 'W', PACK 'W' 'R' 'R', PACK 'W' 'S' 'B',
  PACK 'W' 'S' 'M', PACK 'K' 'B' 'W', PACK 'K' 'C' 'Y', PACK 'K' 'D' 'F',
  0,                0,                PACK 'K' 'H' 'Q', PACK 'K' 'O' 'B',
  0,                0,                0,                0,
  0,                0,                0,                PACK 'W' 'I' 'S',
  PACK 'W' 'J' 'W', PACK 'W' 'J' 'Z', 0,                0,
  0,                PACK 'W' 'R' 'C']

/-- Label `fill_call_sign` of `getCallSign`: the buffer is four fill
characters and NUL, and the function returns false. -/
def fill_call_sign (fill : Nat) : Bool × List Nat :=
  (false, [fill, fill, fill, fill, 0])

/-- The end of `getCallSign` after `callSign[0]` is set: unpack 3 letters
from `pi`, which is a `word`, into `callSign[1..3]` (each a `char`). -/
def unpack (c0 pi : Nat) : Bool × List Nat :=
  let c3 := u8 ((pi % 26 + 'A'.toNat : Nat))
  let pi1 := pi / 26
  let c2 := u8 ((pi1 % 26 + 'A'.toNat : Nat))
  let pi2 := pi1 / 26
  let c1 := u8 ((pi2 + 'A'.toNat : Nat))
  (true, [c0, c1, c2, c3, 0])

/-- The two compatibility corrections of `getCallSign` on the local `pi`. -/
def compatPI (pi : Nat) : Nat :=
  let pi1 := if pi &&& 0xFF00 = 0xAF00 then u16 ((pi <<< 8 : Nat)) else pi
  if pi1 &&& 0xF000 = 0xA000 then
    let hb := u16 (((pi1 &&& 0x0F00) <<< 4 : Nat))
    (pi1 &&& 0x00FF) ||| hb
  else pi1

/-- The chain of range tests of `getCallSign` on the corrected `pi`: legacy
table, W name space, K name space, no PI (spaces), bad PI (dashes).  The sums
of the enum constants are taken exactly (0x54A8 and 0x9950), and each
`pi -= ...` is stored back into the `word`. -/
def decodeRanges (pi : Nat) : Bool × List Nat :=
  if pi ≥ NAME_SPACE_BEGIN + NAME_SPACE * 2 then
    let idx := u16 ((pi : Int) - (NAME_SPACE_BEGIN + NAME_SPACE * 2 : Nat))
    if idx ≥ legacy.length then fill_call_sign '-'.toNat
    else
      let code := legacy.getD idx 0
      if code = 0 then fill_call_sign '-'.toNat
      else unpack ' '.toNat code
  else if pi ≥ NAME_SPACE_BEGIN + NAME_SPACE then
    unpack 'W'.toNat (u16 ((pi : Int) - (NAME_SPACE_BEGIN + NAME_SPACE : Nat)))
  else if pi ≥ NAME_SPACE_BEGIN then
    unpack 'K'.toNat (u16 ((pi : Int) - (NAME_SPACE_BEGIN : Nat)))
  else if pi = 0 then fill_call_sign ' '.toNat
  else fill_call_sign '-'.toNat

/-- Source `Si4735::getCallSign`, after `rds.RBDS` has been refreshed: the
return value and the five characters written to `callSign`.  The TMC test is
the source expression `rds.groupA | (1U<<8)`, taken as a condition. -/
def callSignOf (RBDS : Bool) (programId groupA : Nat) : Bool × List Nat :=
  if !RBDS then fill_call_sign ' '.toNat
  else if programId &&& 0xF000 = 0x1000 ∧ (groupA ||| (1 <<< 8)) ≠ 0 then
    fill_call_sign '*'.toNat
  else decodeRanges (compatPI programId)

/-- Source `Si4735::getCallSign`: stores `check_if_RBDS()` in `rds.RBDS` and
decodes `rds.programId`.  Returns the new state, the return value and the
five characters written to the caller's buffer (all five are written on every
path). -/
def getCallSign (s : Si4735) : Si4735 × Bool × List Nat :=
  let s1 : Si4735 := { s with rds.RBDS := check_if_RBDS s }
  (s1, callSignOf s1.rds.RBDS s1.rds.programId s1.rds.groupA)

/-! ## Date/time converter: `getLocalDateTime`, `getLocalTime` -/

/-- Macro `DAYS_PER_YEAR 365U`: non leap year. -/
def DAYS_PER_YEAR : Nat := 365

/-- Macro `DAYS_PER_LEAP_YEAR (DAYS_PER_YEAR + 1)`. -/
def DAYS_PER_LEAP_YEAR : Nat := DAYS_PER_YEAR + 1

/-- Macro `DAYS_PER_4YEARS (DAYS_PER_YEAR * 4 + 1)`. -/
def DAYS_PER_4YEARS : Nat := DAYS_PER_YEAR * 4 + 1

/-- Macro `DAYS_PER_100YEARS (DAYS_PER_4YEARS * (100/4) - 1)`. -/
def DAYS_PER_100YEARS : Nat := DAYS_PER_4YEARS * (100 / 4) - 1

/-- The constant subtracted from `rds.MJD`: the days from 1858-Nov-17 to
2000-Jan-2, summed as in the source. -/
def MJD_ORIGIN : Nat :=
  14 + 31 + DAYS_PER_YEAR + 10 * DAYS_PER_4YEARS + DAYS_PER_100YEARS + 1

/-- Local enum `NUM_MONTHS=10`. -/
def NUM_MONTHS : Nat := 10

/-- Table `month[NUM_MONTHS]`: days from March 1 to the first of each month
March .. December. -/
def month : List Nat := [
  0,
  31,
  31+30,
  31+30+31,
  31+30+31+30,
  31+30+31+30+31,
  31+30+31+30+31+31,
  31+30+31+30+31+31+30,
  31+30+31+30+31+31+30+31,
  31+30+31+30+31+31+30+31+30]

/-- The loop `for(mon=NUM_MONTHS; days < (value=pgm_read_word(&month[--mon])); );`
started with the given `mon`: the index and table value at which it stops.
`none` when `--mon` would step below index 0 or the read falls outside the
table. -/
def monthSearch (days : Nat) : Nat → Option (Nat × Nat)
  | 0 => none
  | mon + 1 =>
    match month[mon]? with
    | none => none
    | some value => if days < value then monthSearch days mon else some (mon, value)

/-- The year step of `getLocalDateTime`: from the day count since 2000-Jan-2
(an `unsigned short`) to `time->year`, the remaining day of the year and
`leap_year`. -/
def yearOfDays (days0 : Nat) : Nat × Nat × Nat :=
  let year := u16 ((days0 / DAYS_PER_100YEARS * 100 + 2000 : Nat))
  let days := days0 % DAYS_PER_100YEARS
  if ¬ (days < DAYS_PER_YEAR) then
    let days1 := u16 ((days + 1 : Nat))
    let year1 := u16 ((year + days1 / DAYS_PER_4YEARS * 4 : Nat))
    let days2 := days1 % DAYS_PER_4YEARS
    if days2 < DAYS_PER_LEAP_YEAR then
      (year1, days2, 1)
    else
      let days3 := u16 ((days2 : Int) - 1)
      let year2 := u16 ((year1 + days3 / DAYS_PER_YEAR : Nat))
      (year2, days3 % DAYS_PER_YEAR, 0)
  else
    (year, days, 0)

/-- The month step of `getLocalDateTime`: from the day of the year and
`leap_year` to `time->month` and `time->day` (both `byte`).  `none` when the
table search leaves the table. -/
def monthDayOfDays (days leap_year : Nat) : Option (Nat × Nat) :=
  if days < 31 + 28 + leap_year then
    if days < 31 then
      some (1, u8 ((days + 1 : Nat)))
    else
      some (2, u8 ((days + 1 : Int) - 31))
  else
    let days1 := u16 ((days : Int) - (31 + 28 + leap_year : Nat))
    match monthSearch days1 NUM_MONTHS with
    | none => none
    | some (mon, value) =>
      some (u8 ((mon + 2 + 1 : Nat)), u8 ((days1 : Int) - value + 1))

/-- The date part of `getLocalDateTime`: year, month and day computed from
the local day count since 2000-Jan-2 (the year step, then the month step). -/
def calendarDate (days : Nat) : Option (Nat × Nat × Nat) :=
  match yearOfDays days with
  | (tyear, days2, leap_year) =>
    match monthDayOfDays days2 leap_year with
    | none => none
    | some (tmonth, tday) => some (tyear, tmonth, tday)

/-- First part of the body of `getLocalDateTime` (after the test for
NO_DATE_TIME): the `unsigned long date_time` after `date_time += offset`,
that is the local time in minutes since 2000-Jan-2 0:00, computed from
`rds.MJD`, `rds.hour`, `rds.minute` and `rds.offset`. -/
def localMinutes (MJD hour minute : Nat) (offset : Int) : Nat :=
  let days : Nat := u16 (u32 ((MJD : Int) - (MJD_ORIGIN : Nat)))
  let date_time : Nat := u32 ((days * (24 * 60) + hour * 60 + minute : Nat))
  let offset30 : Int := offset * 30
  u32 ((date_time : Int) + offset30)

/-- Second part of the body of `getLocalDateTime`: break down `date_time`
into the fields written to the structure.  `none` stands for a month-table
search that leaves the table. -/
def breakDown (date_time : Nat) : Option DateTime :=
  let tminute := u8 ((date_time % 60 : Nat))
  let date_time2 := date_time / 60
  let thour := u8 ((date_time2 % 24 : Nat))
  let days := u16 ((date_time2 / 24 : Nat))
  let twday := u8 ((days % 7 : Nat))
  match calendarDate days with
  | none => none
  | some (tyear, tmonth, tday) =>
    some { year := tyear, month := tmonth, day := tday, wday := twday,
           hour := thour, minute := tminute }

/-- The body of `getLocalDateTime` after the test for NO_DATE_TIME: the
structure written from `rds.MJD`, `rds.hour`, `rds.minute`, `rds.offset`. -/
def localDateTime (MJD hour minute : Nat) (offset : Int) : Option DateTime :=
  breakDown (localMinutes MJD hour minute offset)

/-- Source `Si4735::getLocalDateTime`.  The argument `time` is the caller's
structure; the result is the return value and the structure afterwards
(unchanged when the function returns false).  `none` stands for a month-table
search that leaves the table. -/
def getLocalDateTime (s : Si4735) (time : DateTime) : Option (Bool × DateTime) :=
  if s.rds.offset = NO_DATE_TIME then some (false, time)
  else
    match localDateTime s.rds.MJD s.rds.hour s.rds.minute s.rds.offset with
    | none => none
    | some t => some (true, t)

/-- Source `Si4735::getLocalTime`.  The C operators `/` and `%` on `int`
truncate toward zero; the results are stored in `byte` fields. -/
def getLocalTime (s : Si4735) (time : Time) : Bool × Time :=
  if s.rds.offset = NO_DATE_TIME then (false, time)
  else
    (true,
      { hour := u8 (Int.tmod ((s.rds.hour : Int) + Int.tdiv s.rds.offset 2 + 24) 24),
        minute := u8 (Int.tmod ((s.rds.minute : Int) + Int.tmod s.rds.offset 2 * 30 + 60) 60) })

/-! ## Packet interpreter: `getRDS` -/

/-- Source `make_printable`: a printable ASCII character is returned as it
is, anything else becomes a space.  The argument is the byte taken as `char`;
bytes from 128 up are replaced on either signedness of `char`. -/
def make_printable (ch : Nat) : Nat :=
  if ch < 32 ∨ 126 < ch then ' '.toNat else ch

/-- Source `Si4735::clearInterrupts`: `_interrupts &= ~interrupt_mask`. -/
def clearInterrupts (s : Si4735) (interrupt_mask : Nat) : Si4735 :=
  { s with _interrupts := s._interrupts &&& (0xFF ^^^ interrupt_mask) }

/-- Group type (0-15): `byte type = response[Block_B_H]>>4U`. -/
def groupType (r : Response) : Nat := u8 ((r.Block_B_H >>> 4 : Nat))

/-- Group version (false = A, true = B):
`bool version = response[Block_B_H] & 0b00001000`. -/
def groupVersion (r : Response) : Bool := r.Block_B_H &&& 0b00001000 != 0

/-- Groups 0A, 0B and 15B of `getRDS`: basic tuning and switching
information.  `type` is the group type, 0 or 15. -/
def group0 (s : Si4735) (r : Response) (type : Nat) : Si4735 :=
  let s1 : Si4735 :=
    { s with
      rds.trafficAlert := ofBool (r.Block_B_L &&& 0b00010000 != 0)
      rds.music := ofBool (r.Block_B_L &&& 0b00001000 != 0) }
  let DI : Int := ofBool (r.Block_B_L &&& 0b00000100 != 0)
  let segment : Nat := u8 ((r.Block_B_L &&& 0b00000011 : Nat))
  let s2 : Si4735 :=
    match segment with
    | 0 => { s1 with rds.dynamicPTY := DI }
    | 1 => { s1 with rds.compressedAudio := DI }
    | 2 => { s1 with rds.binauralAudio := DI }
    | 3 => { s1 with rds.RDSStereo := DI }
    | _ => s1
  if type = 0 then
    { s2 with
      rds.programService :=
        (s2.rds.programService.set (segment * 2) (make_printable r.Block_D_H)).set
          (segment * 2 + 1) (make_printable r.Block_D_L) }
  else s2

/-- Group 1A of `getRDS`: extended country code (variant 0) and language
code (variant 3), each taken only while its counter is below RDS_THRESHOLD.
The second component tells whether `new_info` was set. -/
def group1A (s : Si4735) (r : Response) : Si4735 × Bool :=
  let variant := r.Block_C_H &&& 0b01110000
  if variant = 0 <<< 4 then
    if s._extendedCountryCode_count < RDS_THRESHOLD then
      let ecc := r.Block_C_L
      let changed : Bool := s.rds.extendedCountryCode != ecc
      let count := if changed then 0 else s._extendedCountryCode_count
      ({ s with rds.extendedCountryCode := ecc,
                _extendedCountryCode_count := u8 ((count + 1 : Nat)) }, changed)
    else (s, false)
  else if variant = 3 <<< 4 then
    if s._language_count < RDS_THRESHOLD then
      let language := r.Block_C_L
      let changed : Bool := s.rds.language != language
      let count := if changed then 0 else s._language_count
      ({ s with rds.language := language,
                _language_count := u8 ((count + 1 : Nat)) }, changed)
    else (s, false)
  else (s, false)

/-- The copy loop of the radio text: `block` is the list of characters still
to copy, `rt` the index of the next position in `rds.radioText`.  A carriage
return saves the position as the new message length (a `byte`). -/
def copyChars (radioText : List Nat) (radioTextLen rt : Nat) : List Nat → List Nat × Nat
  | [] => (radioText, radioTextLen)
  | ch :: block =>
    let len := if ch = '\r'.toNat then u8 (rt : Nat) else radioTextLen
    copyChars (radioText.set rt (make_printable ch)) len (rt + 1) block

/-- Groups 2A and 2B of `getRDS`: radio text.  `sizeof(rds.radioText)` is 65. -/
def group2 (s : Si4735) (r : Response) (version : Bool) : Si4735 :=
  let new_ab : Int := ofBool (r.Block_B_L &&& 0b00010000 != 0)
  let s1 : Si4735 :=
    if new_ab ≠ s._abRadioText then
      { s with
        _abRadioText := new_ab
        rds.radioText := (List.range (65 - 1)).foldl (fun t i => t.set i ' '.toNat) s.rds.radioText
        rds.radioTextLen := 65 }
    else s
  let segment : Nat := u8 ((r.Block_B_L &&& 0x0F : Nat))
  let copied :=
    if version = false then
      copyChars s1.rds.radioText s1.rds.radioTextLen (segment * 4)
        [r.Block_C_H, r.Block_C_L, r.Block_D_H, r.Block_D_L]
    else
      copyChars s1.rds.radioText s1.rds.radioTextLen (segment * 2)
        [r.Block_D_H, r.Block_D_L]
  { s1 with rds.radioText := copied.1, rds.radioTextLen := copied.2 }

/-- The test of group 4A that blocks B, C and D were received without
errors. -/
def blocksBCD_no_errors (r : Response) : Bool :=
  r.resp12 &&& (FIELD_RDS_STATUS_RESP12_BLOCK_B ||| FIELD_RDS_STATUS_RESP12_BLOCK_C |||
      FIELD_RDS_STATUS_RESP12_BLOCK_D) ==
    (RDS_STATUS_RESP12_BLOCK_B_NO_ERRORS ||| RDS_STATUS_RESP12_BLOCK_C_NO_ERRORS |||
      RDS_STATUS_RESP12_BLOCK_D_NO_ERRORS)

/-- Modified Julian Date carried by a group 4A, as the source computes it:
`(response[Block_B_L] & 0b00000011)<<15UL | response[Block_C_H]<<7U |
response[Block_C_L]>>1U`.  Each shift has the type of its promoted left
operand, `int` (the suffix of the shift count does not widen it), so the
expression is an `int` of `bits` bits; it is converted to the
`unsigned long rds.MJD`, with sign extension when the `int` is negative. -/
def clockMJD (bits : Nat) (r : Response) : Nat :=
  u32 (wrapInt bits ((((r.Block_B_L &&& 0b00000011) <<< 15) ||| (r.Block_C_H <<< 7) |||
    (r.Block_C_L >>> 1) : Nat) : Int))

/-- UTC hour carried by a group 4A (stored in a `byte`). -/
def clockHour (r : Response) : Nat :=
  u8 ((((r.Block_C_L &&& 0b00000001) <<< 4) ||| (r.Block_D_H >>> 4) : Nat))

/-- UTC minute carried by a group 4A (stored in a `byte`). -/
def clockMinute (r : Response) : Nat :=
  u8 ((((r.Block_D_H &&& 0x0F) <<< 2) ||| (r.Block_D_L >>> 6) : Nat))

/-- The test `rds.MJD || rds.hour || rds.minute || response[Block_D_L]` of
group 4A: date and time were sent (not 0). -/
def clockSent (bits : Nat) (r : Response) : Bool :=
  clockMJD bits r != 0 || clockHour r != 0 || clockMinute r != 0 || r.Block_D_L != 0

/-- Offset carried by a group 4A: five magnitude bits, negated when bit 5 of
the low byte of block D is set. -/
def clockOffset (r : Response) : Int :=
  if r.Block_D_L &&& 0b00100000 != 0 then -((r.Block_D_L &&& 0x1F : Nat) : Int)
  else ((r.Block_D_L &&& 0x1F : Nat) : Int)

/-- Group 4A of `getRDS`: clock-time and date, used only if received
perfectly.  The second component tells whether `new_info` was set. -/
def group4A (s : Si4735) (r : Response) : Si4735 × Bool :=
  if blocksBCD_no_errors r then
    let s1 : Si4735 :=
      { s with
        rds.MJD := clockMJD s._intBits r, rds.hour := clockHour r, rds.minute := clockMinute r }
    if clockSent s._intBits r then
      ({ s1 with rds.offset := clockOffset r }, true)
    else (s1, false)
  else (s, false)

/-- Group 10A of `getRDS`: program type name.  `sizeof(rds.programTypeName)`
is 9. -/
def group10A (s : Si4735) (r : Response) : Si4735 :=
  let new_ab : Int := ofBool (r.Block_B_L &&& 0b00010000 != 0)
  let s1 : Si4735 :=
    if new_ab ≠ s._abProgramTypeName then
      { s with
        _abProgramTypeName := new_ab
        rds.programTypeName :=
          (List.range (9 - 1)).foldl (fun t i => t.set i ' '.toNat) s.rds.programTypeName }
    else s
  let segment : Nat := u8 ((r.Block_B_L &&& 0x01 : Nat))
  let name := segment * 4
  { s1 with
    rds.programTypeName :=
      (((s1.rds.programTypeName.set name (make_printable r.Block_C_H)).set
        (name + 1) (make_printable r.Block_C_L)).set
        (name + 2) (make_printable r.Block_D_H)).set
        (name + 3) (make_printable r.Block_D_L) }

/-- The body of the loop of `getRDS` after the test of `num_groups`: one
RDS group is decoded into the station record.  The second component tells
whether this group set `new_info`. -/
def processGroup (s : Si4735) (r : Response) : Si4735 × Bool :=
  let s1 : Si4735 :=
    if r.resp12 &&& FIELD_RDS_STATUS_RESP12_BLOCK_A ≠ RDS_STATUS_RESP12_BLOCK_A_UNCORRECTABLE then
      { s with rds.programId := MAKE_WORD r.PI_H r.PI_L }
    else s
  let s2 : Si4735 :=
    { s1 with
      rds.programType :=
        u8 ((((r.Block_B_H &&& 0b00000011) <<< 3) ||| (r.Block_B_L >>> 5) : Nat))
      rds.trafficProgram := ofBool (r.Block_B_H &&& 0b00000100 != 0) }
  let type := groupType r
  let version := groupVersion r
  let s3 : Si4735 :=
    if version then { s2 with rds.groupB := u16 ((s2.rds.groupB ||| (1 <<< type) : Nat)) }
    else { s2 with rds.groupA := u16 ((s2.rds.groupA ||| (1 <<< type) : Nat)) }
  if type = 0 ∨ (type = 15 ∧ version = true) then (group0 s3 r type, true)
  else if type = 1 ∧ version = false then group1A s3 r
  else if type = 2 then (group2 s3 r version, true)
  else if type = 4 ∧ version = false then group4A s3 r
  else if type = 10 ∧ version = false then (group10A s3 r, true)
  else (s3, false)

/-- The loop `while(1)` of `getRDS`.  The list holds the replies of the
radio to the successive FM_RDS_STATUS commands of this poll; the loop ends at
the first reply that reports no group (`response[3] == 0`), or with the list. -/
def getRDSLoop (s : Si4735) (new_info : Bool) : List Response → Si4735 × Bool
  | [] => (s, new_info)
  | r :: replies =>
    let s1 : Si4735 :=
      { s with rds.RDSSignal := r.resp2 &&& FIELD_RDS_STATUS_RESP2_SYNC != 0 }
    if r.resp3 = 0 then (s1, new_info)
    else
      let res := processGroup s1 r
      getRDSLoop res.1 (new_info || res.2) replies

/-- Source `Si4735::getRDS`: the new state and the return value, for the
given replies of the radio. -/
def getRDS (s : Si4735) (replies : List Response) : Si4735 × Bool :=
  if s._mode ≠ FM then (s, false)
  else getRDSLoop (clearInterrupts s RDS_MASK) false replies

/-- The groups of a poll that `getRDS` decodes: in FM mode, the replies
before the first one that reports no group. -/
def processedGroups (s : Si4735) (replies : List Response) : List Response :=
  if s._mode ≠ FM then [] else replies.takeWhile (fun r => r.resp3 != 0)

/-- The station record after a reset by `clearStationInfo` followed by the
given polls of `getRDS`. -/
def afterPolls (s : Si4735) (polls : List (List Response)) : Si4735 :=
  polls.foldl (fun st replies => (getRDS st replies).1) (clearStationInfo s)

/-- A type-4 version-A group whose blocks B, C and D are tagged error-free. -/
def cleanClockGroup (r : Response) : Bool :=
  groupType r == 4 && groupVersion r == false && blocksBCD_no_errors r

end Si4735

/-! ## The proleptic Gregorian calendar (reference definitions)

These definitions follow the calendar, not the code: they are what the
results of `getLocalDateTime` are compared with. -/

/-- Gregorian leap-year rule: every fourth year, except century years not
divisible by 400. -/
def isLeapYear (y : Nat) : Bool :=
  y % 4 = 0 ∧ (y % 100 ≠ 0 ∨ y % 400 = 0)

/-- Length of year `y` in days. -/
def daysInYear (y : Nat) : Nat := if isLeapYear y then 366 else 365

/-- Length of month `m` (1..12) in a leap or a common year. -/
def daysInMonth (leap : Bool) (m : Nat) : Nat :=
  if m = 2 then (if leap then 29 else 28)
  else if m = 4 ∨ m = 6 ∨ m = 9 ∨ m = 11 then 30
  else 31

/-- Days of all the years `0 .. y-1`. -/
def daysBeforeYear : Nat → Nat
  | 0 => 0
  | y + 1 => daysBeforeYear y + daysInYear y

/-- Days of the months before month `m` in a leap or a common year. -/
def daysBeforeMonth (leap : Bool) : Nat → Nat
  | 0 => 0
  | 1 => 0
  | m + 2 => daysBeforeMonth leap (m + 1) + daysInMonth leap (m + 1)

/-- Running day number of the date `y-m-d`, counted from 0000-01-01. -/
def dayNumber (y m d : Nat) : Nat :=
  daysBeforeYear y + daysBeforeMonth (isLeapYear y) m + (d - 1)

/-- Modified Julian Day of the date `y-m-d`: the number of days since
1858-11-17. -/
def mjdOfDate (y m d : Nat) : Int :=
  (dayNumber y m d : Int) - (dayNumber 1858 11 17 : Int)

/-- The date `y-m-d` exists in the calendar. -/
def validDate (y m d : Nat) : Prop :=
  1 ≤ m ∧ m ≤ 12 ∧ 1 ≤ d ∧ d ≤ daysInMonth (isLeapYear y) m

/-! ## A concrete station record -/

/-- A station record for concrete evaluations: FM mode, US locale, an empty
record as `clearStationInfo` leaves it, buffers of the declared lengths. -/
def station0 : Si4735 :=
  { rds :=
      { programId := 0, groupA := 0, groupB := 0, RDSSignal := false, RBDS := true,
        programType := 0, extendedCountryCode := ECC_UNKNOWN, language := LANG_UNKNOWN,
        trafficProgram := unknown, trafficAlert := unknown, music := unknown,
        dynamicPTY := unknown, compressedAudio := unknown, binauralAudio := unknown,
        RDSStereo := unknown,
        programService := List.replicate 8 ' '.toNat ++ [0],
        radioTextLen := 0,
        radioText := List.replicate 65 0,
        programTypeName := List.replicate 9 0,
        MJD := 0, hour := 0, minute := 0, offset := NO_DATE_TIME },
    _mode := FM, _locale := LOCALE_US, _interrupts := 0,
    _abRadioText := unknown, _abProgramTypeName := unknown,
    _extendedCountryCode_count := 0, _language_count := 0 }

/-- A reply carrying a group 4A received without errors whose date, time and
offset bits are all zero: a station that does not broadcast the time yet. -/
def zeroClockReply : Response :=
  { resp2 := 1, resp3 := 1, PI_H := 0x54, PI_L := 0xA8, Block_B_H := 0x40, Block_B_L := 0,
    Block_C_H := 0, Block_C_L := 0, Block_D_H := 0, Block_D_L := 0, resp12 := 0 }

/-- A reply carrying a group 4A received without errors: MJD 60000
(2023-02-25), 12:00 UTC, local offset +2 half hours. -/
def sampleClockReply : Response :=
  { resp2 := 1, resp3 := 1, PI_H := 0x54, PI_L := 0xA8, Block_B_H := 0x40, Block_B_L := 0x01,
    Block_C_H := 0xD4, Block_C_L := 0xC0, Block_D_H := 0xC0, Block_D_L := 0x02, resp12 := 0 }

/-! ## Reference definitions for the compatibility corrections -/

/-- The first correction as the specification words it: the low nibble of
the high byte moves to the high nibble, the low byte stays,
`((PI & 0x0F00) << 4) | (PI & 0x00FF)`. -/
def restoreCoverage (pi : Nat) : Nat :=
  ((pi &&& 0x0F00) <<< 4) ||| (pi &&& 0x00FF)

/-- The corrected 16-bit identifier of a PI with high nibble 0xA, as the
specification words it: with a high byte other than 0xAF the first
correction; with high byte 0xAF the value `(PI << 8) mod 2^16`, corrected
once more by the first rule when its high nibble is again 0xA. -/
def correctedPI (pi : Nat) : Nat :=
  if pi / 256 ≠ 0xAF then restoreCoverage pi
  else
    let shifted := (pi <<< 8) % 2 ^ 16
    if shifted / 4096 = 0xA then restoreCoverage shifted else shifted

/-- A station whose extended country code has been received three times as
that of the USA: the country code is trusted. -/
def stationUS (pi : Nat) : Si4735 :=
  { station0 with
    rds.programId := pi
    rds.extendedCountryCode := ECC_US
    _extendedCountryCode_count := RDS_THRESHOLD }

/-! ## Sequences of groups -/

namespace Si4735

/-- The station record after the groups `gs` have been decoded one after the
other by the loop body of `getRDS`. -/
def processGroups (s : Si4735) (gs : List Response) : Si4735 :=
  gs.foldl (fun st r => (processGroup st r).1) s

/-- A type-1 version-A group of variant 0: it carries the extended country
code. -/
def isECCGroup (r : Response) : Bool :=
  groupType r == 1 && groupVersion r == false && r.Block_C_H &&& 0b01110000 == 0 <<< 4

/-- A type-1 version-A group of variant 3: it carries the language code. -/
def isLanguageGroup (r : Response) : Bool :=
  groupType r == 1 && groupVersion r == false && r.Block_C_H &&& 0b01110000 == 3 <<< 4

/-- The update of a stored value and its counter by one carried value `v`,
as both cases of group 1A make it: nothing at the threshold; below it the
counter restarts from 0 on a changed value, the value is saved and the
counter incremented (a `byte`). -/
def confidenceStep (p : Nat × Nat) (v : Nat) : Nat × Nat :=
  if p.2 < RDS_THRESHOLD then
    (v, u8 (((if p.1 != v then 0 else p.2) + 1 : Nat)))
  else p

/-- The values `a, b, a, b, ...`, `n` of them. -/
def alternating (a b : Nat) : Nat → List Nat
  | 0 => []
  | n + 1 => a :: alternating b a n

end Si4735

/-- A reply carrying a group 1A of variant 0 with the extended country code
`v`, received without errors. -/
def eccReply (v : Nat) : Response :=
  { resp2 := 1, resp3 := 1, PI_H := 0x54, PI_L := 0xA8, Block_B_H := 0x10, Block_B_L := 0,
    Block_C_H := 0x00, Block_C_L := v, Block_D_H := 0, Block_D_L := 0, resp12 := 0 }

/-- A reply carrying a group 1A of variant 3 with the language code `v`,
received without errors. -/
def languageReply (v : Nat) : Response :=
  { resp2 := 1, resp3 := 1, PI_H := 0x54, PI_L := 0xA8, Block_B_H := 0x10, Block_B_L := 0,
    Block_C_H := 0x30, Block_C_L := v, Block_D_H := 0, Block_D_L := 0, resp12 := 0 }

/-! ## Reference definitions for the radio text -/

namespace Si4735

/-- The A/B flag of a group 2A, 2B or 10A: bit 4 of the low byte of block B,
as 0 or 1. -/
def abFlag (r : Response) : Int := ofBool (r.Block_B_L &&& 0b00010000 != 0)

/-- The segment index of a group 2A or 2B: the low four bits of the low byte
of block B. -/
def textSegment (r : Response) : Nat := r.Block_B_L &&& 0x0F

/-- The 64 characters a group 2 starts from: 64 spaces if its A/B flag
differs from the stored `_abRadioText`, else the previous
`rds.radioText[0..63]`. -/
def radioTextBase (s : Si4735) (r : Response) : List Nat :=
  if abFlag r ≠ s._abRadioText then List.replicate 64 ' '.toNat
  else s.rds.radioText.take 64

/-- The raw characters a group 2 carries, in the order they are copied: the
four bytes of blocks C and D for version A, the two bytes of block D for
version B. -/
def textChars (r : Response) : List Nat :=
  if groupVersion r = false then [r.Block_C_H, r.Block_C_L, r.Block_D_H, r.Block_D_L]
  else [r.Block_D_H, r.Block_D_L]

/-- Characters per segment of the radio text: 4 for version A, 2 for
version B. -/
def charsPerSegment (r : Response) : Nat :=
  if groupVersion r = false then 4 else 2

end Si4735

/-- A reply carrying a group 2A with A/B flag 0, segment `seg` and the four
characters `c0 c1 c2 c3`, received without errors. -/
def radioTextReply (seg c0 c1 c2 c3 : Nat) : Response :=
  { resp2 := 1, resp3 := 1, PI_H := 0x54, PI_L := 0xA8, Block_B_H := 0x20, Block_B_L := seg,
    Block_C_H := c0, Block_C_L := c1, Block_D_H := c2, Block_D_L := c3, resp12 := 0 }

/-! ## Replies made of bytes -/

/-- Whether every field of a reply is a byte can be computed. -/
instance Response.decidableWf (r : Response) : Decidable r.wf := by
  unfold Response.wf
  infer_instance

/-! ## Retuning: `tuneFrequency`, `seek_start` -/

/-- Interrupt bit `STC_MASK= 0b00000001`: seek/tune complete. -/
def STC_MASK : Nat := 0b00000001

namespace Si4735

/-- Source `Si4735::tuneFrequency`, on the members of the model: after the
TUNE_FREQ command is sent, the local STC interrupt and the RDS info are
cleared.  The frequency, the command buffer and the bus are not members of
the model. -/
def tuneFrequency (s : Si4735) : Si4735 :=
  clearStationInfo (clearInterrupts s STC_MASK)

/-- Source `Si4735::seek_start`, on the members of the model: after the
SEEK_START command is sent, the local STC interrupt and the RDS info are
cleared.  The frequency, the command buffer and the bus are not members of
the model. -/
def seek_start (s : Si4735) : Si4735 :=
  clearStationInfo (clearInterrupts s STC_MASK)

/-! ## Program type text: `getProgramTypeStr` -/

/-- Table `PTY_RBDS_to_str[51][16]`: descriptive text for each PTY code, one
row of 16 characters per code; rows 32 to 50 are the texts for locales
outside the USA.  The apostrophe of row 43 is written as character 39. -/
def PTY_RBDS_to_str : List (List Nat) := ([
  [' ',' ',' ',' ',' ',' ','N','o','n','e',' ',' ',' ',' ',' ',' '],
  [' ',' ',' ',' ',' ',' ','N','e','w','s',' ',' ',' ',' ',' ',' '],
  [' ',' ','I','n','f','o','r','m','a','t','i','o','n',' ',' ',' '],
  [' ',' ',' ',' ',' ','S','p','o','r','t','s',' ',' ',' ',' ',' '],
  [' ',' ',' ',' ',' ',' ','T','a','l','k',' ',' ',' ',' ',' ',' '],
  [' ',' ',' ',' ',' ',' ','R','o','c','k',' ',' ',' ',' ',' ',' '],
  [' ',' ','C','l','a','s','s','i','c',' ','R','o','c','k',' ',' '],
  [' ',' ',' ','A','d','u','l','t',' ','H','i','t','s',' ',' ',' '],
  [' ',' ',' ','S','o','f','t',' ','R','o','c','k',' ',' ',' ',' '],
  [' ',' ',' ',' ',' ','T','o','p',' ','4','0',' ',' ',' ',' ',' '],
  [' ',' ',' ',' ','C','o','u','n','t','r','y',' ',' ',' ',' ',' '],
  [' ',' ',' ',' ',' ','O','l','d','i','e','s',' ',' ',' ',' ',' '],
  [' ',' ',' ',' ',' ',' ','S','o','f','t',' ',' ',' ',' ',' ',' '],
  [' ',' ',' ','N','o','s','t','a','l','g','i','a',' ',' ',' ',' '],
  [' ',' ',' ',' ',' ',' ','J','a','z','z',' ',' ',' ',' ',' ',' '],
  [' ',' ',' ','C','l','a','s','s','i','c','a','l',' ',' ',' ',' '],
  ['R','h','y','t','h','m',' ','a','n','d',' ','B','l','u','e','s'],
  [' ',' ',' ','S','o','f','t',' ','R',' ','&',' ','B',' ',' ',' '],
  ['F','o','r','e','i','g','n',' ','L','a','n','g','u','a','g','e'],
  ['R','e','l','i','g','i','o','u','s',' ','M','u','s','i','c',' '],
  [' ','R','e','l','i','g','i','o','u','s',' ','T','a','l','k',' '],
  [' ',' ','P','e','r','s','o','n','a','l','i','t','y',' ',' ',' '],
  [' ',' ',' ',' ',' ','P','u','b','l','i','c',' ',' ',' ',' ',' '],
  [' ',' ',' ',' ','C','o','l','l','e','g','e',' ',' ',' ',' ',' '],
  [' ',' ','S','p','a','n','i','s','h',' ','T','a','l','k',' ',' '],
  [' ','S','p','a','n','i','s','h',' ','M','u','s','i','c',' ',' '],
  [' ',' ',' ',' ','H','i','p',' ','H','o','p',' ',' ',' ',' ',' '],
  [' ','R','e','s','e','r','v','e','d',' ',' ','-','2','7','-',' '],
  [' ','R','e','s','e','r','v','e','d',' ',' ','-','2','8','-',' '],
  [' ',' ',' ',' ',' ','W','e','a','t','h','e','r',' ',' ',' ',' '],
  [' ','E','m','e','r','g','e','n','c','y',' ','T','e','s','t',' '],
  [' ','A','L','E','R','T','!',' ','A','L','E','R','T','!',' ',' '],
  ['C','u','r','r','e','n','t',' ','A','f','f','a','i','r','s',' '],
  [' ',' ',' ','E','d','u','c','a','t','i','o','n',' ',' ',' ',' '],
  [' ',' ',' ',' ',' ','D','r','a','m','a',' ',' ',' ',' ',' ',' '],
  [' ',' ',' ',' ','C','u','l','t','u','r','e','s',' ',' ',' ',' '],
  [' ',' ',' ',' ','S','c','i','e','n','c','e',' ',' ',' ',' ',' '],
  [' ','V','a','r','i','e','d',' ','S','p','e','e','c','h',' ',' '],
  [' ','E','a','s','y',' ','L','i','s','t','e','n','i','n','g',' '],
  [' ','L','i','g','h','t',' ','C','l','a','s','s','i','c','s',' '],
  ['S','e','r','i','o','u','s',' ','C','l','a','s','s','i','c','s'],
  [' ',' ','O','t','h','e','r',' ','M','u','s','i','c',' ',' ',' '],
  [' ',' ',' ',' ','F','i','n','a','n','c','e',' ',' ',' ',' ',' '],
  ['C','h','i','l','d','r','e','n',Char.ofNat 39,'s',' ','P','r','o','g','s'],
  [' ','S','o','c','i','a','l',' ','A','f','f','a','i','r','s',' '],
  [' ',' ',' ',' ','P','h','o','n','e',' ','I','n',' ',' ',' ',' '],
  ['T','r','a','v','e','l',' ','&',' ','T','o','u','r','i','n','g'],
  ['L','e','i','s','u','r','e',' ','&',' ','H','o','b','b','y',' '],
  [' ','N','a','t','i','o','n','a','l',' ','M','u','s','i','c',' '],
  [' ',' ',' ','F','o','l','k',' ','M','u','s','i','c',' ',' ',' '],
  [' ',' ','D','o','c','u','m','e','n','t','a','r','y',' ',' ',' ']]
  : List (List Char)).map (fun row => row.map Char.toNat)

/-- Table `PTY_RDS_to_RBDS[32]`: translation of an RDS PTY code to an RBDS
PTY code. -/
def PTY_RDS_to_RBDS : List Nat := [
  0, 1, 32, 2,
  3, 33, 34, 35,
  36, 37, 9, 5,
  38, 39, 40, 41,
  29, 42, 43, 44,
  20, 45, 46, 47,
  14, 10, 48, 11,
  49, 50, 30, 31]

/-- The row of `PTY_RBDS_to_str` that `getProgramTypeStr` reads: the program
type itself under RBDS, its translation by `PTY_RDS_to_RBDS` under RDS.
`none` when the read of the translation table is outside the table. -/
def programTypeRow (RBDS : Bool) (programType : Nat) : Option Nat :=
  if RBDS then some programType else PTY_RDS_to_RBDS[programType]?

/-- Source `Si4735::getProgramTypeStr`: stores `check_if_RBDS()` in `rds.RBDS`
and copies 16 characters of the selected row, then NUL, to the caller's
buffer of 17 characters.  The result is the new state and the buffer; `none`
when a table is read outside its bounds. -/
def getProgramTypeStr (s : Si4735) : Option (Si4735 × List Nat) :=
  let s1 : Si4735 := { s with rds.RBDS := check_if_RBDS s }
  match programTypeRow s1.rds.RBDS s1.rds.programType with
  | none => none
  | some i =>
    match PTY_RBDS_to_str[i]? with
    | none => none
    | some str => some (s1, str.take 16 ++ [0])

/-! ## New information: what makes `getRDS` return true -/

end Si4735

/-! ## Hexadecimal command strings: `sendCommand(const char*)` -/

/-- Enum `CMD_MAX_LENGTH=8`: the length of `_buffer`. -/
def CMD_MAX_LENGTH : Nat := 8

/-- C library function `toupper` in the C locale: a lower-case letter becomes
the upper-case one, any other character is returned as it is. -/
def toupper (c : Nat) : Nat :=
  if 'a'.toNat ≤ c ∧ c ≤ 'z'.toNat then c - ('a'.toNat - 'A'.toNat) else c

namespace Si4735

/-- The value `tempValue` (a `byte`) that `sendCommand` computes from
`digit`: `toupper(digit)-'A'+10` if `digit > '9'`, else `digit-'0'`. -/
def tempValue (digit : Nat) : Nat :=
  if digit > '9'.toNat then u8 ((toupper digit : Int) - 'A'.toNat + 10)
  else u8 ((digit : Int) - '0'.toNat)

/-- The loop of `sendCommand(const char*)`.  The list is the rest of the
string `myCommand` (its end, or a character 0, is the terminating NUL),
`buffer` is `_buffer` and `index` the location in it.  The loop condition is
the source expression `digit=*myCommand++ && index<sizeof(_buffer)`: the
operator `&&` binds tighter than `=`, so `digit` receives the truth value of
the conjunction, 1 or 0. -/
def sendCommandLoop (buffer : List Nat) (index : Nat) : List Nat → List Nat × Nat
  | [] => (buffer, index)
  | [c] =>
    let digit : Nat := if c ≠ 0 ∧ index < CMD_MAX_LENGTH then 1 else 0
    if digit = 0 then (buffer, index)
    else (buffer.set index (u8 ((tempValue digit * 16 : Nat))), index)
  | c :: d :: rest =>
    let digit : Nat := if c ≠ 0 ∧ index < CMD_MAX_LENGTH then 1 else 0
    if digit = 0 then (buffer, index)
    else
      let buffer1 := buffer.set index (u8 ((tempValue digit * 16 : Nat)))
      if d = 0 then (buffer1, index)
      else
        sendCommandLoop
          (buffer1.set index (u8 ((buffer1.getD index 0 + tempValue d : Nat))))
          (u8 ((index + 1 : Nat))) rest

/-- Source `Si4735::sendCommand(const char *myCommand)`: the command packet
handed to the low-level `sendCommand(_buffer, index)`, that is the first
`index` bytes of `_buffer` after the conversion loop. -/
def sendCommand (buffer : List Nat) (myCommand : List Nat) : List Nat :=
  let res := sendCommandLoop buffer 0 myCommand
  res.1.take res.2

end Si4735

/-- A hexadecimal digit: '0'..'9', 'A'..'F' or 'a'..'f'. -/
def isHexDigit (c : Nat) : Bool :=
  ('0'.toNat ≤ c && c ≤ '9'.toNat) || ('A'.toNat ≤ c && c ≤ 'F'.toNat) ||
    ('a'.toNat ≤ c && c ≤ 'f'.toNat)

/-- The value of a hexadecimal digit, as the specification uses it: 0..9 for
'0'..'9', 10..15 for 'A'..'F' and 'a'..'f'. -/
def hexValue (c : Nat) : Nat :=
  if '0'.toNat ≤ c ∧ c ≤ '9'.toNat then c - '0'.toNat
  else if 'A'.toNat ≤ c ∧ c ≤ 'F'.toNat then c - 'A'.toNat + 10
  else if 'a'.toNat ≤ c ∧ c ≤ 'f'.toNat then c - 'a'.toNat + 10
  else 0

/-- The bytes a string of hexadecimal digits denotes, as the specification
words it: two digits per byte, byte `i` is
`16*value(digit 2i) + value(digit 2i+1)`. -/
def hexBytes : List Nat → List Nat
  | c :: d :: rest => (16 * hexValue c + hexValue d) :: hexBytes rest
  | _ => []

/-! ## More concrete records and replies -/

/-- A station record in which the country code 0xE0 has been received three
times, as `getRDS` leaves it: a trusted country code that is not the USA. -/
def stationAbroad : Si4735 :=
  Si4735.processGroups station0 [eccReply 0xE0, eccReply 0xE0, eccReply 0xE0]

/-- A reply carrying a group 4A with the date and time of `sampleClockReply`
in which block C is tagged as corrected (1-2 bit errors). -/
def damagedClockReply : Response :=
  { sampleClockReply with resp12 := 0b00000100 }

/-- A reply carrying a group 5A (not decoded by `getRDS`) whose block A is
tagged uncorrectable. -/
def lostPIReply : Response :=
  { resp2 := 1, resp3 := 1, PI_H := 0x12, PI_L := 0x34, Block_B_H := 0x50, Block_B_L := 0,
    Block_C_H := 0, Block_C_L := 0, Block_D_H := 0, Block_D_L := 0, resp12 := 0b11000000 }

/-- A reply carrying a group 5A (not decoded by `getRDS`) with program type
31, received without errors. -/
def otherGroupReply : Response :=
  { resp2 := 1, resp3 := 1, PI_H := 0x12, PI_L := 0x34, Block_B_H := 0x53, Block_B_L := 0xE0,
    Block_C_H := 0, Block_C_L := 0, Block_D_H := 0, Block_D_L := 0, resp12 := 0 }

/-! ## Replies with basic tuning information and a program type name -/

/-- A reply carrying a group 0A with the low byte `bl` of block B (flags and
segment) and the two characters `dh dl` of the station name, received without
errors. -/
def basicReply (bl dh dl : Nat) : Response :=
  { resp2 := 1, resp3 := 1, PI_H := 0x54, PI_L := 0xA8, Block_B_H := 0x00, Block_B_L := bl,
    Block_C_H := 0, Block_C_L := 0, Block_D_H := dh, Block_D_L := dl, resp12 := 0 }

/-- A reply carrying a group 15B with the low byte `bl` of block B and the
bytes `dh dl` in block D, received without errors. -/
def fastBasicReply (bl dh dl : Nat) : Response :=
  { resp2 := 1, resp3 := 1, PI_H := 0x54, PI_L := 0xA8, Block_B_H := 0xF8, Block_B_L := bl,
    Block_C_H := 0, Block_C_L := 0, Block_D_H := dh, Block_D_L := dl, resp12 := 0 }

/-- A reply carrying a group 10A with the low byte `bl` of block B (A/B flag
and segment) and the four characters `c0 c1 c2 c3`, received without
errors. -/
def typeNameReply (bl c0 c1 c2 c3 : Nat) : Response :=
  { resp2 := 1, resp3 := 1, PI_H := 0x54, PI_L := 0xA8, Block_B_H := 0xA0, Block_B_L := bl,
    Block_C_H := c0, Block_C_L := c1, Block_D_H := c2, Block_D_L := c3, resp12 := 0 }

/-! ## The stores of the station name -/

namespace Si4735

/-- The two stores of a group 0 into `rds.programService`: the filtered bytes
of block D at `segment*2` and `segment*2 + 1`, where `segment` is the low two
bits of the low byte of block B. -/
def storeName (ps : List Nat) (r : Response) : List Nat :=
  (ps.set ((r.Block_B_L &&& 0b00000011) * 2) (make_printable r.Block_D_H)).set
    ((r.Block_B_L &&& 0b00000011) * 2 + 1) (make_printable r.Block_D_L)

end Si4735

/-! ## The character stores of `getRDS`, with bounds checked

The functions of this section are the character-storing parts of `getRDS`
once more, with every store into `rds.programService`, `rds.radioText` and
`rds.programTypeName` made through `storeChar`, which refuses an index
outside the characters of the array.  They return `none` as soon as one store
is refused. -/

/-- A store `field[i] = v` into a character array declared with `size`
elements, the last of which holds the terminator: `none` when `i` is not one
of the character positions `0 .. size-2`, that is when the store would
overwrite the terminator or fall outside the array. -/
def storeChar (size : Nat) (field : List Nat) (i v : Nat) : Option (List Nat) :=
  if i + 1 < size then some (field.set i v) else none

/-- The loop `for(byte i=0; i<sizeof(field)-1; i++) field[i]=' ';` with
checked stores. -/
def blankChecked (size : Nat) (field : List Nat) : Option (List Nat) :=
  (List.range (size - 1)).foldlM (fun t i => storeChar size t i ' '.toNat) field

namespace Si4735

/-- Groups 0A, 0B and 15B of `getRDS` with checked stores into
`rds.programService` (`char programService[9]`). -/
def group0Checked (s : Si4735) (r : Response) (type : Nat) : Option Si4735 :=
  let s1 : Si4735 :=
    { s with
      rds.trafficAlert := ofBool (r.Block_B_L &&& 0b00010000 != 0)
      rds.music := ofBool (r.Block_B_L &&& 0b00001000 != 0) }
  let DI : Int := ofBool (r.Block_B_L &&& 0b00000100 != 0)
  let segment : Nat := u8 ((r.Block_B_L &&& 0b00000011 : Nat))
  let s2 : Si4735 :=
    match segment with
    | 0 => { s1 with rds.dynamicPTY := DI }
    | 1 => { s1 with rds.compressedAudio := DI }
    | 2 => { s1 with rds.binauralAudio := DI }
    | 3 => { s1 with rds.RDSStereo := DI }
    | _ => s1
  if type = 0 then
    match storeChar 9 s2.rds.programService (segment * 2) (make_printable r.Block_D_H) with
    | none => none
    | some ps =>
      match storeChar 9 ps (segment * 2 + 1) (make_printable r.Block_D_L) with
      | none => none
      | some ps1 => some { s2 with rds.programService := ps1 }
  else some s2

/-- The copy loop of the radio text with checked stores into `rds.radioText`
(`char radioText[65]`). -/
def copyCharsChecked (radioText : List Nat) (radioTextLen rt : Nat) :
    List Nat → Option (List Nat × Nat)
  | [] => some (radioText, radioTextLen)
  | ch :: block =>
    let len := if ch = '\r'.toNat then u8 (rt : Nat) else radioTextLen
    match storeChar 65 radioText rt (make_printable ch) with
    | none => none
    | some text => copyCharsChecked text len (rt + 1) block

/-- Groups 2A and 2B of `getRDS` with checked stores into `rds.radioText`. -/
def group2Checked (s : Si4735) (r : Response) (version : Bool) : Option Si4735 :=
  let new_ab : Int := ofBool (r.Block_B_L &&& 0b00010000 != 0)
  let blanked : Option Si4735 :=
    if new_ab ≠ s._abRadioText then
      match blankChecked 65 s.rds.radioText with
      | none => none
      | some text =>
        some { s with
          _abRadioText := new_ab
          rds.radioText := text
          rds.radioTextLen := 65 }
    else some s
  match blanked with
  | none => none
  | some s1 =>
    let segment : Nat := u8 ((r.Block_B_L &&& 0x0F : Nat))
    let copied :=
      if version = false then
        copyCharsChecked s1.rds.radioText s1.rds.radioTextLen (segment * 4)
          [r.Block_C_H, r.Block_C_L, r.Block_D_H, r.Block_D_L]
      else
        copyCharsChecked s1.rds.radioText s1.rds.radioTextLen (segment * 2)
          [r.Block_D_H, r.Block_D_L]
    match copied with
    | none => none
    | some c => some { s1 with rds.radioText := c.1, rds.radioTextLen := c.2 }

/-- Group 10A of `getRDS` with checked stores into `rds.programTypeName`
(`char programTypeName[9]`). -/
def group10AChecked (s : Si4735) (r : Response) : Option Si4735 :=
  let new_ab : Int := ofBool (r.Block_B_L &&& 0b00010000 != 0)
  let blanked : Option Si4735 :=
    if new_ab ≠ s._abProgramTypeName then
      match blankChecked 9 s.rds.programTypeName with
      | none => none
      | some text => some { s with _abProgramTypeName := new_ab, rds.programTypeName := text }
    else some s
  match blanked with
  | none => none
  | some s1 =>
    let segment : Nat := u8 ((r.Block_B_L &&& 0x01 : Nat))
    let name := segment * 4
    match storeChar 9 s1.rds.programTypeName name (make_printable r.Block_C_H) with
    | none => none
    | some n1 =>
      match storeChar 9 n1 (name + 1) (make_printable r.Block_C_L) with
      | none => none
      | some n2 =>
        match storeChar 9 n2 (name + 2) (make_printable r.Block_D_H) with
        | none => none
        | some n3 =>
          match storeChar 9 n3 (name + 3) (make_printable r.Block_D_L) with
          | none => none
          | some n4 => some { s1 with rds.programTypeName := n4 }

/-- The body of the loop of `getRDS` with checked character stores: as
`processGroup`, the groups that store characters going through the checked
handlers. -/
def processGroupChecked (s : Si4735) (r : Response) : Option (Si4735 × Bool) :=
  let s1 : Si4735 :=
    if r.resp12 &&& FIELD_RDS_STATUS_RESP12_BLOCK_A ≠ RDS_STATUS_RESP12_BLOCK_A_UNCORRECTABLE then
      { s with rds.programId := MAKE_WORD r.PI_H r.PI_L }
    else s
  let s2 : Si4735 :=
    { s1 with
      rds.programType :=
        u8 ((((r.Block_B_H &&& 0b00000011) <<< 3) ||| (r.Block_B_L >>> 5) : Nat))
      rds.trafficProgram := ofBool (r.Block_B_H &&& 0b00000100 != 0) }
  let type := groupType r
  let version := groupVersion r
  let s3 : Si4735 :=
    if version then { s2 with rds.groupB := u16 ((s2.rds.groupB ||| (1 <<< type) : Nat)) }
    else { s2 with rds.groupA := u16 ((s2.rds.groupA ||| (1 <<< type) : Nat)) }
  if type = 0 ∨ (type = 15 ∧ version = true) then
    (group0Checked s3 r type).map (fun st => (st, true))
  else if type = 1 ∧ version = false then some (group1A s3 r)
  else if type = 2 then (group2Checked s3 r version).map (fun st => (st, true))
  else if type = 4 ∧ version = false then some (group4A s3 r)
  else if type = 10 ∧ version = false then (group10AChecked s3 r).map (fun st => (st, true))
  else some (s3, false)

/-- The loop `while(1)` of `getRDS` with checked character stores. -/
def getRDSLoopChecked (s : Si4735) (new_info : Bool) : List Response → Option (Si4735 × Bool)
  | [] => some (s, new_info)
  | r :: replies =>
    let s1 : Si4735 :=
      { s with rds.RDSSignal := r.resp2 &&& FIELD_RDS_STATUS_RESP2_SYNC != 0 }
    if r.resp3 = 0 then some (s1, new_info)
    else
      match processGroupChecked s1 r with
      | none => none
      | some res => getRDSLoopChecked res.1 (new_info || res.2) replies

/-- Source `Si4735::getRDS` with checked character stores. -/
def getRDSChecked (s : Si4735) (replies : List Response) : Option (Si4735 × Bool) :=
  if s._mode ≠ FM then some (s, false)
  else getRDSLoopChecked (clearInterrupts s RDS_MASK) false replies

end Si4735

/-! ## The printable filter in the words of the specification -/

/-- Reference filter, in the words of the specification ("printable or
space": non-printable ASCII becomes a space): the codes 32..126 are the
printable characters and are kept, every other byte becomes the space, code
32.  It follows the specification, not the code; `make_printable` is compared
with it. -/
def printableOrSpace (b : Nat) : Nat := if 32 ≤ b ∧ b ≤ 126 then b else 32

/-! ## Bit masks as arithmetic -/

/-- A mask of `a` ones shifted left by `b` places selects the digits
`b .. b+a-1` of the binary expansion. -/
theorem and_shifted_ones (x a b : Nat) :
    x &&& (2 ^ b * (2 ^ a - 1)) = 2 ^ b * (x / 2 ^ b % 2 ^ a) := by
  apply Nat.eq_of_testBit_eq
  intro i
  rw [Nat.testBit_and, Nat.testBit_mul_pow_two, Nat.testBit_mul_pow_two,
    Nat.testBit_two_pow_sub_one, Nat.testBit_mod_two_pow, ← Nat.shiftRight_eq_div_pow,
    Nat.testBit_shiftRight]
  by_cases h : b ≤ i
  · by_cases h2 : i - b < a
    · have : b + (i - b) = i := by omega
      simp [h, h2, this]
    · simp [h, h2]
  · simp [h]

theorem and_F000 (x : Nat) : x &&& 0xF000 = 4096 * (x / 4096 % 16) :=
  and_shifted_ones x 4 12

theorem and_FF00 (x : Nat) : x &&& 0xFF00 = 256 * (x / 256 % 256) :=
  and_shifted_ones x 8 8

theorem and_0F00 (x : Nat) : x &&& 0x0F00 = 256 * (x / 256 % 16) :=
  and_shifted_ones x 4 8

theorem and_00FF (x : Nat) : x &&& 0x00FF = x % 256 := by
  simpa using and_shifted_ones x 8 0

theorem or_bit8_ne_zero (x : Nat) : (x ||| (1 <<< 8)) ≠ 0 := by
  intro h
  have h1 : (x ||| (1 <<< 8)).testBit 8 = true := by
    have h2 : Nat.testBit (1 <<< 8) 8 = true := by decide
    rw [Nat.testBit_or, h2, Bool.or_true]
  rw [h] at h1
  simp at h1

theorem u8_ofNat (n : Nat) : u8 (n : Int) = n % 256 := by
  unfold u8; omega

theorem u16_ofNat (n : Nat) : u16 (n : Int) = n % 65536 := by
  unfold u16; omega

theorem u32_ofNat (n : Nat) : u32 (n : Int) = n % 4294967296 := by
  unfold u32; omega

/-- The filter of the source is the filter of the specification: a byte in
32..126 is kept, any other byte becomes a space. -/
theorem make_printable_eq (b : Nat) : Si4735.make_printable b = printableOrSpace b := by
  unfold Si4735.make_printable printableOrSpace
  have hs : ' '.toNat = 32 := rfl
  rw [hs]
  split_ifs <;> omega

/-! ## Calendar arithmetic -/

/-- Closed form of the number of days before year `y`. -/
theorem daysBeforeYear_eq (y : Nat) :
    daysBeforeYear y = 365 * y + (y + 3) / 4 - (y + 99) / 100 + (y + 399) / 400 := by
  induction y with
  | zero => rfl
  | succ n ih =>
    rw [daysBeforeYear, ih, daysInYear, isLeapYear]
    by_cases h4 : n % 4 = 0 <;> by_cases h100 : n % 100 = 0 <;> by_cases h400 : n % 400 = 0 <;>
      simp [h4, h100, h400] <;> omega

/-- Running day number of the origin of the Modified Julian Date. -/
theorem dayNumber_epoch : dayNumber 1858 11 17 = 678941 := by
  simp [dayNumber, daysBeforeYear_eq, daysBeforeMonth, daysInMonth, isLeapYear]

/-- Sanity check of the reference calendar: 2000-01-01 is MJD 51544. -/
theorem mjdOfDate_2000_01_01 : mjdOfDate 2000 1 1 = 51544 := by
  simp [mjdOfDate, dayNumber, daysBeforeYear_eq, daysBeforeMonth, daysInMonth, isLeapYear]

theorem daysInMonth_of_three_le (a b : Bool) (m : Nat) (h : 3 ≤ m) :
    daysInMonth a m = daysInMonth b m := by
  have h2 : m ≠ 2 := by omega
  simp only [daysInMonth, h2, if_false]

theorem daysBeforeMonth_true (m : Nat) (h : 3 ≤ m) (h12 : m ≤ 12) :
    daysBeforeMonth true m = daysBeforeMonth false m + 1 := by
  interval_cases m <;> simp [daysBeforeMonth, daysInMonth]

theorem isLeapYear_iff (y : Nat) :
    isLeapYear y = true ↔ (y % 4 = 0 ∧ (y % 100 ≠ 0 ∨ y % 400 = 0)) := by
  simp [isLeapYear]

/-! ## A day number belongs to one date only -/

theorem daysBeforeMonth_succ (leap : Bool) (m : Nat) (h : 1 ≤ m) :
    daysBeforeMonth leap (m + 1) = daysBeforeMonth leap m + daysInMonth leap m := by
  obtain ⟨k, rfl⟩ : ∃ k, m = k + 1 := ⟨m - 1, by omega⟩
  rfl

theorem daysBeforeMonth_mono (leap : Bool) (m n : Nat) (h : m ≤ n) :
    daysBeforeMonth leap m ≤ daysBeforeMonth leap n := by
  induction n with
  | zero =>
    have : m = 0 := by omega
    subst this; exact Nat.le_refl _
  | succ k ih =>
    by_cases hk : m = k + 1
    · subst hk; exact Nat.le_refl _
    · have hle : m ≤ k := by omega
      by_cases hk0 : k = 0
      · subst hk0
        have : m = 0 := by omega
        subst this
        simp [daysBeforeMonth]
      · rw [daysBeforeMonth_succ leap k (by omega)]
        exact Nat.le_trans (ih hle) (Nat.le_add_right _ _)

theorem daysBeforeMonth_thirteen (leap : Bool) :
    daysBeforeMonth leap 13 = if leap then 366 else 365 := by
  cases leap <;> simp [daysBeforeMonth, daysInMonth]

theorem daysBeforeYear_mono (y z : Nat) (h : y ≤ z) : daysBeforeYear y ≤ daysBeforeYear z := by
  induction z with
  | zero =>
    have : y = 0 := by omega
    subst this; exact Nat.le_refl _
  | succ k ih =>
    by_cases hk : y = k + 1
    · subst hk; exact Nat.le_refl _
    · have h1 : daysBeforeYear (k + 1) = daysBeforeYear k + daysInYear k := rfl
      have h2 := ih (by omega)
      omega

/-- Two dates of the calendar with the same running day number are the same
date. -/
theorem dayNumber_injective (y m d z n e : Nat) (h : validDate y m d) (k : validDate z n e)
    (heq : dayNumber y m d = dayNumber z n e) : y = z ∧ m = n ∧ d = e := by
  obtain ⟨hm1, hm12, hd1, hd⟩ := h
  obtain ⟨hn1, hn12, he1, he⟩ := k
  have inYear : ∀ (a b c : Nat), 1 ≤ b → b ≤ 12 → 1 ≤ c → c ≤ daysInMonth (isLeapYear a) b →
      daysBeforeYear a ≤ dayNumber a b c ∧ dayNumber a b c < daysBeforeYear (a + 1) := by
    intro a b c hb1 hb12 hc1 hc
    have h1 := daysBeforeMonth_succ (isLeapYear a) b hb1
    have h2 := daysBeforeMonth_mono (isLeapYear a) (b + 1) 13 (by omega)
    have h3 := daysBeforeMonth_thirteen (isLeapYear a)
    have h4 : daysBeforeYear (a + 1) = daysBeforeYear a + daysInYear a := rfl
    unfold daysInYear at h4
    unfold dayNumber
    split_ifs at h3 h4 <;> omega
  have hy : y = z := by
    have a1 := inYear y m d hm1 hm12 hd1 hd
    have a2 := inYear z n e hn1 hn12 he1 he
    by_contra hne
    rcases Nat.lt_or_gt_of_ne hne with hlt | hgt
    · have := daysBeforeYear_mono (y + 1) z (by omega)
      omega
    · have := daysBeforeYear_mono (z + 1) y (by omega)
      omega
  subst hy
  have hsum : daysBeforeMonth (isLeapYear y) m + d = daysBeforeMonth (isLeapYear y) n + e := by
    unfold dayNumber at heq
    omega
  have hmn : m = n := by
    by_contra hne
    rcases Nat.lt_or_gt_of_ne hne with hlt | hgt
    · have b1 := daysBeforeMonth_succ (isLeapYear y) m hm1
      have b2 := daysBeforeMonth_mono (isLeapYear y) (m + 1) n (by omega)
      omega
    · have b1 := daysBeforeMonth_succ (isLeapYear y) n hn1
      have b2 := daysBeforeMonth_mono (isLeapYear y) (n + 1) m (by omega)
      omega
  subst hmn
  exact ⟨rfl, rfl, by omega⟩

namespace Si4735

/-! ## Call-sign decoder -/

/-- Outside the A-nibble the compatibility corrections leave the PI alone. -/
theorem compatPI_of_nibble_ne {pi : Nat} (h : pi / 4096 % 16 ≠ 10) : compatPI pi = pi := by
  have h1 : ¬ (pi &&& 0xFF00 = 0xAF00) := by
    rw [and_FF00]; omega
  have h2 : ¬ (pi &&& 0xF000 = 0xA000) := by
    rw [and_F000]; omega
  simp only [compatPI, h1, h2, if_false]

/-- With the RBDS flag set and the high nibble neither 1 nor A, the decoder
is the chain of range tests on the PI itself. -/
theorem callSignOf_plain (pi groupA : Nat) (h1 : pi / 4096 % 16 ≠ 1)
    (hA : pi / 4096 % 16 ≠ 10) : callSignOf true pi groupA = decodeRanges pi := by
  have h2 : ¬ (pi &&& 0xF000 = 0x1000) := by
    rw [and_F000]; omega
  simp [callSignOf, h2, compatPI_of_nibble_ne hA]

/-- The three letters unpacked from a packed code below 26^3. -/
theorem unpack_eq (c0 d : Nat) (h : d < 17576) :
    unpack c0 d = (true, [c0, 65 + d / 676, 65 + d / 26 % 26, 65 + d % 26, 0]) := by
  have hA : 'A'.toNat = 65 := by decide
  simp only [unpack, hA, u8_ofNat]
  have e1 : (d % 26 + 65) % 256 = 65 + d % 26 := by omega
  have e2 : (d / 26 % 26 + 65) % 256 = 65 + d / 26 % 26 := by omega
  have e3 : (d / 26 / 26 + 65) % 256 = 65 + d / 676 := by omega
  rw [e1, e2, e3]

/-- C1: for every PI in 0x2000..0x994F under the US scheme, getCallSign
returns true and writes c0 c1 c2 c3 NUL, with c0 = K and base 0x1000 below
0x54A8, else c0 = W and base 0x54A8, the letters c1 c2 c3 in A..Z being the
base-26 digits of PI - base; and decoding 0x54A8 + PACK(L3,L2,L1) gives back
W L3 L2 L1 for all letter triples. -/
theorem getCallSign_name_space (s : Si4735) (hR : check_if_RBDS s = true) :
    (0x2000 ≤ s.rds.programId → s.rds.programId ≤ 0x994F →
      ∃ c1 c2 c3 : Nat,
        (getCallSign s).2 =
          (true, [if s.rds.programId < 0x54A8 then 'K'.toNat else 'W'.toNat, c1, c2, c3, 0]) ∧
        ('A'.toNat ≤ c1 ∧ c1 ≤ 'Z'.toNat) ∧ ('A'.toNat ≤ c2 ∧ c2 ≤ 'Z'.toNat) ∧
        ('A'.toNat ≤ c3 ∧ c3 ≤ 'Z'.toNat) ∧
        s.rds.programId - (if s.rds.programId < 0x54A8 then 0x1000 else 0x54A8) =
          676 * (c1 - 'A'.toNat) + 26 * (c2 - 'A'.toNat) + (c3 - 'A'.toNat)) ∧
    (∀ L3 L2 L1 : Char,
      ('A'.toNat ≤ L3.toNat ∧ L3.toNat ≤ 'Z'.toNat) →
      ('A'.toNat ≤ L2.toNat ∧ L2.toNat ≤ 'Z'.toNat) →
      ('A'.toNat ≤ L1.toNat ∧ L1.toNat ≤ 'Z'.toNat) →
      s.rds.programId = 0x54A8 + PACK L3 L2 L1 →
      (getCallSign s).2 = (true, ['W'.toNat, L3.toNat, L2.toNat, L1.toNat, 0])) := by
  have hA : 'A'.toNat = 65 := by decide
  have hZ : 'Z'.toNat = 90 := by decide
  have hK : 'K'.toNat = 75 := by decide
  have hW : 'W'.toNat = 87 := by decide
  have hget : (getCallSign s).2 = callSignOf true s.rds.programId s.rds.groupA := by
    simp [getCallSign, hR]
  constructor
  · intro h1 h2
    have hplain := callSignOf_plain s.rds.programId s.rds.groupA
      (by omega) (by omega)
    rw [hget, hplain]
    by_cases hlt : s.rds.programId < 0x54A8
    · have hd : u16 ((s.rds.programId : Int) - (NAME_SPACE_BEGIN : Nat)) =
          s.rds.programId - 0x1000 := by
        simp only [u16, NAME_SPACE_BEGIN]; omega
      have hdec : decodeRanges s.rds.programId = unpack 75 (s.rds.programId - 0x1000) := by
        have n1 : ¬ (s.rds.programId ≥ NAME_SPACE_BEGIN + NAME_SPACE * 2) := by
          simp only [NAME_SPACE_BEGIN, NAME_SPACE]; omega
        have n2 : ¬ (s.rds.programId ≥ NAME_SPACE_BEGIN + NAME_SPACE) := by
          simp only [NAME_SPACE_BEGIN, NAME_SPACE]; omega
        have n3 : s.rds.programId ≥ NAME_SPACE_BEGIN := by
          simp only [NAME_SPACE_BEGIN]; omega
        simp only [decodeRanges, n1, n2, n3, if_false, if_true, hd, hK]
      rw [hdec, unpack_eq _ _ (by omega)]
      refine ⟨65 + (s.rds.programId - 0x1000) / 676, 65 + (s.rds.programId - 0x1000) / 26 % 26,
        65 + (s.rds.programId - 0x1000) % 26, ?_, ?_, ?_, ?_, ?_⟩
      · simp [hlt, hK]
      · rw [hA, hZ]; omega
      · rw [hA, hZ]; omega
      · rw [hA, hZ]; omega
      · rw [hA, if_pos hlt]; omega
    · have hd : u16 ((s.rds.programId : Int) - (NAME_SPACE_BEGIN + NAME_SPACE : Nat)) =
          s.rds.programId - 0x54A8 := by
        simp only [u16, NAME_SPACE_BEGIN, NAME_SPACE]; omega
      have hdec : decodeRanges s.rds.programId = unpack 87 (s.rds.programId - 0x54A8) := by
        have n1 : ¬ (s.rds.programId ≥ NAME_SPACE_BEGIN + NAME_SPACE * 2) := by
          simp only [NAME_SPACE_BEGIN, NAME_SPACE]; omega
        have n2 : s.rds.programId ≥ NAME_SPACE_BEGIN + NAME_SPACE := by
          simp only [NAME_SPACE_BEGIN, NAME_SPACE]; omega
        simp only [decodeRanges, n1, n2, if_false, if_true, hd, hW]
      rw [hdec, unpack_eq _ _ (by omega)]
      refine ⟨65 + (s.rds.programId - 0x54A8) / 676, 65 + (s.rds.programId - 0x54A8) / 26 % 26,
        65 + (s.rds.programId - 0x54A8) % 26, ?_, ?_, ?_, ?_, ?_⟩
      · simp [hlt, hW]
      · rw [hA, hZ]; omega
      · rw [hA, hZ]; omega
      · rw [hA, hZ]; omega
      · rw [hA, if_neg hlt]; omega
  · intro L3 L2 L1 b3 b2 b1 hpi
    rw [hA, hZ] at b3 b2 b1
    have hp : PACK L3 L2 L1 =
        (L3.toNat - 65) * 26 * 26 + (L2.toNat - 65) * 26 + (L1.toNat - 65) := by
      simp only [PACK, hA]
    rw [hp] at hpi
    have hplain := callSignOf_plain s.rds.programId s.rds.groupA
      (by omega) (by omega)
    rw [hget, hplain]
    have hd : u16 ((s.rds.programId : Int) - (NAME_SPACE_BEGIN + NAME_SPACE : Nat)) =
        s.rds.programId - 0x54A8 := by
      simp only [u16, NAME_SPACE_BEGIN, NAME_SPACE]; omega
    have hdec : decodeRanges s.rds.programId = unpack 87 (s.rds.programId - 0x54A8) := by
      have n1 : ¬ (s.rds.programId ≥ NAME_SPACE_BEGIN + NAME_SPACE * 2) := by
        simp only [NAME_SPACE_BEGIN, NAME_SPACE]; omega
      have n2 : s.rds.programId ≥ NAME_SPACE_BEGIN + NAME_SPACE := by
        simp only [NAME_SPACE_BEGIN, NAME_SPACE]; omega
      simp only [decodeRanges, n1, n2, if_false, if_true, hd, hW]
    rw [hdec, unpack_eq _ _ (by omega), hW]
    have e1 : 65 + (s.rds.programId - 0x54A8) / 676 = L3.toNat := by omega
    have e2 : 65 + (s.rds.programId - 0x54A8) / 26 % 26 = L2.toNat := by omega
    have e3 : 65 + (s.rds.programId - 0x54A8) % 26 = L1.toNat := by omega
    rw [e1, e2, e3]

/-- Witness for C1 at the PI code of WXRT. -/
theorem getCallSign_name_space_witness :
    check_if_RBDS { station0 with rds.programId := 0x54A8 + PACK 'X' 'R' 'T' } = true ∧
    0x2000 ≤ 0x54A8 + PACK 'X' 'R' 'T' ∧ 0x54A8 + PACK 'X' 'R' 'T' ≤ 0x994F ∧
    (∃ c1 c2 c3 : Nat,
      (getCallSign { station0 with rds.programId := 0x54A8 + PACK 'X' 'R' 'T' }).2 =
        (true, ['W'.toNat, c1, c2, c3, 0]) ∧
      ('A'.toNat ≤ c1 ∧ c1 ≤ 'Z'.toNat) ∧ ('A'.toNat ≤ c2 ∧ c2 ≤ 'Z'.toNat) ∧
      ('A'.toNat ≤ c3 ∧ c3 ≤ 'Z'.toNat) ∧
      0x54A8 + PACK 'X' 'R' 'T' - 0x54A8 =
        676 * (c1 - 'A'.toNat) + 26 * (c2 - 'A'.toNat) + (c3 - 'A'.toNat)) ∧
    (getCallSign { station0 with rds.programId := 0x54A8 + PACK 'X' 'R' 'T' }).2 =
      (true, ['W'.toNat, 'X'.toNat, 'R'.toNat, 'T'.toNat, 0]) :=
  ⟨by decide, by decide, by decide,
   (getCallSign_name_space { station0 with rds.programId := 0x54A8 + PACK 'X' 'R' 'T' }
      (by decide)).1 (by decide) (by decide),
   (getCallSign_name_space { station0 with rds.programId := 0x54A8 + PACK 'X' 'R' 'T' }
      (by decide)).2 'X' 'R' 'T' (by decide) (by decide) (by decide) (by decide)⟩

/-- C2: for every PI in 0x1000..0x1FFF, if bit 8 of rds.groupA is set and
check_if_RBDS() is true, getCallSign returns false and writes four asterisks
followed by NUL. -/
theorem getCallSign_tmc_seen (s : Si4735) (hR : check_if_RBDS s = true)
    (h1 : 0x1000 ≤ s.rds.programId) (h2 : s.rds.programId ≤ 0x1FFF)
    (h8 : s.rds.groupA &&& (1 <<< 8) ≠ 0) :
    (getCallSign s).2 = (false, ['*'.toNat, '*'.toNat, '*'.toNat, '*'.toNat, 0]) := by
  have hn : s.rds.programId &&& 0xF000 = 0x1000 := by
    rw [and_F000]; omega
  have _h8 := h8
  have hbit : s.rds.groupA ||| 256 ≠ 0 := or_bit8_ne_zero s.rds.groupA
  simp [getCallSign, hR, callSignOf, hn, hbit, fill_call_sign]

/-- Witness for C2: PI 0x1234 after a group 8A has been recorded. -/
theorem getCallSign_tmc_seen_witness :
    check_if_RBDS { station0 with rds.programId := 0x1234, rds.groupA := 0x0100 } = true ∧
    (0x1000 ≤ 0x1234 ∧ 0x1234 ≤ 0x1FFF) ∧ (0x0100 &&& (1 <<< 8) ≠ 0) ∧
    (getCallSign { station0 with rds.programId := 0x1234, rds.groupA := 0x0100 }).2 =
      (false, ['*'.toNat, '*'.toNat, '*'.toNat, '*'.toNat, 0]) :=
  ⟨by decide, by decide, by decide,
   getCallSign_tmc_seen { station0 with rds.programId := 0x1234, rds.groupA := 0x0100 }
     (by decide) (by decide) (by decide) (by decide)⟩

/-- C3 (evaluation of the code): with PI 0x1000, the code of KAAA, under the
US scheme and with no group received at all (groupA = 0, bit 8 clear),
getCallSign takes the asterisk branch and returns false instead of decoding
KAAA, because the TMC test is `rds.groupA | (1U<<8)`. -/
theorem getCallSign_tmc_not_seen_asterisks :
    check_if_RBDS { station0 with rds.programId := 0x1000 } = true ∧
    ({ station0 with rds.programId := 0x1000 } : Si4735).rds.groupA &&& (1 <<< 8) = 0 ∧
    (getCallSign { station0 with rds.programId := 0x1000 }).2 =
      (false, ['*'.toNat, '*'.toNat, '*'.toNat, '*'.toNat, 0]) ∧
    (getCallSign { station0 with rds.programId := 0x1000 }).2 ≠
      (true, ['K'.toNat, 'A'.toNat, 'A'.toNat, 'A'.toNat, 0]) := by
  decide

/-- C4: for every state with rds.programId == 0, whatever the locale, the
country code and its counter and the group masks, getCallSign returns false
and writes four spaces followed by NUL. -/
theorem getCallSign_no_pi (s : Si4735) (h0 : s.rds.programId = 0) :
    (getCallSign s).2 = (false, [' '.toNat, ' '.toNat, ' '.toNat, ' '.toNat, 0]) := by
  have hc : compatPI 0 = 0 := by decide
  have hd : decodeRanges 0 = (false, [' '.toNat, ' '.toNat, ' '.toNat, ' '.toNat, 0]) := by
    decide
  cases hR : check_if_RBDS s <;>
    simp [getCallSign, hR, callSignOf, h0, hc, hd, fill_call_sign]

/-- Witness for C4: the empty record. -/
theorem getCallSign_no_pi_witness :
    station0.rds.programId = 0 ∧
    (getCallSign station0).2 = (false, [' '.toNat, ' '.toNat, ' '.toNat, ' '.toNat, 0]) :=
  ⟨by decide, getCallSign_no_pi station0 (by decide)⟩

/-- C5 as stated fails: with PI 0x1234 and locale LOCALE_OTHER the scheme is
not the US one, and getCallSign writes four spaces, not four dashes. -/
theorem getCallSign_non_us_not_dashes :
    ({ station0 with rds.programId := 0x1234, _locale := LOCALE_OTHER } : Si4735).rds.programId ≠ 0 ∧
    check_if_RBDS { station0 with rds.programId := 0x1234, _locale := LOCALE_OTHER } = false ∧
    (getCallSign { station0 with rds.programId := 0x1234, _locale := LOCALE_OTHER }).2 ≠
      (false, ['-'.toNat, '-'.toNat, '-'.toNat, '-'.toNat, 0]) := by
  decide

/-- C5 amended: for every state with rds.programId != 0 in which
check_if_RBDS() is false, getCallSign returns false and writes four spaces
followed by NUL (the `goto no_pi` of the source). -/
theorem getCallSign_non_us_spaces (s : Si4735) (h0 : s.rds.programId ≠ 0)
    (hR : check_if_RBDS s = false) :
    (getCallSign s).2 = (false, [' '.toNat, ' '.toNat, ' '.toNat, ' '.toNat, 0]) := by
  have _hpi := h0
  simp [getCallSign, hR, callSignOf, fill_call_sign]

/-- Witness for C5 amended. -/
theorem getCallSign_non_us_spaces_witness :
    ({ station0 with rds.programId := 0x1234, _locale := LOCALE_OTHER } : Si4735).rds.programId ≠ 0 ∧
    check_if_RBDS { station0 with rds.programId := 0x1234, _locale := LOCALE_OTHER } = false ∧
    (getCallSign { station0 with rds.programId := 0x1234, _locale := LOCALE_OTHER }).2 =
      (false, [' '.toNat, ' '.toNat, ' '.toNat, ' '.toNat, 0]) :=
  ⟨by decide, by decide,
   getCallSign_non_us_spaces { station0 with rds.programId := 0x1234, _locale := LOCALE_OTHER }
     (by decide) (by decide)⟩

set_option maxRecDepth 100000 in
/-- The legacy range, entry by entry: entry `i` of the table decides the
result for PI `0x9950 + i`, and every entry in use starts with K or W. -/
theorem decodeRanges_legacy :
    ∀ i < 106,
      (legacy.getD i 0 = 0 →
        decodeRanges (0x9950 + i) = (false, ['-'.toNat, '-'.toNat, '-'.toNat, '-'.toNat, 0])) ∧
      (legacy.getD i 0 ≠ 0 →
        decodeRanges (0x9950 + i) =
          (true, [' '.toNat, 'A'.toNat + legacy.getD i 0 / 676,
            'A'.toNat + legacy.getD i 0 / 26 % 26, 'A'.toNat + legacy.getD i 0 % 26, 0]) ∧
        ('A'.toNat + legacy.getD i 0 / 676 = 'K'.toNat ∨
          'A'.toNat + legacy.getD i 0 / 676 = 'W'.toNat)) := by
  decide

/-- C10: for every PI in 0x9950..0x99B9 under the US scheme, with e the entry
PI - 0x9950 of the legacy table: if e is 0 getCallSign returns false and
writes four dashes; otherwise it returns true and writes a space followed by
the three base-26 letters of e, the first of which is K or W; PI 0x997D gives
" WLS". -/
theorem getCallSign_legacy (s : Si4735) (hR : check_if_RBDS s = true)
    (h1 : 0x9950 ≤ s.rds.programId) (h2 : s.rds.programId ≤ 0x99B9) :
    legacy.length = 106 ∧
    (legacy.getD (s.rds.programId - 0x9950) 0 = 0 →
      (getCallSign s).2 = (false, ['-'.toNat, '-'.toNat, '-'.toNat, '-'.toNat, 0])) ∧
    (legacy.getD (s.rds.programId - 0x9950) 0 ≠ 0 →
      (getCallSign s).2 =
        (true, [' '.toNat, 'A'.toNat + legacy.getD (s.rds.programId - 0x9950) 0 / 676,
          'A'.toNat + legacy.getD (s.rds.programId - 0x9950) 0 / 26 % 26,
          'A'.toNat + legacy.getD (s.rds.programId - 0x9950) 0 % 26, 0]) ∧
      ('A'.toNat + legacy.getD (s.rds.programId - 0x9950) 0 / 676 = 'K'.toNat ∨
        'A'.toNat + legacy.getD (s.rds.programId - 0x9950) 0 / 676 = 'W'.toNat)) ∧
    (s.rds.programId = 0x997D →
      (getCallSign s).2 = (true, [' '.toNat, 'W'.toNat, 'L'.toNat, 'S'.toNat, 0])) := by
  have hget : (getCallSign s).2 = decodeRanges s.rds.programId := by
    have hplain := callSignOf_plain s.rds.programId s.rds.groupA
      (by omega) (by omega)
    simp [getCallSign, hR, hplain]
  obtain ⟨i, hi, hpi⟩ : ∃ i, i < 106 ∧ s.rds.programId = 0x9950 + i :=
    ⟨s.rds.programId - 0x9950, by omega, by omega⟩
  have hsub : s.rds.programId - 0x9950 = i := by omega
  rw [hget, hsub, hpi]
  refine ⟨by decide, (decodeRanges_legacy i hi).1, (decodeRanges_legacy i hi).2, ?_⟩
  intro h
  have hi2 : i = 45 := by omega
  subst hi2
  decide

/-- Witness for C10: PI 0x997D, the station WLS. -/
theorem getCallSign_legacy_witness :
    check_if_RBDS { station0 with rds.programId := 0x997D } = true ∧
    (0x9950 ≤ 0x997D ∧ 0x997D ≤ 0x99B9) ∧
    (getCallSign { station0 with rds.programId := 0x997D }).2 =
      (true, [' '.toNat, 'W'.toNat, 'L'.toNat, 'S'.toNat, 0]) :=
  ⟨by decide, by decide,
   (getCallSign_legacy { station0 with rds.programId := 0x997D }
      (by decide) (by decide) (by decide)).2.2.2 rfl⟩

/-! ## Date/time converter: the year and month steps -/

theorem monthSearch_succ (d k v : Nat) (h : month[k]? = some v) :
    monthSearch d (k + 1) = if d < v then monthSearch d k else some (k, v) := by
  simp only [monthSearch, h]

theorem monthSearch_eq (d : Nat) :
    monthSearch d NUM_MONTHS =
      if d < 275 then
        if d < 245 then
          if d < 214 then
            if d < 184 then
              if d < 153 then
                if d < 122 then
                  if d < 92 then
                    if d < 61 then
                      if d < 31 then some (0, 0) else some (1, 31)
                    else some (2, 61)
                  else some (3, 92)
                else some (4, 122)
              else some (5, 153)
            else some (6, 184)
          else some (7, 214)
        else some (8, 245)
      else some (9, 275) := by
  have h0 : monthSearch d 1 = some (0, 0) := by
    rw [monthSearch_succ d 0 0 (by decide)]; simp
  rw [NUM_MONTHS, monthSearch_succ d 9 275 (by decide), monthSearch_succ d 8 245 (by decide),
    monthSearch_succ d 7 214 (by decide), monthSearch_succ d 6 184 (by decide),
    monthSearch_succ d 5 153 (by decide), monthSearch_succ d 4 122 (by decide),
    monthSearch_succ d 3 92 (by decide), monthSearch_succ d 2 61 (by decide),
    monthSearch_succ d 1 31 (by decide), h0]

/-- The three outcomes of the year step, for a day count that fits 16 bits. -/
theorem yearOfDays_cases (d : Nat) (h2 : d ≤ 65535) :
    (d % 36524 < 365 ∧ yearOfDays d = (2000 + d / 36524 * 100, d % 36524, 0)) ∨
    (365 ≤ d % 36524 ∧ (d % 36524 + 1) % 1461 < 366 ∧
      yearOfDays d =
        (2000 + d / 36524 * 100 + (d % 36524 + 1) / 1461 * 4, (d % 36524 + 1) % 1461, 1)) ∨
    (365 ≤ d % 36524 ∧ 366 ≤ (d % 36524 + 1) % 1461 ∧
      yearOfDays d =
        (2000 + d / 36524 * 100 + (d % 36524 + 1) / 1461 * 4 +
            ((d % 36524 + 1) % 1461 - 1) / 365,
          ((d % 36524 + 1) % 1461 - 1) % 365, 0)) := by
  have e1 : u16 ((d / 36524 * 100 + 2000 : Nat)) = 2000 + d / 36524 * 100 := by
    rw [u16_ofNat]; omega
  have e2 : u16 ((d % 36524 + 1 : Nat)) = d % 36524 + 1 := by
    rw [u16_ofNat]; omega
  have e3 : u16 ((2000 + d / 36524 * 100 + (d % 36524 + 1) / 1461 * 4 : Nat)) =
      2000 + d / 36524 * 100 + (d % 36524 + 1) / 1461 * 4 := by
    rw [u16_ofNat]; omega
  by_cases c1 : d % 36524 < 365
  · left
    refine ⟨c1, ?_⟩
    simp only [yearOfDays, DAYS_PER_100YEARS, DAYS_PER_4YEARS, DAYS_PER_YEAR, e1]
    simp only [Nat.reduceMul, Nat.reduceAdd, Nat.reduceDiv, Nat.reduceSub, c1, not_true_eq_false,
      if_false]
  · right
    by_cases c2 : (d % 36524 + 1) % 1461 < 366
    · left
      refine ⟨by omega, c2, ?_⟩
      simp only [yearOfDays, DAYS_PER_100YEARS, DAYS_PER_4YEARS, DAYS_PER_YEAR,
        DAYS_PER_LEAP_YEAR, e1]
      simp only [Nat.reduceMul, Nat.reduceAdd, Nat.reduceDiv, Nat.reduceSub, c1,
        not_false_eq_true, if_true, e2, e3, c2]
    · right
      have e4 : u16 (((d % 36524 + 1) % 1461 : Nat) - 1) = (d % 36524 + 1) % 1461 - 1 := by
        unfold u16; omega
      have e5 : u16 ((2000 + d / 36524 * 100 + (d % 36524 + 1) / 1461 * 4 +
          ((d % 36524 + 1) % 1461 - 1) / 365 : Nat)) =
          2000 + d / 36524 * 100 + (d % 36524 + 1) / 1461 * 4 +
            ((d % 36524 + 1) % 1461 - 1) / 365 := by
        rw [u16_ofNat]; omega
      refine ⟨by omega, by omega, ?_⟩
      simp only [yearOfDays, DAYS_PER_100YEARS, DAYS_PER_4YEARS, DAYS_PER_YEAR,
        DAYS_PER_LEAP_YEAR, e1]
      simp only [Nat.reduceMul, Nat.reduceAdd, Nat.reduceDiv, Nat.reduceSub, c1,
        not_false_eq_true, if_true, e2, e3, c2, if_false, e4, e5]

set_option maxHeartbeats 2000000 in
/-- The table search on a day count since March 1: the month found and its
place in the calendar of a year with the given leap flag. -/
theorem monthSearch_spec (d1 : Nat) (leap : Bool) (h : d1 < 306) :
    ∃ mon value, monthSearch d1 NUM_MONTHS = some (mon, value) ∧ mon ≤ 9 ∧ value ≤ d1 ∧
      d1 - value + 1 ≤ daysInMonth leap (mon + 3) ∧
      daysBeforeMonth leap (mon + 3) = 59 + leap.toNat + value := by
  rw [monthSearch_eq]
  cases leap <;> split_ifs <;>
    refine ⟨_, _, rfl, ?_⟩ <;>
    simp [daysInMonth, daysBeforeMonth] <;> omega

/-- The month step on a day of the year: the month and day it writes, in
terms of the calendar's month lengths for the given leap flag. -/
theorem monthDayOfDays_spec (doy : Nat) (leap : Bool) (hd : doy < 365 + leap.toNat) :
    ∃ mo da, monthDayOfDays doy leap.toNat = some (mo, da) ∧ 1 ≤ mo ∧ mo ≤ 12 ∧ 1 ≤ da ∧
      da ≤ daysInMonth leap mo ∧ daysBeforeMonth leap mo + da = doy + 1 ∧
      (59 + leap.toNat ≤ doy → 3 ≤ mo) := by
  have hl : leap.toNat ≤ 1 := Bool.toNat_le leap
  by_cases h1 : doy < 31 + 28 + leap.toNat
  · by_cases h2 : doy < 31
    · refine ⟨1, doy + 1, ?_, ?_⟩
      · have e : u8 ((doy + 1 : Nat)) = doy + 1 := by rw [u8_ofNat]; omega
        simp only [monthDayOfDays, if_pos h1, if_pos h2, e]
      · simp [daysInMonth, daysBeforeMonth]; omega
    · refine ⟨2, doy - 30, ?_, ?_⟩
      · have e : u8 ((doy + 1 : Int) - 31) = doy - 30 := by unfold u8; omega
        simp only [monthDayOfDays, if_pos h1, if_neg h2, e]
      · cases leap <;> simp [daysInMonth, daysBeforeMonth] at * <;> omega
  · obtain ⟨mon, value, hs, hm, hv, hlen, hbefore⟩ :=
      monthSearch_spec (doy - (59 + leap.toNat)) leap (by omega)
    have hlen31 : daysInMonth leap (mon + 3) ≤ 31 := by
      unfold daysInMonth; split_ifs <;> omega
    refine ⟨mon + 3, doy - (59 + leap.toNat) - value + 1, ?_, ?_⟩
    · have e1 : u16 ((doy : Int) - (31 + 28 + leap.toNat : Nat)) = doy - (59 + leap.toNat) := by
        unfold u16; omega
      have e2 : u8 ((mon + 2 + 1 : Nat)) = mon + 3 := by rw [u8_ofNat]; omega
      have e3 : u8 (((doy - (59 + leap.toNat) : Nat) : Int) - value + 1) =
          doy - (59 + leap.toNat) - value + 1 := by
        unfold u8; omega
      simp only [monthDayOfDays, if_neg h1, e1, hs, e2, e3]
    · refine ⟨by omega, by omega, by omega, hlen, ?_, fun _ => by omega⟩
      rw [hbefore]; omega

/-- The date part of the converter is right from 2000-Mar-1 on: for a day
count `d` since 2000-Jan-2 with `59 ≤ d ≤ 65535`, the year, month and day
written form a date of the calendar whose running day number is that of
2000-Jan-2 plus `d`. -/
theorem calendarDate_spec (d : Nat) (h1 : 59 ≤ d) (h2 : d ≤ 65535) :
    ∃ y mo da, calendarDate d = some (y, mo, da) ∧ validDate y mo da ∧
      dayNumber y mo da = d + 730486 := by
  rcases yearOfDays_cases d h2 with ⟨c1, hy⟩ | ⟨c1, c2, hy⟩ | ⟨c1, c2, hy⟩
  · obtain ⟨mo, da, hmd, hmo1, hmo12, hda1, hlen, hsum, h3⟩ :=
      monthDayOfDays_spec (d % 36524) false (by simpa using c1)
    simp only [Bool.toNat_false, Nat.add_zero] at hmd h3
    refine ⟨2000 + d / 36524 * 100, mo, da, ?_, ?_, ?_⟩
    · simp only [calendarDate, hy, hmd]
    · by_cases hc : d < 36524
      · have hy0 : 2000 + d / 36524 * 100 = 2000 := by omega
        have hmo3 : 3 ≤ mo := h3 (by omega)
        rw [hy0]
        refine ⟨hmo1, hmo12, hda1, ?_⟩
        rw [daysInMonth_of_three_le _ false mo hmo3]; exact hlen
      · have hy1 : 2000 + d / 36524 * 100 = 2100 := by omega
        have hleap : isLeapYear 2100 = false := by decide
        rw [hy1]
        exact ⟨hmo1, hmo12, hda1, by rw [hleap]; exact hlen⟩
    · by_cases hc : d < 36524
      · have hy0 : 2000 + d / 36524 * 100 = 2000 := by omega
        have hmo3 : 3 ≤ mo := h3 (by omega)
        have hleap : isLeapYear 2000 = true := by decide
        rw [hy0, dayNumber, hleap, daysBeforeMonth_true mo hmo3 hmo12, daysBeforeYear_eq]
        omega
      · have hy1 : 2000 + d / 36524 * 100 = 2100 := by omega
        have hleap : isLeapYear 2100 = false := by decide
        rw [hy1, dayNumber, hleap, daysBeforeYear_eq]
        omega
  · obtain ⟨mo, da, hmd, hmo1, hmo12, hda1, hlen, hsum, -⟩ :=
      monthDayOfDays_spec ((d % 36524 + 1) % 1461) true (by simpa using c2)
    simp only [Bool.toNat_true] at hmd
    have hleap : isLeapYear (2000 + d / 36524 * 100 + (d % 36524 + 1) / 1461 * 4) = true := by
      rw [isLeapYear_iff]; omega
    refine ⟨2000 + d / 36524 * 100 + (d % 36524 + 1) / 1461 * 4, mo, da, ?_, ?_, ?_⟩
    · simp only [calendarDate, hy, hmd]
    · exact ⟨hmo1, hmo12, hda1, by rw [hleap]; exact hlen⟩
    · rw [dayNumber, hleap, daysBeforeYear_eq]
      have hq1 : 1 ≤ (d % 36524 + 1) / 1461 := by omega
      have hq24 : (d % 36524 + 1) / 1461 ≤ 24 := by omega
      have hc : d / 36524 = 0 ∨ d / 36524 = 1 := by omega
      rcases hc with hc | hc <;> rw [hc] <;> omega
  · obtain ⟨mo, da, hmd, hmo1, hmo12, hda1, hlen, hsum, -⟩ :=
      monthDayOfDays_spec (((d % 36524 + 1) % 1461 - 1) % 365) false
        (by simp only [Bool.toNat_false, Nat.add_zero]; omega)
    simp only [Bool.toNat_false, Nat.add_zero] at hmd
    have hleap : isLeapYear (2000 + d / 36524 * 100 + (d % 36524 + 1) / 1461 * 4 +
        ((d % 36524 + 1) % 1461 - 1) / 365) = false := by
      rw [← Bool.not_eq_true, isLeapYear_iff]; omega
    refine ⟨2000 + d / 36524 * 100 + (d % 36524 + 1) / 1461 * 4 +
        ((d % 36524 + 1) % 1461 - 1) / 365, mo, da, ?_, ?_, ?_⟩
    · simp only [calendarDate, hy, hmd]
    · exact ⟨hmo1, hmo12, hda1, by rw [hleap]; exact hlen⟩
    · rw [dayNumber, hleap, daysBeforeYear_eq]
      have hq24 : (d % 36524 + 1) / 1461 ≤ 24 := by omega
      have hk : ((d % 36524 + 1) % 1461 - 1) / 365 = 1 ∨
          ((d % 36524 + 1) % 1461 - 1) / 365 = 2 ∨
          ((d % 36524 + 1) % 1461 - 1) / 365 = 3 := by omega
      have hc : d / 36524 = 0 ∨ d / 36524 = 1 := by omega
      rcases hc with hc | hc <;> rcases hk with hk | hk | hk <;> rw [hc, hk] <;> omega

/-- The date part always produces a date: the month-table search never
leaves the table. -/
theorem calendarDate_isSome (d : Nat) (h2 : d ≤ 65535) :
    ∃ y mo da, calendarDate d = some (y, mo, da) := by
  rcases yearOfDays_cases d h2 with ⟨c1, hy⟩ | ⟨-, c2, hy⟩ | ⟨-, c2, hy⟩
  · obtain ⟨mo, da, hmd, -⟩ := monthDayOfDays_spec (d % 36524) false (by simpa using c1)
    simp only [Bool.toNat_false] at hmd
    exact ⟨2000 + d / 36524 * 100, mo, da, by simp only [calendarDate, hy, hmd]⟩
  · obtain ⟨mo, da, hmd, -⟩ :=
      monthDayOfDays_spec ((d % 36524 + 1) % 1461) true (by simpa using c2)
    simp only [Bool.toNat_true] at hmd
    exact ⟨2000 + d / 36524 * 100 + (d % 36524 + 1) / 1461 * 4, mo, da,
      by simp only [calendarDate, hy, hmd]⟩
  · obtain ⟨mo, da, hmd, -⟩ :=
      monthDayOfDays_spec (((d % 36524 + 1) % 1461 - 1) % 365) false
        (by simp only [Bool.toNat_false, Nat.add_zero]; omega)
    simp only [Bool.toNat_false] at hmd
    exact ⟨2000 + d / 36524 * 100 + (d % 36524 + 1) / 1461 * 4 +
      ((d % 36524 + 1) % 1461 - 1) / 365, mo, da, by simp only [calendarDate, hy, hmd]⟩

/-! ## Date/time converter: `getLocalDateTime` and `getLocalTime` -/

/-- The fields are a function of the minute count modulo 65536 days. -/
theorem breakDown_mod (x : Nat) : breakDown (x % 94371840) = breakDown x := by
  have e1 : x % 94371840 % 60 = x % 60 := by omega
  have e2 : x % 94371840 / 60 % 24 = x / 60 % 24 := by omega
  have e3 : u16 ((x % 94371840 / 60 / 24 : Nat)) = u16 ((x / 60 / 24 : Nat)) := by
    rw [u16_ofNat, u16_ofNat]; omega
  simp only [breakDown, e1, e2, e3]

/-- Breaking down a minute count `1440 * d + 60 * h + m` in range. -/
theorem breakDown_eq (d h m : Nat) (hd : d ≤ 65535) (hh : h < 24) (hm : m < 60) :
    breakDown (d * 1440 + h * 60 + m) =
      match calendarDate d with
      | none => none
      | some (tyear, tmonth, tday) =>
        some { year := tyear, month := tmonth, day := tday, wday := d % 7,
               hour := h, minute := m } := by
  have e1 : u8 (((d * 1440 + h * 60 + m) % 60 : Nat)) = m := by rw [u8_ofNat]; omega
  have e2 : u8 (((d * 1440 + h * 60 + m) / 60 % 24 : Nat)) = h := by rw [u8_ofNat]; omega
  have e3 : u16 (((d * 1440 + h * 60 + m) / 60 / 24 : Nat)) = d := by rw [u16_ofNat]; omega
  have e4 : u8 ((d % 7 : Nat)) = d % 7 := by rw [u8_ofNat]; omega
  simp only [breakDown, e1, e2, e3, e4]

/-- C6: for every stored MJD in 51604..117080 (2000-Mar-1 up to the 16-bit
day limit), hour < 24, minute < 60 and offset 0, getLocalDateTime returns
true and writes the year, month and day of the proleptic Gregorian date whose
Modified Julian Day is rds.MJD (a date of the calendar, and the only one with
that day number), wday = (MJD + 3) mod 7 (0 = Sunday), and the stored hour
and minute. -/
theorem getLocalDateTime_gregorian (s : Si4735) (time : DateTime)
    (hlo : 51604 ≤ s.rds.MJD) (hhi : s.rds.MJD ≤ 117080)
    (hh : s.rds.hour < 24) (hm : s.rds.minute < 60) (ho : s.rds.offset = 0) :
    ∃ t, getLocalDateTime s time = some (true, t) ∧
      validDate t.year t.month t.day ∧ mjdOfDate t.year t.month t.day = s.rds.MJD ∧
      (∀ y m d, validDate y m d → mjdOfDate y m d = s.rds.MJD →
        t.year = y ∧ t.month = m ∧ t.day = d) ∧
      t.wday = (s.rds.MJD + 3) % 7 ∧ t.hour = s.rds.hour ∧ t.minute = s.rds.minute := by
  have hne : ¬ ((0 : Int) = NO_DATE_TIME) := by decide
  have hmin : localMinutes s.rds.MJD s.rds.hour s.rds.minute 0 =
      (s.rds.MJD - 51545) * 1440 + s.rds.hour * 60 + s.rds.minute := by
    have e0 : MJD_ORIGIN = 51545 := by decide
    have a1 : u32 ((s.rds.MJD : Int) - (51545 : Nat)) = s.rds.MJD - 51545 := by
      unfold u32; omega
    have a2 : u16 ((s.rds.MJD - 51545 : Nat)) = s.rds.MJD - 51545 := by
      rw [u16_ofNat]; omega
    have a3 : u32 (((s.rds.MJD - 51545) * (24 * 60) + s.rds.hour * 60 + s.rds.minute : Nat)) =
        (s.rds.MJD - 51545) * 1440 + s.rds.hour * 60 + s.rds.minute := by
      rw [u32_ofNat]; omega
    have a4 : u32 ((((s.rds.MJD - 51545) * 1440 + s.rds.hour * 60 + s.rds.minute : Nat) : Int)
        + 0 * 30) = (s.rds.MJD - 51545) * 1440 + s.rds.hour * 60 + s.rds.minute := by
      unfold u32; omega
    simp only [localMinutes, e0, a1, a2, a3, a4]
  obtain ⟨y, mo, da, hcal, hvalid, hnum⟩ :=
    calendarDate_spec (s.rds.MJD - 51545) (by omega) (by omega)
  refine ⟨{ year := y, month := mo, day := da, wday := (s.rds.MJD - 51545) % 7,
            hour := s.rds.hour, minute := s.rds.minute }, ?_, hvalid, ?_, ?_, ?_, rfl, rfl⟩
  · simp only [getLocalDateTime, ho, hne, if_false, localDateTime, hmin]
    rw [breakDown_eq _ _ _ (by omega) hh hm, hcal]
  · simp only [mjdOfDate, hnum, dayNumber_epoch]
    omega
  · intro z n e hv hmjd
    apply dayNumber_injective y mo da z n e hvalid hv
    simp only [mjdOfDate, dayNumber_epoch] at hmjd
    omega
  · show (s.rds.MJD - 51545) % 7 = (s.rds.MJD + 3) % 7
    omega

/-- Witness for C6: MJD 60000 at 12:00 UTC, offset 0. -/
theorem getLocalDateTime_gregorian_witness :
    (51604 ≤ 60000 ∧ 60000 ≤ 117080) ∧ (12 < 24 ∧ 0 < 60) ∧
    ∃ t, getLocalDateTime
          { station0 with rds.MJD := 60000, rds.hour := 12, rds.minute := 0, rds.offset := 0 }
          ⟨0, 0, 0, 0, 0, 0⟩ = some (true, t) ∧
      validDate t.year t.month t.day ∧ mjdOfDate t.year t.month t.day = (60000 : Nat) ∧
      (∀ y m d, validDate y m d → mjdOfDate y m d = (60000 : Nat) →
        t.year = y ∧ t.month = m ∧ t.day = d) ∧
      t.wday = (60000 + 3) % 7 ∧ t.hour = 12 ∧ t.minute = 0 :=
  ⟨by decide, by decide,
   getLocalDateTime_gregorian
     { station0 with rds.MJD := 60000, rds.hour := 12, rds.minute := 0, rds.offset := 0 }
     ⟨0, 0, 0, 0, 0, 0⟩ (by decide) (by decide) (by decide) (by decide) rfl⟩

/-- The minute count of a stored record whose day count fits 16 bits and
whose local time does not fall before the origin: the 16-bit wrap of the day
count and the instant `T`, in minutes since 2000-Jan-2 0:00, agree modulo
65536 days. -/
theorem localMinutes_mod (MJD hour minute : Nat) (offset T : Int)
    (hh : hour < 256) (hm : minute < 256) (ho1 : -128 ≤ offset) (ho2 : offset ≤ 127)
    (hM : MJD ≤ 117080)
    (hT : T = ((MJD : Int) - 51545) * 1440 + 60 * hour + minute + 30 * offset)
    (h0 : 0 ≤ T) :
    localMinutes MJD hour minute offset % 94371840 = T.toNat % 94371840 := by
  have e0 : MJD_ORIGIN = 51545 := by decide
  by_cases hge : 51545 ≤ MJD
  · have a1 : u32 ((MJD : Int) - (51545 : Nat)) = MJD - 51545 := by
      unfold u32; omega
    have a2 : u16 ((MJD - 51545 : Nat)) = MJD - 51545 := by
      rw [u16_ofNat]; omega
    have a3 : u32 (((MJD - 51545) * (24 * 60) + hour * 60 + minute : Nat)) =
        (MJD - 51545) * 1440 + hour * 60 + minute := by
      rw [u32_ofNat]; omega
    have a4 : u32 ((((MJD - 51545) * 1440 + hour * 60 + minute : Nat) : Int) + offset * 30) =
        T.toNat := by
      unfold u32; omega
    simp only [localMinutes, e0, a1, a2, a3, a4]
  · have a1 : u32 ((MJD : Int) - (51545 : Nat)) = MJD + 4294967296 - 51545 := by
      unfold u32; omega
    have a2 : u16 ((MJD + 4294967296 - 51545 : Nat)) = MJD + 65536 - 51545 := by
      rw [u16_ofNat]; omega
    have a3 : u32 (((MJD + 65536 - 51545) * (24 * 60) + hour * 60 + minute : Nat)) =
        (MJD + 65536 - 51545) * 1440 + hour * 60 + minute := by
      rw [u32_ofNat]; omega
    have a4 : u32 ((((MJD + 65536 - 51545) * 1440 + hour * 60 + minute : Nat) : Int)
        + offset * 30) = (T + 94371840).toNat := by
      unfold u32
      have h3 : (0 : Int) ≤ (((MJD + 65536 - 51545) * 1440 + hour * 60 + minute : Nat) : Int)
          + offset * 30 := by omega
      have h4 : ((((MJD + 65536 - 51545) * 1440 + hour * 60 + minute : Nat) : Int)
          + offset * 30) < 4294967296 := by omega
      rw [Int.emod_eq_of_lt h3 h4]
      omega
    simp only [localMinutes, e0, a1, a2, a3, a4]
    omega

/-- The structure computed for a stored record whose day count fits 16
bits and whose local time is the instant `T` (minutes since 2000-Jan-2 0:00,
not negative). -/
theorem localDateTime_eq_breakDown (MJD hour minute : Nat) (offset T : Int)
    (hh : hour < 256) (hm : minute < 256) (ho1 : -128 ≤ offset) (ho2 : offset ≤ 127)
    (hM : MJD ≤ 117080)
    (hT : T = ((MJD : Int) - 51545) * 1440 + 60 * hour + minute + 30 * offset)
    (h0 : 0 ≤ T) :
    localDateTime MJD hour minute offset = breakDown (T.toNat % 94371840) := by
  have hmod := localMinutes_mod MJD hour minute offset T hh hm ho1 ho2 hM hT h0
  rw [localDateTime, ← breakDown_mod (localMinutes _ _ _ _), hmod]

/-- C7 as stated fails: the record MJD 117081, 0:00, offset -1 satisfies the
range condition (its local instant is 23:30 on day 117080), but the day count
wraps to 0 and the subtraction of 30 minutes then wraps modulo 2^32, so the
result is not that of the record MJD 117080, 23:30, offset 0. -/
theorem getLocalDateTime_offset_day_wrap :
    ((-1 : Int) ≠ NO_DATE_TIME) ∧
    ((0 : Int) ≤ ((117081 : Int) - 51545) * 1440 + 60 * 0 + 0 + 30 * (-1)) ∧
    (((117081 : Int) - 51545) * 1440 + 60 * 0 + 0 + 30 * (-1) ≤ 65535 * 1440 + 1439) ∧
    getLocalDateTime
        { station0 with rds.MJD := 117081, rds.hour := 0, rds.minute := 0, rds.offset := -1 }
        ⟨0, 0, 0, 0, 0, 0⟩ =
      some (true, ⟨2091, 9, 17, 1, 3, 46⟩) ∧
    getLocalDateTime
        { station0 with
          rds.MJD := (51545 + (((117081 : Int) - 51545) * 1440 + 60 * 0 + 0 + 30 * (-1)) / 1440).toNat
          rds.hour := ((((117081 : Int) - 51545) * 1440 + 60 * 0 + 0 + 30 * (-1)) / 60 % 24).toNat
          rds.minute := ((((117081 : Int) - 51545) * 1440 + 60 * 0 + 0 + 30 * (-1)) % 60).toNat
          rds.offset := 0 }
        ⟨0, 0, 0, 0, 0, 0⟩ =
      some (true, ⟨2179, 6, 7, 1, 23, 30⟩) := by
  refine ⟨by decide, by decide, by decide, by decide, by decide⟩

/-- C7 amended: for every stored (MJD, hour, minute, offset) with offset not
NO_DATE_TIME, MJD at most 117080 (the day count fits 16 bits), and the local
instant T = (MJD-51545)*1440 + 60*hour + minute + 30*offset within
0..65535*1440+1439, getLocalDateTime gives the same result as for the
offset-0 record of the instant T; in particular for UTC 23:30 with offset +2
it writes 00:30, the date it writes for day MJD+1, and
wday = ((MJD+3) mod 7 + 1) mod 7. -/
theorem getLocalDateTime_offset (s : Si4735) (time : DateTime) (T : Int)
    (hh : s.rds.hour < 256) (hm : s.rds.minute < 256)
    (ho1 : -128 ≤ s.rds.offset) (ho2 : s.rds.offset ≤ 127)
    (hno : s.rds.offset ≠ NO_DATE_TIME) (hM : s.rds.MJD ≤ 117080)
    (hT : T = ((s.rds.MJD : Int) - 51545) * 1440 + 60 * s.rds.hour + s.rds.minute
      + 30 * s.rds.offset)
    (h0 : 0 ≤ T) (h1 : T ≤ 65535 * 1440 + 1439) :
    getLocalDateTime s time =
      getLocalDateTime
        { s with
          rds.MJD := (51545 + T / 1440).toNat
          rds.hour := (T / 60 % 24).toNat
          rds.minute := (T % 60).toNat
          rds.offset := 0 } time ∧
    (s.rds.hour = 23 → s.rds.minute = 30 → s.rds.offset = 2 →
      ∃ t, getLocalDateTime s time = some (true, t) ∧ t.hour = 0 ∧ t.minute = 30 ∧
        t.wday = ((s.rds.MJD + 3) % 7 + 1) % 7 ∧
        getLocalDateTime
          { s with rds.MJD := s.rds.MJD + 1, rds.hour := 0, rds.minute := 30, rds.offset := 0 }
          time = some (true, t)) := by
  have hne : ¬ ((0 : Int) = NO_DATE_TIME) := by decide
  have hL := localDateTime_eq_breakDown s.rds.MJD s.rds.hour s.rds.minute s.rds.offset T
    hh hm ho1 ho2 hM hT h0
  have hR := localDateTime_eq_breakDown (51545 + T / 1440).toNat (T / 60 % 24).toNat
    (T % 60).toNat 0 T (by omega) (by omega) (by omega) (by omega) (by omega) (by omega) h0
  have hgL : getLocalDateTime s time =
      match breakDown (T.toNat % 94371840) with
      | none => none
      | some t => some (true, t) := by
    simp only [getLocalDateTime, hno, if_false, hL]
  have hgR : getLocalDateTime
        { s with
          rds.MJD := (51545 + T / 1440).toNat
          rds.hour := (T / 60 % 24).toNat
          rds.minute := (T % 60).toNat
          rds.offset := 0 } time =
      match breakDown (T.toNat % 94371840) with
      | none => none
      | some t => some (true, t) := by
    simp only [getLocalDateTime, hne, if_false, hR]
  refine ⟨by rw [hgL, hgR], ?_⟩
  intro e23 e30 e2
  rw [e23, e30, e2] at hT
  obtain ⟨y, mo, da, hcal⟩ := calendarDate_isSome (s.rds.MJD + 1 - 51545) (by omega)
  have hTn : T.toNat % 94371840 = (s.rds.MJD + 1 - 51545) * 1440 + 0 * 60 + 30 := by omega
  have hbd := breakDown_eq (s.rds.MJD + 1 - 51545) 0 30 (by omega) (by omega) (by omega)
  rw [hcal] at hbd
  have hres : getLocalDateTime s time = some (true,
      { year := y, month := mo, day := da, wday := (s.rds.MJD + 1 - 51545) % 7,
        hour := 0, minute := 30 }) := by
    rw [hgL, hTn, hbd]
  have hsame : ({ s with
          rds.MJD := (51545 + T / 1440).toNat
          rds.hour := (T / 60 % 24).toNat
          rds.minute := (T % 60).toNat
          rds.offset := 0 } : Si4735) =
      { s with rds.MJD := s.rds.MJD + 1, rds.hour := 0, rds.minute := 30, rds.offset := 0 } := by
    have m1 : (51545 + T / 1440).toNat = s.rds.MJD + 1 := by omega
    have m2 : (T / 60 % 24).toNat = 0 := by omega
    have m3 : (T % 60).toNat = 30 := by omega
    rw [m1, m2, m3]
  refine ⟨_, hres, rfl, rfl, ?_, ?_⟩
  · show (s.rds.MJD + 1 - 51545) % 7 = ((s.rds.MJD + 3) % 7 + 1) % 7
    omega
  · rw [← hsame, hgR, hTn, hbd]

/-- Witness for C7 amended: MJD 60000 at 23:30 UTC with offset +2 is 00:30
on day 60001. -/
theorem getLocalDateTime_offset_witness :
    ((2 : Int) ≠ NO_DATE_TIME) ∧ (60000 ≤ 117080) ∧
    ((0 : Int) ≤ 12176670 ∧ (12176670 : Int) ≤ 65535 * 1440 + 1439) ∧
    ∃ t, getLocalDateTime
          { station0 with rds.MJD := 60000, rds.hour := 23, rds.minute := 30, rds.offset := 2 }
          ⟨0, 0, 0, 0, 0, 0⟩ = some (true, t) ∧ t.hour = 0 ∧ t.minute = 30 ∧
        t.wday = ((60000 + 3) % 7 + 1) % 7 ∧
        getLocalDateTime
          { station0 with rds.MJD := 60000 + 1, rds.hour := 0, rds.minute := 30, rds.offset := 0 }
          ⟨0, 0, 0, 0, 0, 0⟩ = some (true, t) :=
  ⟨by decide, by decide, by decide,
   (getLocalDateTime_offset
     { station0 with rds.MJD := 60000, rds.hour := 23, rds.minute := 30, rds.offset := 2 }
     ⟨0, 0, 0, 0, 0, 0⟩ 12176670 (by decide) (by decide) (by decide) (by decide) (by decide)
     (by decide) (by decide) (by decide) (by decide)).2 rfl rfl rfl⟩

/-- C9 (evaluation of the code): with UTC 10:45 and offset +1 half hour the
local time of day is 11:15, which getLocalDateTime writes, but getLocalTime
writes 10:15: the half hour is added to the minutes modulo 60 without a
carry into the hour. -/
theorem getLocalTime_drops_carry :
    (60 * 10 + 45 + 30 * 1) % 1440 = 11 * 60 + 15 ∧
    getLocalDateTime
        { station0 with rds.MJD := 60000, rds.hour := 10, rds.minute := 45, rds.offset := 1 }
        ⟨0, 0, 0, 0, 0, 0⟩ = some (true, ⟨2023, 2, 25, 6, 11, 15⟩) ∧
    getLocalTime
        { station0 with rds.MJD := 60000, rds.hour := 10, rds.minute := 45, rds.offset := 1 }
        ⟨0, 0⟩ = (true, ⟨10, 15⟩) := by
  refine ⟨by decide, by decide, by decide⟩

/-! ## What `getRDS` does to the clock offset and to the mode -/

/-- The offset a group 4A carries is within -31..31, so it is never the
value NO_DATE_TIME. -/
theorem clockOffset_range (r : Response) : -31 ≤ clockOffset r ∧ clockOffset r ≤ 31 := by
  have h : r.Block_D_L &&& 0x1F ≤ 0x1F := Nat.and_le_right
  unfold clockOffset
  split_ifs <;> omega

/-- A PI past the end of the legacy table is a bad PI. -/
theorem decodeRanges_past_legacy (pi : Nat) (h1 : 0x99BA ≤ pi) (h2 : pi ≤ 0xFFFF) :
    decodeRanges pi = (false, ['-'.toNat, '-'.toNat, '-'.toNat, '-'.toNat, 0]) := by
  have n1 : pi ≥ NAME_SPACE_BEGIN + NAME_SPACE * 2 := by
    simp only [NAME_SPACE_BEGIN, NAME_SPACE]; omega
  have hidx : u16 ((pi : Int) - (NAME_SPACE_BEGIN + NAME_SPACE * 2 : Nat)) = pi - 0x9950 := by
    simp only [u16, NAME_SPACE_BEGIN, NAME_SPACE]; omega
  have hlen : legacy.length = 106 := by decide
  have n2 : pi - 0x9950 ≥ legacy.length := by rw [hlen]; omega
  simp only [decodeRanges, n1, if_true, hidx, n2, fill_call_sign]

/-- A non-zero PI below the K name space is a bad PI. -/
theorem decodeRanges_below (pi : Nat) (h1 : 1 ≤ pi) (h2 : pi ≤ 0x0FFF) :
    decodeRanges pi = (false, ['-'.toNat, '-'.toNat, '-'.toNat, '-'.toNat, 0]) := by
  have n1 : ¬ (pi ≥ NAME_SPACE_BEGIN + NAME_SPACE * 2) := by
    simp only [NAME_SPACE_BEGIN, NAME_SPACE]; omega
  have n2 : ¬ (pi ≥ NAME_SPACE_BEGIN + NAME_SPACE) := by
    simp only [NAME_SPACE_BEGIN, NAME_SPACE]; omega
  have n3 : ¬ (pi ≥ NAME_SPACE_BEGIN) := by
    simp only [NAME_SPACE_BEGIN]; omega
  have n4 : ¬ (pi = 0) := by omega
  simp only [decodeRanges, n1, n2, n3, n4, if_false, fill_call_sign]

/-- C11: for every PI in 0x0001..0x0FFF, in 0x99BA..0x9FFF or in
0xB000..0xFFFF, when check_if_RBDS() is true, getCallSign returns false and
writes four dashes followed by NUL. -/
theorem getCallSign_out_of_range (s : Si4735) (hR : check_if_RBDS s = true)
    (h : (0x0001 ≤ s.rds.programId ∧ s.rds.programId ≤ 0x0FFF) ∨
      (0x99BA ≤ s.rds.programId ∧ s.rds.programId ≤ 0x9FFF) ∨
      (0xB000 ≤ s.rds.programId ∧ s.rds.programId ≤ 0xFFFF)) :
    (getCallSign s).2 = (false, ['-'.toNat, '-'.toNat, '-'.toNat, '-'.toNat, 0]) := by
  have hplain := callSignOf_plain s.rds.programId s.rds.groupA (by omega) (by omega)
  have hget : (getCallSign s).2 = decodeRanges s.rds.programId := by
    simp [getCallSign, hR, hplain]
  rw [hget]
  rcases h with ⟨h1, h2⟩ | ⟨h1, h2⟩ | ⟨h1, h2⟩
  · exact decodeRanges_below _ h1 h2
  · exact decodeRanges_past_legacy _ h1 (by omega)
  · exact decodeRanges_past_legacy _ (by omega) h2

/-- Witness for C11: one PI of each of the three ranges; the last one is a
Canadian PI received with the country code of the USA. -/
theorem getCallSign_out_of_range_witness :
    (check_if_RBDS { station0 with rds.programId := 0x0123 } = true ∧
      (getCallSign { station0 with rds.programId := 0x0123 }).2 =
        (false, ['-'.toNat, '-'.toNat, '-'.toNat, '-'.toNat, 0])) ∧
    (check_if_RBDS { station0 with rds.programId := 0x99BA } = true ∧
      (getCallSign { station0 with rds.programId := 0x99BA }).2 =
        (false, ['-'.toNat, '-'.toNat, '-'.toNat, '-'.toNat, 0])) ∧
    (check_if_RBDS (stationUS 0xC123) = true ∧
      (getCallSign (stationUS 0xC123)).2 =
        (false, ['-'.toNat, '-'.toNat, '-'.toNat, '-'.toNat, 0])) :=
  ⟨⟨by decide, getCallSign_out_of_range { station0 with rds.programId := 0x0123 } (by decide)
      (Or.inl (by decide))⟩,
   ⟨by decide, getCallSign_out_of_range { station0 with rds.programId := 0x99BA } (by decide)
      (Or.inr (Or.inl (by decide)))⟩,
   ⟨by decide, getCallSign_out_of_range
      (stationUS 0xC123) (by decide)
      (Or.inr (Or.inr (by decide)))⟩⟩

/-- The first correction of the source and of the specification agree. -/
theorem restoreCoverage_eq (x : Nat) :
    (x &&& 0x00FF) ||| u16 (((x &&& 0x0F00) <<< 4 : Nat)) = restoreCoverage x := by
  have hle : x &&& 0x0F00 ≤ 0x0F00 := Nat.and_le_right
  have hlt : (x &&& 0x0F00) <<< 4 < 65536 := by
    rw [Nat.shiftLeft_eq]; omega
  rw [u16_ofNat, Nat.mod_eq_of_lt hlt, Nat.or_comm]
  rfl

/-- On a 16-bit PI with high nibble 0xA the corrections of the source give
the corrected identifier of the specification. -/
theorem compatPI_eq_correctedPI (pi : Nat) (h1 : 0xA000 ≤ pi) (h2 : pi ≤ 0xAFFF) :
    compatPI pi = correctedPI pi := by
  by_cases hAF : pi / 256 = 0xAF
  · have c1 : pi &&& 0xFF00 = 0xAF00 := by rw [and_FF00]; omega
    have hs : u16 ((pi <<< 8 : Nat)) = (pi <<< 8) % 2 ^ 16 := by
      rw [u16_ofNat]; norm_num
    have hlt : (pi <<< 8) % 2 ^ 16 < 65536 := Nat.mod_lt _ (by decide)
    simp only [compatPI, correctedPI, c1, if_true, hAF, ne_eq, not_true_eq_false, if_false, hs]
    by_cases hA : (pi <<< 8) % 2 ^ 16 / 4096 = 0xA
    · have c2 : (pi <<< 8) % 2 ^ 16 &&& 0xF000 = 0xA000 := by rw [and_F000]; omega
      rw [if_pos c2, if_pos hA, restoreCoverage_eq]
    · have c2 : ¬ ((pi <<< 8) % 2 ^ 16 &&& 0xF000 = 0xA000) := by rw [and_F000]; omega
      rw [if_neg c2, if_neg hA]
  · have c1 : ¬ (pi &&& 0xFF00 = 0xAF00) := by rw [and_FF00]; omega
    have c2 : pi &&& 0xF000 = 0xA000 := by rw [and_F000]; omega
    simp only [compatPI, correctedPI, c1, if_false, c2, if_true, ne_eq, hAF, not_false_eq_true,
      restoreCoverage_eq]

/-- C12: for every PI whose high nibble is 0xA, under the US scheme,
getCallSign returns what the chain of range tests (legacy, W, K, zero, below
range; no traffic-channel test) returns on the corrected identifier:
((PI & 0x0F00) << 4) | (PI & 0x00FF) when the high byte is not 0xAF, else
(PI << 8) mod 2^16, corrected once more by the first rule when its high
nibble is again 0xA.  0xA123 decodes as 0x1023 to KABJ and 0xAF54 as 0x5400
to KZTO. -/
theorem getCallSign_compat (s : Si4735) (hR : check_if_RBDS s = true)
    (h1 : 0xA000 ≤ s.rds.programId) (h2 : s.rds.programId ≤ 0xAFFF) :
    (getCallSign s).2 = decodeRanges (correctedPI s.rds.programId) ∧
    (s.rds.programId = 0xA123 → correctedPI s.rds.programId = 0x1023 ∧
      (getCallSign s).2 = (true, ['K'.toNat, 'A'.toNat, 'B'.toNat, 'J'.toNat, 0])) ∧
    (s.rds.programId = 0xAF54 → correctedPI s.rds.programId = 0x5400 ∧
      (getCallSign s).2 = (true, ['K'.toNat, 'Z'.toNat, 'T'.toNat, 'O'.toNat, 0])) := by
  have hn : ¬ (s.rds.programId &&& 0xF000 = 0x1000) := by rw [and_F000]; omega
  have hget : (getCallSign s).2 = decodeRanges (correctedPI s.rds.programId) := by
    rw [← compatPI_eq_correctedPI _ h1 h2]
    simp [getCallSign, hR, callSignOf, hn]
  refine ⟨hget, ?_, ?_⟩
  · intro h
    rw [hget, h]
    exact ⟨by decide, by decide⟩
  · intro h
    rw [hget, h]
    exact ⟨by decide, by decide⟩

/-- Witness for C12: the PI 0xA123. -/
theorem getCallSign_compat_witness :
    check_if_RBDS { station0 with rds.programId := 0xA123 } = true ∧
    (0xA000 ≤ 0xA123 ∧ 0xA123 ≤ 0xAFFF) ∧
    (getCallSign { station0 with rds.programId := 0xA123 }).2 =
      (true, ['K'.toNat, 'A'.toNat, 'B'.toNat, 'J'.toNat, 0]) :=
  ⟨by decide, by decide,
   ((getCallSign_compat { station0 with rds.programId := 0xA123 } (by decide) (by decide)
      (by decide)).2.1 rfl).2⟩

/-- The decoder does not depend on the group mask: its only use, the test
`rds.groupA | (1U<<8)`, holds for every mask. -/
theorem callSignOf_groupA (RBDS : Bool) (pi a b : Nat) :
    callSignOf RBDS pi a = callSignOf RBDS pi b := by
  have ha : a ||| 256 ≠ 0 := or_bit8_ne_zero a
  have hb : b ||| 256 ≠ 0 := or_bit8_ne_zero b
  simp [callSignOf, ha, hb]

/-- C13: the return value of getCallSign and the five bytes it writes are a
function of rds.programId and of check_if_RBDS() only: two states that agree
on these two values give the same output, whatever their other fields. -/
theorem getCallSign_pure (s t : Si4735) (hpi : s.rds.programId = t.rds.programId)
    (hR : check_if_RBDS s = check_if_RBDS t) :
    (getCallSign s).2 = (getCallSign t).2 := by
  simp only [getCallSign, hpi, hR]
  exact callSignOf_groupA _ _ _ _

/-- Witness for C13: two records with the PI 0x1234 under the US scheme, one
of which has recorded groups 8A, 0B and 2B and a trusted country code. -/
theorem getCallSign_pure_witness :
    ({ station0 with rds.programId := 0x1234 } : Si4735).rds.programId =
      ({ stationUS 0x1234 with rds.groupA := 0x0100, rds.groupB := 5 } : Si4735).rds.programId ∧
    check_if_RBDS { station0 with rds.programId := 0x1234 } =
      check_if_RBDS { stationUS 0x1234 with rds.groupA := 0x0100, rds.groupB := 5 } ∧
    (getCallSign { station0 with rds.programId := 0x1234 }).2 =
      (getCallSign { stationUS 0x1234 with rds.groupA := 0x0100, rds.groupB := 5 }).2 :=
  ⟨by decide, by decide,
   getCallSign_pure { station0 with rds.programId := 0x1234 }
     { stationUS 0x1234 with rds.groupA := 0x0100, rds.groupB := 5 } (by decide) (by decide)⟩

/-- C14: when the extended-country-code counter has reached RDS_THRESHOLD and
the stored code is not ECC_UNKNOWN, check_if_RBDS() is true if the stored
code is ECC_US and false otherwise, whatever the locale and rds.programId. -/
theorem check_if_RBDS_trusted_ecc (s : Si4735)
    (hc : RDS_THRESHOLD ≤ s._extendedCountryCode_count)
    (hu : s.rds.extendedCountryCode ≠ ECC_UNKNOWN) :
    check_if_RBDS s = decide (s.rds.extendedCountryCode = ECC_US) := by
  have h1 : ¬ (s._extendedCountryCode_count < RDS_THRESHOLD) := by omega
  by_cases hus : s.rds.extendedCountryCode = ECC_US
  · simp [check_if_RBDS, h1, hus]
  · simp [check_if_RBDS, h1, hus, hu]

/-- Witness for C14: a trusted country code of the USA makes a Canadian PI
in a locale outside America an RBDS station; a trusted code 0xE0 makes a US
PI in the US locale an RDS station. -/
theorem check_if_RBDS_trusted_ecc_witness :
    (RDS_THRESHOLD ≤ ({ stationUS 0xC123 with _locale := LOCALE_JP } : Si4735)._extendedCountryCode_count ∧
      ({ stationUS 0xC123 with _locale := LOCALE_JP } : Si4735).rds.extendedCountryCode ≠ ECC_UNKNOWN ∧
      check_if_RBDS { stationUS 0xC123 with _locale := LOCALE_JP } = true) ∧
    (RDS_THRESHOLD ≤ ({ stationUS 0x54A8 with rds.extendedCountryCode := 0xE0 } : Si4735)._extendedCountryCode_count ∧
      ({ stationUS 0x54A8 with rds.extendedCountryCode := 0xE0 } : Si4735).rds.extendedCountryCode ≠ ECC_UNKNOWN ∧
      check_if_RBDS { stationUS 0x54A8 with rds.extendedCountryCode := 0xE0 } = false) :=
  ⟨⟨by decide, by decide,
    check_if_RBDS_trusted_ecc { stationUS 0xC123 with _locale := LOCALE_JP } (by decide)
      (by decide)⟩,
   ⟨by decide, by decide,
    check_if_RBDS_trusted_ecc { stationUS 0x54A8 with rds.extendedCountryCode := 0xE0 }
      (by decide) (by decide)⟩⟩

/-- C15: when the extended-country-code counter is below RDS_THRESHOLD, or
the stored code is ECC_UNKNOWN, check_if_RBDS() is true exactly when the
locale is LOCALE_US or LOCALE_CA_MX and either rds.programId is non-zero and
below 0xB000, or rds.programId is zero and the locale is LOCALE_US; for every
other locale it is false. -/
theorem check_if_RBDS_by_locale (s : Si4735)
    (h : s._extendedCountryCode_count < RDS_THRESHOLD ∨
      s.rds.extendedCountryCode = ECC_UNKNOWN) :
    (check_if_RBDS s = true ↔
      (s._locale = LOCALE_US ∨ s._locale = LOCALE_CA_MX) ∧
        ((s.rds.programId ≠ 0 ∧ s.rds.programId < 0xB000) ∨
          (s.rds.programId = 0 ∧ s._locale = LOCALE_US))) ∧
    (¬ (s._locale = LOCALE_US ∨ s._locale = LOCALE_CA_MX) → check_if_RBDS s = false) := by
  have hno : check_if_RBDS s = no_ecc s := by
    unfold check_if_RBDS
    rcases h with h | h
    · rw [if_pos h]
    · have hne : ¬ (s.rds.extendedCountryCode = ECC_US) := by
        rw [h]; decide
      split_ifs <;> rfl
  rw [hno]
  unfold no_ecc
  constructor
  · by_cases hl : s._locale = LOCALE_US ∨ s._locale = LOCALE_CA_MX
    · by_cases hp : s.rds.programId = 0
      · by_cases hus : s._locale = LOCALE_US <;> simp [hl, hp, hus]
      · by_cases hb : s.rds.programId < 0xB000 <;> simp [hl, hp, hb]
    · simp [hl]
  · intro hl
    rw [if_neg hl]

/-- Witness for C15: nothing received yet in the US locale, and a US PI in
the locale of Canada and Mexico. -/
theorem check_if_RBDS_by_locale_witness :
    (station0._extendedCountryCode_count < RDS_THRESHOLD ∧ check_if_RBDS station0 = true) ∧
    (({ station0 with rds.programId := 0x54A8, _locale := LOCALE_CA_MX } : Si4735)._extendedCountryCode_count
        < RDS_THRESHOLD ∧
      check_if_RBDS { station0 with rds.programId := 0x54A8, _locale := LOCALE_CA_MX } = true) :=
  ⟨⟨by decide,
    (check_if_RBDS_by_locale station0 (Or.inl (by decide))).1.mpr (by decide)⟩,
   ⟨by decide,
    (check_if_RBDS_by_locale { station0 with rds.programId := 0x54A8, _locale := LOCALE_CA_MX }
      (Or.inl (by decide))).1.mpr (by decide)⟩⟩

/-! ## Country code and language code: the confidence counters -/

theorem group0_confidence (s : Si4735) (r : Response) (type : Nat) :
    (group0 s r type).rds.extendedCountryCode = s.rds.extendedCountryCode ∧
    (group0 s r type)._extendedCountryCode_count = s._extendedCountryCode_count ∧
    (group0 s r type).rds.language = s.rds.language ∧
    (group0 s r type)._language_count = s._language_count := by
  simp only [group0]
  refine ⟨?_, ?_, ?_, ?_⟩ <;> (split_ifs <;> (split <;> rfl))

theorem group2_confidence (s : Si4735) (r : Response) (version : Bool) :
    (group2 s r version).rds.extendedCountryCode = s.rds.extendedCountryCode ∧
    (group2 s r version)._extendedCountryCode_count = s._extendedCountryCode_count ∧
    (group2 s r version).rds.language = s.rds.language ∧
    (group2 s r version)._language_count = s._language_count := by
  simp only [group2]
  refine ⟨?_, ?_, ?_, ?_⟩ <;> (split_ifs <;> rfl)

theorem group4A_confidence (s : Si4735) (r : Response) :
    (group4A s r).1.rds.extendedCountryCode = s.rds.extendedCountryCode ∧
    (group4A s r).1._extendedCountryCode_count = s._extendedCountryCode_count ∧
    (group4A s r).1.rds.language = s.rds.language ∧
    (group4A s r).1._language_count = s._language_count := by
  simp only [group4A]
  refine ⟨?_, ?_, ?_, ?_⟩ <;> (split_ifs <;> rfl)

theorem group10A_confidence (s : Si4735) (r : Response) :
    (group10A s r).rds.extendedCountryCode = s.rds.extendedCountryCode ∧
    (group10A s r)._extendedCountryCode_count = s._extendedCountryCode_count ∧
    (group10A s r).rds.language = s.rds.language ∧
    (group10A s r)._language_count = s._language_count := by
  simp only [group10A]
  refine ⟨?_, ?_, ?_, ?_⟩ <;> (split_ifs <;> rfl)

/-- Group 1A on the country code and its counter. -/
theorem group1A_ecc (s : Si4735) (r : Response) :
    ((group1A s r).1.rds.extendedCountryCode, (group1A s r).1._extendedCountryCode_count) =
      if r.Block_C_H &&& 0b01110000 = 0 <<< 4 then
        confidenceStep (s.rds.extendedCountryCode, s._extendedCountryCode_count) r.Block_C_L
      else (s.rds.extendedCountryCode, s._extendedCountryCode_count) := by
  simp only [group1A, confidenceStep]
  split_ifs <;> rfl

/-- Group 1A on the language code and its counter. -/
theorem group1A_language (s : Si4735) (r : Response) :
    ((group1A s r).1.rds.language, (group1A s r).1._language_count) =
      if r.Block_C_H &&& 0b01110000 = 3 <<< 4 then
        confidenceStep (s.rds.language, s._language_count) r.Block_C_L
      else (s.rds.language, s._language_count) := by
  simp only [group1A, confidenceStep]
  split_ifs <;> first | rfl | simp_all

/-- One decoded group on the country code and its counter: only a group 1A
of variant 0 touches them. -/
theorem processGroup_ecc (s : Si4735) (r : Response) :
    ((processGroup s r).1.rds.extendedCountryCode,
      (processGroup s r).1._extendedCountryCode_count) =
      if isECCGroup r = true then
        confidenceStep (s.rds.extendedCountryCode, s._extendedCountryCode_count) r.Block_C_L
      else (s.rds.extendedCountryCode, s._extendedCountryCode_count) := by
  by_cases h1 : groupType r = 1 ∧ groupVersion r = false
  · obtain ⟨ht, hv⟩ := h1
    have hc : isECCGroup r = (r.Block_C_H &&& 0b01110000 == 0 <<< 4) := by
      simp [isECCGroup, ht, hv]
    simp only [processGroup, ht, hv, hc, beq_iff_eq]
    simp only [Nat.reduceEqDiff, false_and, or_self, if_false, and_self, if_true,
      Bool.false_eq_true, group1A_ecc]
    split_ifs <;> rfl
  · have hc : isECCGroup r = false := by
      simp only [isECCGroup, Bool.and_eq_false_imp, Bool.and_eq_true, beq_iff_eq]
      intro h
      exact absurd h h1
    simp only [processGroup, hc, Bool.false_eq_true, if_false]
    split_ifs <;>
      simp only [(group0_confidence _ _ _).1, (group0_confidence _ _ _).2.1,
        (group2_confidence _ _ _).1, (group2_confidence _ _ _).2.1,
        (group4A_confidence _ _).1, (group4A_confidence _ _).2.1,
        (group10A_confidence _ _).1, (group10A_confidence _ _).2.1]

/-- One decoded group on the language code and its counter: only a group 1A
of variant 3 touches them. -/
theorem processGroup_language (s : Si4735) (r : Response) :
    ((processGroup s r).1.rds.language, (processGroup s r).1._language_count) =
      if isLanguageGroup r = true then
        confidenceStep (s.rds.language, s._language_count) r.Block_C_L
      else (s.rds.language, s._language_count) := by
  by_cases h1 : groupType r = 1 ∧ groupVersion r = false
  · obtain ⟨ht, hv⟩ := h1
    have hc : isLanguageGroup r = (r.Block_C_H &&& 0b01110000 == 3 <<< 4) := by
      simp [isLanguageGroup, ht, hv]
    simp only [processGroup, ht, hv, hc, beq_iff_eq]
    simp only [Nat.reduceEqDiff, false_and, or_self, if_false, and_self, if_true,
      Bool.false_eq_true, group1A_language]
    split_ifs <;> rfl
  · have hc : isLanguageGroup r = false := by
      simp only [isLanguageGroup, Bool.and_eq_false_imp, Bool.and_eq_true, beq_iff_eq]
      intro h
      exact absurd h h1
    simp only [processGroup, hc, Bool.false_eq_true, if_false]
    split_ifs <;>
      simp only [(group0_confidence _ _ _).2.2.1, (group0_confidence _ _ _).2.2.2,
        (group2_confidence _ _ _).2.2.1, (group2_confidence _ _ _).2.2.2,
        (group4A_confidence _ _).2.2.1, (group4A_confidence _ _).2.2.2,
        (group10A_confidence _ _).2.2.1, (group10A_confidence _ _).2.2.2]

/-- A sequence of decoded groups on the country code and its counter: the
values carried by its groups 1A of variant 0, applied in order. -/
theorem processGroups_ecc (gs : List Response) :
    ∀ s : Si4735,
      ((processGroups s gs).rds.extendedCountryCode,
        (processGroups s gs)._extendedCountryCode_count) =
        ((gs.filter isECCGroup).map (fun r => r.Block_C_L)).foldl confidenceStep
          (s.rds.extendedCountryCode, s._extendedCountryCode_count) := by
  induction gs with
  | nil => intro s; rfl
  | cons r rest ih =>
    intro s
    have hstep := processGroup_ecc s r
    have hrec := ih (processGroup s r).1
    simp only [processGroups, List.foldl_cons] at hrec ⊢
    rw [hrec, hstep]
    by_cases h : isECCGroup r = true
    · simp only [h, if_true, List.filter_cons_of_pos, List.map_cons, List.foldl_cons]
    · simp only [h, if_false, List.filter_cons_of_neg, Bool.false_eq_true, not_false_eq_true]

/-- A sequence of decoded groups on the language code and its counter. -/
theorem processGroups_language (gs : List Response) :
    ∀ s : Si4735,
      ((processGroups s gs).rds.language, (processGroups s gs)._language_count) =
        ((gs.filter isLanguageGroup).map (fun r => r.Block_C_L)).foldl confidenceStep
          (s.rds.language, s._language_count) := by
  induction gs with
  | nil => intro s; rfl
  | cons r rest ih =>
    intro s
    have hstep := processGroup_language s r
    have hrec := ih (processGroup s r).1
    simp only [processGroups, List.foldl_cons] at hrec ⊢
    rw [hrec, hstep]
    by_cases h : isLanguageGroup r = true
    · simp only [h, if_true, List.filter_cons_of_pos, List.map_cons, List.foldl_cons]
    · simp only [h, if_false, List.filter_cons_of_neg, Bool.false_eq_true, not_false_eq_true]

/-- Below the threshold a carried value is saved, and the counter counts
how many times in a row it has been seen. -/
theorem confidenceStep_below (e c v : Nat) (hc : c < RDS_THRESHOLD) :
    confidenceStep (e, c) v = (v, (if e = v then c else 0) + 1) := by
  have h3 : RDS_THRESHOLD = 3 := rfl
  rw [h3] at hc
  by_cases hev : e = v
  · have hu : u8 ((c + 1 : Nat)) = c + 1 := by rw [u8_ofNat]; omega
    simp only [confidenceStep, h3, hc, if_true, hev, bne_self_eq_false, Bool.false_eq_true,
      if_false, hu]
  · have hu : u8 ((0 + 1 : Nat)) = 0 + 1 := by decide
    have hb : (e != v) = true := by simpa using hev
    simp only [confidenceStep, h3, hc, if_true, hb, hu, hev, if_false]

/-- At the threshold a carried value is ignored. -/
theorem confidenceStep_reached (e c v : Nat) (hc : RDS_THRESHOLD ≤ c) :
    confidenceStep (e, c) v = (e, c) := by
  have hn : ¬ (c < RDS_THRESHOLD) := by omega
  simp only [confidenceStep, hn, if_false]

/-- Three equal values in a row bring a counter below the threshold to the
threshold, with that value stored. -/
theorem confidenceStep_three (e c v : Nat) (hc : c < RDS_THRESHOLD) :
    [v, v, v].foldl confidenceStep (e, c) = (v, RDS_THRESHOLD) := by
  have h3 : RDS_THRESHOLD = 3 := rfl
  simp only [List.foldl_cons, List.foldl_nil]
  rw [confidenceStep_below e c v hc]
  rw [h3] at hc
  by_cases hev : e = v
  · rw [if_pos hev]
    interval_cases c
    · rw [confidenceStep_below v 1 v (by decide), if_pos rfl,
        confidenceStep_below v 2 v (by decide), if_pos rfl]
      rfl
    · rw [confidenceStep_below v 2 v (by decide), if_pos rfl,
        confidenceStep_reached v 3 v (by decide)]
      rfl
    · rw [confidenceStep_reached v 3 v (by decide), confidenceStep_reached v 3 v (by decide)]
      rfl
  · rw [if_neg hev, confidenceStep_below v 1 v (by decide), if_pos rfl,
      confidenceStep_below v 2 v (by decide), if_pos rfl]
    rfl

/-- C16: from any state in which the extended-country-code counter is below
RDS_THRESHOLD, after decoding a sequence of groups whose type-1 version-A
variant-0 groups are exactly three, all carrying the value v,
rds.extendedCountryCode is v and the counter equals RDS_THRESHOLD; the same
holds for rds.language and its counter with variant-3 groups. -/
theorem confidence_reached_after_three (s : Si4735) (gs : List Response) (v : Nat) :
    (s._extendedCountryCode_count < RDS_THRESHOLD →
      (gs.filter isECCGroup).map (fun r => r.Block_C_L) = [v, v, v] →
      (processGroups s gs).rds.extendedCountryCode = v ∧
      (processGroups s gs)._extendedCountryCode_count = RDS_THRESHOLD) ∧
    (s._language_count < RDS_THRESHOLD →
      (gs.filter isLanguageGroup).map (fun r => r.Block_C_L) = [v, v, v] →
      (processGroups s gs).rds.language = v ∧
      (processGroups s gs)._language_count = RDS_THRESHOLD) := by
  constructor
  · intro hc hgs
    have h := processGroups_ecc gs s
    rw [hgs, confidenceStep_three _ _ _ hc] at h
    exact ⟨congrArg Prod.fst h, congrArg Prod.snd h⟩
  · intro hc hgs
    have h := processGroups_language gs s
    rw [hgs, confidenceStep_three _ _ _ hc] at h
    exact ⟨congrArg Prod.fst h, congrArg Prod.snd h⟩

/-- Witness for C16: three groups 1A carrying the country code of the USA,
with a clock group between them, and three groups carrying language 9. -/
theorem confidence_reached_after_three_witness :
    (station0._extendedCountryCode_count < RDS_THRESHOLD ∧
      (processGroups station0
        [eccReply 0xA0, sampleClockReply, eccReply 0xA0, eccReply 0xA0]).rds.extendedCountryCode
        = 0xA0 ∧
      (processGroups station0
        [eccReply 0xA0, sampleClockReply, eccReply 0xA0, eccReply 0xA0])._extendedCountryCode_count
        = RDS_THRESHOLD) ∧
    (station0._language_count < RDS_THRESHOLD ∧
      (processGroups station0
        [languageReply 9, languageReply 9, languageReply 9]).rds.language = 9 ∧
      (processGroups station0
        [languageReply 9, languageReply 9, languageReply 9])._language_count = RDS_THRESHOLD) :=
  ⟨⟨by decide,
    (confidence_reached_after_three station0
      [eccReply 0xA0, sampleClockReply, eccReply 0xA0, eccReply 0xA0] 0xA0).1
      (by decide) (by decide)⟩,
   ⟨by decide,
    (confidence_reached_after_three station0
      [languageReply 9, languageReply 9, languageReply 9] 9).2 (by decide) (by decide)⟩⟩

/-- Alternating values keep the counter at 1 and leave the last value
stored. -/
theorem confidenceStep_alternating (n : Nat) :
    ∀ (a b e c : Nat), a ≠ b → (c = 0 ∨ (c = 1 ∧ e = b)) →
      (alternating a b (n + 1)).foldl confidenceStep (e, c) =
        ((alternating a b (n + 1)).getLast?.getD e, 1) := by
  induction n with
  | zero =>
    intro a b e c hab hc
    have hstep : confidenceStep (e, c) a = (a, 1) := by
      rcases hc with hc | ⟨hc, he⟩
      · subst hc
        rw [confidenceStep_below e 0 a (by decide)]
        split_ifs <;> rfl
      · subst hc; subst he
        rw [confidenceStep_below e 1 a (by decide), if_neg (fun h => hab h.symm)]
    simp only [alternating, List.foldl_cons, List.foldl_nil, hstep]
    rfl
  | succ k ih =>
    intro a b e c hab hc
    have hstep : confidenceStep (e, c) a = (a, 1) := by
      rcases hc with hc | ⟨hc, he⟩
      · subst hc
        rw [confidenceStep_below e 0 a (by decide)]
        split_ifs <;> rfl
      · subst hc; subst he
        rw [confidenceStep_below e 1 a (by decide), if_neg (fun h => hab h.symm)]
    have hrec := ih b a a 1 (fun h => hab h.symm) (Or.inr ⟨rfl, rfl⟩)
    have hunf : alternating a b (k + 1 + 1) = a :: alternating b a (k + 1) := rfl
    rw [hunf, List.foldl_cons, hstep, hrec]
    have hne : alternating b a (k + 1) = b :: alternating a b k := rfl
    rw [hne, List.getLast?_cons_cons]
    cases h : (b :: alternating a b k).getLast? with
    | none => simp at h
    | some x => rfl

/-- A poll of `getRDS` on the country code and its counter: the values
carried by the groups 1A of variant 0 among the decoded groups, applied in
order, as for `processGroups`. -/
theorem getRDS_ecc (s : Si4735) (replies : List Response) :
    ((getRDS s replies).1.rds.extendedCountryCode,
      (getRDS s replies).1._extendedCountryCode_count) =
      (((processedGroups s replies).filter isECCGroup).map (fun r => r.Block_C_L)).foldl
        confidenceStep (s.rds.extendedCountryCode, s._extendedCountryCode_count) := by
  have hloop : ∀ (rs : List Response) (st : Si4735) (ni : Bool),
      ((getRDSLoop st ni rs).1.rds.extendedCountryCode,
        (getRDSLoop st ni rs).1._extendedCountryCode_count) =
        (((rs.takeWhile (fun r => r.resp3 != 0)).filter isECCGroup).map
          (fun r => r.Block_C_L)).foldl confidenceStep
          (st.rds.extendedCountryCode, st._extendedCountryCode_count) := by
    intro rs
    induction rs with
    | nil => intro st ni; rfl
    | cons r rest ih =>
      intro st ni
      simp only [getRDSLoop]
      by_cases h0 : r.resp3 = 0
      · have hr : (r.resp3 != 0) = false := by simp [h0]
        rw [if_pos h0]
        simp only [List.takeWhile, hr]
        rfl
      · have hr : (r.resp3 != 0) = true := by simpa using h0
        rw [if_neg h0, ih, processGroup_ecc]
        simp only [List.takeWhile, hr]
        by_cases hg : isECCGroup r = true
        · simp only [hg, if_true, List.filter_cons_of_pos, List.map_cons, List.foldl_cons]
        · simp only [hg, if_false, List.filter_cons_of_neg, Bool.false_eq_true,
            not_false_eq_true]
  unfold getRDS processedGroups
  split_ifs with hm
  · rfl
  · rw [hloop]
    rfl

/-- C17 as stated fails: after a reset, two groups 1A of variant 0 carrying
0xA0 and then 0xE0 leave 0xE0 in rds.extendedCountryCode (and the first one
alone leaves 0xA0), not the value 0 it had before the sequence. -/
theorem ecc_follows_alternating_values :
    ([eccReply 0xA0, eccReply 0xE0].filter isECCGroup).map (fun r => r.Block_C_L) =
      alternating 0xA0 0xE0 2 ∧
    (clearStationInfo station0).rds.extendedCountryCode = 0 ∧
    (processGroups (clearStationInfo station0) [eccReply 0xA0]).rds.extendedCountryCode = 0xA0 ∧
    (processGroups (clearStationInfo station0)
      [eccReply 0xA0, eccReply 0xE0]).rds.extendedCountryCode = 0xE0 := by
  refine ⟨by decide, by decide, by decide, by decide⟩

/-- C17 amended: starting from a freshly reset record, for every sequence of
groups whose type-1 version-A variant-0 groups carry values that alternate
between two distinct values, the extended-country-code counter never reaches
RDS_THRESHOLD (it is 1 after every such group), so check_if_RBDS() never
trusts the stored code and decides by the locale; rds.extendedCountryCode
itself is the last value carried. -/
theorem alternating_ecc_never_trusted (s : Si4735) (gs : List Response) (a b n : Nat)
    (hab : a ≠ b)
    (hgs : (gs.filter isECCGroup).map (fun r => r.Block_C_L) = alternating a b n) :
    (processGroups (clearStationInfo s) gs)._extendedCountryCode_count < RDS_THRESHOLD ∧
    check_if_RBDS (processGroups (clearStationInfo s) gs) =
      no_ecc (processGroups (clearStationInfo s) gs) ∧
    (0 < n →
      (processGroups (clearStationInfo s) gs)._extendedCountryCode_count = 1 ∧
      (alternating a b n).getLast? =
        some (processGroups (clearStationInfo s) gs).rds.extendedCountryCode) := by
  have h := processGroups_ecc gs (clearStationInfo s)
  have he : (clearStationInfo s).rds.extendedCountryCode = 0 := rfl
  have hc : (clearStationInfo s)._extendedCountryCode_count = 0 := rfl
  rw [hgs, he, hc] at h
  have hcount : (processGroups (clearStationInfo s) gs)._extendedCountryCode_count
      < RDS_THRESHOLD ∧
      (0 < n →
        (processGroups (clearStationInfo s) gs)._extendedCountryCode_count = 1 ∧
        (alternating a b n).getLast? =
          some (processGroups (clearStationInfo s) gs).rds.extendedCountryCode) := by
    cases n with
    | zero =>
      have h2 : (processGroups (clearStationInfo s) gs)._extendedCountryCode_count = 0 :=
        congrArg Prod.snd h
      refine ⟨by rw [h2]; decide, fun hn => absurd hn (by decide)⟩
    | succ k =>
      rw [confidenceStep_alternating k a b 0 0 hab (Or.inl rfl)] at h
      have h1 := congrArg Prod.fst h
      have h2 : (processGroups (clearStationInfo s) gs)._extendedCountryCode_count = 1 :=
        congrArg Prod.snd h
      refine ⟨by rw [h2]; decide, fun _ => ⟨h2, ?_⟩⟩
      have hunf : alternating a b (k + 1) = a :: alternating b a k := rfl
      cases hl : (alternating a b (k + 1)).getLast? with
      | none => rw [hunf] at hl; simp at hl
      | some x =>
        rw [hl] at h1
        simp only [Option.getD_some] at h1
        rw [h1]
  refine ⟨hcount.1, ?_, hcount.2⟩
  unfold check_if_RBDS
  rw [if_pos hcount.1]

/-- Witness for C17 amended: the values 0xA0, 0xE0, 0xA0, 0xE0 with a clock
group between them. -/
theorem alternating_ecc_never_trusted_witness :
    (0xA0 ≠ 0xE0) ∧
    ([eccReply 0xA0, eccReply 0xE0, sampleClockReply, eccReply 0xA0, eccReply 0xE0].filter
        isECCGroup).map (fun r => r.Block_C_L) = alternating 0xA0 0xE0 4 ∧
    (processGroups (clearStationInfo station0)
      [eccReply 0xA0, eccReply 0xE0, sampleClockReply, eccReply 0xA0,
        eccReply 0xE0])._extendedCountryCode_count = 1 :=
  ⟨by decide, by decide,
   ((alternating_ecc_never_trusted station0
      [eccReply 0xA0, eccReply 0xE0, sampleClockReply, eccReply 0xA0, eccReply 0xE0]
      0xA0 0xE0 4 (by decide) (by decide)).2.2 (by decide)).1⟩

/-- C18 as stated fails: with the counter at RDS_THRESHOLD and the code of
the USA stored, a further group 1A of variant 0 carrying 0xE0 leaves
rds.extendedCountryCode at 0xA0; likewise a stored language code. -/
theorem ecc_locked_at_threshold :
    (stationUS 0x54A8)._extendedCountryCode_count = RDS_THRESHOLD ∧
    (stationUS 0x54A8).rds.extendedCountryCode = 0xA0 ∧
    isECCGroup (eccReply 0xE0) = true ∧
    (processGroup (stationUS 0x54A8) (eccReply 0xE0)).1.rds.extendedCountryCode = 0xA0 ∧
    (processGroup (stationUS 0x54A8) (eccReply 0xE0)).1.rds.extendedCountryCode ≠ 0xE0 := by
  refine ⟨by decide, by decide, by decide, by decide, by decide⟩

/-- C18 amended: once the extended-country-code counter has reached
RDS_THRESHOLD, a further type-1 version-A variant-0 group carrying a value
different from the stored one is ignored: rds.extendedCountryCode and the
counter keep their values; likewise rds.language and its counter with
variant 3. -/
theorem confidence_locked_at_threshold (s : Si4735) (r : Response) :
    (RDS_THRESHOLD ≤ s._extendedCountryCode_count → isECCGroup r = true →
      r.Block_C_L ≠ s.rds.extendedCountryCode →
      (processGroup s r).1.rds.extendedCountryCode = s.rds.extendedCountryCode ∧
      (processGroup s r).1._extendedCountryCode_count = s._extendedCountryCode_count) ∧
    (RDS_THRESHOLD ≤ s._language_count → isLanguageGroup r = true →
      r.Block_C_L ≠ s.rds.language →
      (processGroup s r).1.rds.language = s.rds.language ∧
      (processGroup s r).1._language_count = s._language_count) := by
  constructor
  · intro hc hg _
    have h := processGroup_ecc s r
    rw [if_pos hg, confidenceStep_reached _ _ _ hc] at h
    exact ⟨congrArg Prod.fst h, congrArg Prod.snd h⟩
  · intro hc hg _
    have h := processGroup_language s r
    rw [if_pos hg, confidenceStep_reached _ _ _ hc] at h
    exact ⟨congrArg Prod.fst h, congrArg Prod.snd h⟩

/-- Witness for C18 amended: the trusted code of the USA stays when 0xE0 is
received. -/
theorem confidence_locked_at_threshold_witness :
    RDS_THRESHOLD ≤ (stationUS 0x54A8)._extendedCountryCode_count ∧
    isECCGroup (eccReply 0xE0) = true ∧
    (eccReply 0xE0).Block_C_L ≠ (stationUS 0x54A8).rds.extendedCountryCode ∧
    (processGroup (stationUS 0x54A8) (eccReply 0xE0)).1.rds.extendedCountryCode =
      (stationUS 0x54A8).rds.extendedCountryCode :=
  ⟨by decide, by decide, by decide,
   ((confidence_locked_at_threshold (stationUS 0x54A8) (eccReply 0xE0)).1
      (by decide) (by decide) (by decide)).1⟩

end Si4735

/-! ## Radio text -/

/-- Writing `c` to the positions `0 .. n-1` of a list that has them. -/
theorem foldl_set_range {α : Type} (c : α) (n : Nat) :
    ∀ l : List α, n ≤ l.length →
      (List.range n).foldl (fun t i => t.set i c) l = List.replicate n c ++ l.drop n := by
  induction n with
  | zero => intro l _; simp
  | succ k ih =>
    intro l hl
    rw [List.range_succ, List.foldl_append, ih l (by omega)]
    simp only [List.foldl_cons, List.foldl_nil]
    rw [List.set_append_right k c (by simp), List.length_replicate, Nat.sub_self,
      List.drop_eq_getElem_cons (by omega : k < l.length), List.set_cons_zero,
      List.replicate_succ', List.append_assoc]
    rfl

namespace Si4735

theorem textSegment_le (r : Response) : textSegment r ≤ 15 := Nat.and_le_right

theorem u8_textSegment (r : Response) : u8 ((r.Block_B_L &&& 0x0F : Nat)) = textSegment r := by
  have h := textSegment_le r
  unfold textSegment at h ⊢
  rw [u8_ofNat]; omega

/-- The blanked radio text keeps its length and starts with 64 spaces. -/
theorem blank_radioText (l : List Nat) (h : l.length = 65) :
    ((List.range (65 - 1)).foldl (fun t i => t.set i ' '.toNat) l).take 64 =
      List.replicate 64 ' '.toNat := by
  rw [foldl_set_range ' '.toNat (65 - 1) l (by omega)]
  exact List.take_left' (by simp)

/-- Group 2 stores the A/B flag of the group. -/
theorem group2_ab (s : Si4735) (r : Response) (version : Bool) :
    (group2 s r version)._abRadioText = abFlag r := by
  simp only [group2, abFlag]
  split_ifs with h1 <;> first | rfl | exact (not_not.mp h1).symm

/-- Group 2A on the radio text and its length: the copy loop on the four
characters of blocks C and D, started on the blanked or the previous text. -/
theorem group2_A (s : Si4735) (r : Response) :
    ((group2 s r false).rds.radioText, (group2 s r false).rds.radioTextLen) =
      copyChars
        (if abFlag r ≠ s._abRadioText then
          (List.range (65 - 1)).foldl (fun t i => t.set i ' '.toNat) s.rds.radioText
         else s.rds.radioText)
        (if abFlag r ≠ s._abRadioText then 65 else s.rds.radioTextLen)
        (textSegment r * 4) [r.Block_C_H, r.Block_C_L, r.Block_D_H, r.Block_D_L] := by
  by_cases h : abFlag r ≠ s._abRadioText
  · have h2 : ofBool (r.Block_B_L &&& 0b00010000 != 0) ≠ s._abRadioText := h
    rw [if_pos h, if_pos h]
    unfold group2
    dsimp only
    rw [if_pos h2, if_pos rfl, u8_textSegment]
  · have h2 : ¬ (ofBool (r.Block_B_L &&& 0b00010000 != 0) ≠ s._abRadioText) := h
    rw [if_neg h, if_neg h]
    unfold group2
    dsimp only
    rw [if_neg h2, if_pos rfl, u8_textSegment]

/-- Group 2B on the radio text and its length: the copy loop on the two
characters of block D. -/
theorem group2_B (s : Si4735) (r : Response) :
    ((group2 s r true).rds.radioText, (group2 s r true).rds.radioTextLen) =
      copyChars
        (if abFlag r ≠ s._abRadioText then
          (List.range (65 - 1)).foldl (fun t i => t.set i ' '.toNat) s.rds.radioText
         else s.rds.radioText)
        (if abFlag r ≠ s._abRadioText then 65 else s.rds.radioTextLen)
        (textSegment r * 2) [r.Block_D_H, r.Block_D_L] := by
  have hv : ¬ (true = false) := by decide
  by_cases h : abFlag r ≠ s._abRadioText
  · have h2 : ofBool (r.Block_B_L &&& 0b00010000 != 0) ≠ s._abRadioText := h
    rw [if_pos h, if_pos h]
    unfold group2
    dsimp only
    rw [if_pos h2, if_neg hv, u8_textSegment]
  · have h2 : ¬ (ofBool (r.Block_B_L &&& 0b00010000 != 0) ≠ s._abRadioText) := h
    rw [if_neg h, if_neg h]
    unfold group2
    dsimp only
    rw [if_neg h2, if_neg hv, u8_textSegment]

/-- A decoded group of type 2 is group 2 applied to a record with the same
radio text, length and A/B flag. -/
theorem processGroup_type2 (s : Si4735) (r : Response) (ht : groupType r = 2) :
    ∃ s3 : Si4735, (processGroup s r).1 = group2 s3 r (groupVersion r) ∧
      s3.rds.radioText = s.rds.radioText ∧ s3.rds.radioTextLen = s.rds.radioTextLen ∧
      s3._abRadioText = s._abRadioText := by
  simp only [processGroup, ht]
  simp only [Nat.reduceEqDiff, false_and, or_self, if_false, if_true]
  split_ifs <;> exact ⟨_, rfl, rfl, rfl, rfl⟩

/-- Group 2 of either version: the copy loop on the characters the group
carries. -/
theorem group2_copy (s : Si4735) (r : Response) :
    ((group2 s r (groupVersion r)).rds.radioText,
      (group2 s r (groupVersion r)).rds.radioTextLen) =
      copyChars
        (if abFlag r ≠ s._abRadioText then
          (List.range (65 - 1)).foldl (fun t i => t.set i ' '.toNat) s.rds.radioText
         else s.rds.radioText)
        (if abFlag r ≠ s._abRadioText then 65 else s.rds.radioTextLen)
        (textSegment r * charsPerSegment r) (textChars r) := by
  cases hv : groupVersion r
  · rw [group2_A]
    simp only [textChars, charsPerSegment, hv, if_true]
  · rw [group2_B]
    simp only [textChars, charsPerSegment, hv, Bool.true_eq_false, if_false]

/-- A decoded group of type 2 on the radio text and its length. -/
theorem processGroup_copy (s : Si4735) (r : Response) (ht : groupType r = 2) :
    ((processGroup s r).1.rds.radioText, (processGroup s r).1.rds.radioTextLen) =
      copyChars
        (if abFlag r ≠ s._abRadioText then
          (List.range (65 - 1)).foldl (fun t i => t.set i ' '.toNat) s.rds.radioText
         else s.rds.radioText)
        (if abFlag r ≠ s._abRadioText then 65 else s.rds.radioTextLen)
        (textSegment r * charsPerSegment r) (textChars r) ∧
    (processGroup s r).1._abRadioText = abFlag r := by
  obtain ⟨s3, h3, ht3, hl3, ha3⟩ := processGroup_type2 s r ht
  rw [h3, group2_copy, group2_ab, ht3, hl3, ha3]
  exact ⟨rfl, rfl⟩

/-- The copy loop without a carriage return keeps the length. -/
theorem copyChars_len_none (block : List Nat) :
    ∀ (text : List Nat) (len rt : Nat), (∀ c ∈ block, c ≠ 13) →
      (copyChars text len rt block).2 = len := by
  induction block with
  | nil => intro text len rt _; rfl
  | cons ch rest ih =>
    intro text len rt h
    have hch : ¬ (ch = '\r'.toNat) := h ch (List.mem_cons_self _ _)
    rw [copyChars]
    simp only [hch, if_false]
    exact ih _ _ _ (fun c hc => h c (List.mem_cons_of_mem _ hc))

/-- The copy loop with a carriage return at position `k` and none after it
saves the index of that position. -/
theorem copyChars_len_cr (block : List Nat) :
    ∀ (text : List Nat) (len rt k : Nat), block[k]? = some 13 →
      (∀ j, k < j → block[j]? ≠ some 13) →
      (copyChars text len rt block).2 = (rt + k) % 256 := by
  induction block with
  | nil => intro text len rt k h _; simp at h
  | cons ch rest ih =>
    intro text len rt k h hafter
    rw [copyChars]
    cases k with
    | zero =>
      have hch : ch = '\r'.toNat := by simpa using h
      have hrest : ∀ c ∈ rest, c ≠ 13 := by
        intro c hc heq
        obtain ⟨i, hi, hget⟩ := List.getElem_of_mem hc
        apply hafter (i + 1) (by omega)
        rw [List.getElem?_cons_succ, List.getElem?_eq_getElem hi, hget, heq]
      simp only [hch, if_true]
      rw [copyChars_len_none rest _ _ _ hrest, u8_ofNat]
      rfl
    | succ m =>
      have h2 : rest[m]? = some 13 := by simpa using h
      have h3 : ∀ j, m < j → rest[j]? ≠ some 13 := by
        intro j hj
        have := hafter (j + 1) (by omega)
        simpa using this
      rw [ih _ _ (rt + 1) m h2 h3]
      congr 1
      omega

/-- The copy loop keeps the length of the text. -/
theorem copyChars_length (block : List Nat) :
    ∀ (text : List Nat) (len rt : Nat),
      (copyChars text len rt block).1.length = text.length := by
  induction block with
  | nil => intro text len rt; rfl
  | cons ch rest ih =>
    intro text len rt
    rw [copyChars, ih, List.length_set]

/-- The copy loop leaves the positions before `rt` alone. -/
theorem copyChars_before (block : List Nat) :
    ∀ (text : List Nat) (len rt j : Nat), j < rt →
      (copyChars text len rt block).1[j]? = text[j]? := by
  induction block with
  | nil => intro text len rt j _; rfl
  | cons ch rest ih =>
    intro text len rt j hj
    rw [copyChars, ih _ _ _ j (by omega), List.getElem?_set_ne (by omega)]

/-- The copy loop stores the filtered character `i` at position `rt + i`. -/
theorem copyChars_stored (block : List Nat) :
    ∀ (text : List Nat) (len rt i : Nat) (c : Nat), block[i]? = some c →
      rt + i < text.length →
      (copyChars text len rt block).1[rt + i]? = some (make_printable c) := by
  induction block with
  | nil => intro text len rt i c h _; simp at h
  | cons ch rest ih =>
    intro text len rt i c h hlt
    rw [copyChars]
    cases i with
    | zero =>
      have hc : ch = c := by simpa using h
      have hb := copyChars_before rest (text.set rt (make_printable ch))
        (if ch = '\r'.toNat then u8 (rt : Nat) else len) (rt + 1) rt (by omega)
      rw [Nat.add_zero] at hlt
      have hgoal : (copyChars (text.set rt (make_printable ch))
          (if ch = '\r'.toNat then u8 (rt : Nat) else len) (rt + 1) rest).1[rt]? =
          some (make_printable c) := by
        rw [hb, hc, List.getElem?_set_self hlt]
      exact hgoal
    | succ m =>
      have h2 : rest[m]? = some c := by simpa using h
      have := ih (text.set rt (make_printable ch))
        (if ch = '\r'.toNat then u8 (rt : Nat) else len) (rt + 1) m c h2
        (by rw [List.length_set]; omega)
      rw [show rt + (m + 1) = rt + 1 + m by omega]
      exact this

/-- The length of the radio text after a group 2 with a carriage return at
position `k` of its characters and none after it. -/
theorem processGroup_len_cr (s : Si4735) (r : Response) (k : Nat) (ht : groupType r = 2)
    (hk : (textChars r)[k]? = some 13)
    (hafter : ∀ j, k < j → (textChars r)[j]? ≠ some 13) :
    (processGroup s r).1.rds.radioTextLen = charsPerSegment r * textSegment r + k := by
  have h := congrArg Prod.snd (processGroup_copy s r ht).1
  have hseg := textSegment_le r
  have hklt : k < (textChars r).length := by
    by_contra hge
    rw [List.getElem?_eq_none (by omega)] at hk
    exact absurd hk (by simp)
  have hcps : charsPerSegment r ≤ 4 ∧ (textChars r).length ≤ 4 := by
    unfold charsPerSegment textChars
    split_ifs <;> simp
  have hbound : textSegment r * charsPerSegment r ≤ 60 := by
    calc textSegment r * charsPerSegment r ≤ 15 * 4 := Nat.mul_le_mul hseg hcps.1
      _ = 60 := rfl
  show (processGroup s r).1.rds.radioTextLen = _
  rw [show (processGroup s r).1.rds.radioTextLen = _ from h,
    copyChars_len_cr _ _ _ _ k hk hafter, Nat.mul_comm (charsPerSegment r)]
  omega

/-- The carriage return of a group 2 is stored as a space. -/
theorem processGroup_cr_stored (s : Si4735) (r : Response) (k : Nat) (ht : groupType r = 2)
    (hlen : s.rds.radioText.length = 65) (hk : (textChars r)[k]? = some 13) :
    (processGroup s r).1.rds.radioText[charsPerSegment r * textSegment r + k]? =
      some ' '.toNat := by
  have h := congrArg Prod.fst (processGroup_copy s r ht).1
  have hseg := textSegment_le r
  have hklt : k < (textChars r).length := by
    by_contra hge
    rw [List.getElem?_eq_none (by omega)] at hk
    exact absurd hk (by simp)
  have hcases : (charsPerSegment r = 4 ∧ (textChars r).length = 4) ∨
      (charsPerSegment r = 2 ∧ (textChars r).length = 2) := by
    unfold charsPerSegment textChars
    split_ifs <;> simp
  have hbase : (if abFlag r ≠ s._abRadioText then
        (List.range (65 - 1)).foldl (fun t i => t.set i ' '.toNat) s.rds.radioText
      else s.rds.radioText).length = 65 := by
    split_ifs
    · rw [foldl_set_range ' '.toNat (65 - 1) _ (by omega)]
      simp [hlen]
    · exact hlen
  have hmp : make_printable 13 = ' '.toNat := by decide
  rw [show (processGroup s r).1.rds.radioText = _ from h, Nat.mul_comm (charsPerSegment r),
    copyChars_stored _ _ _ _ k 13 hk (by rw [hbase]; rcases hcases with ⟨h1, h2⟩ | ⟨h1, h2⟩ <;>
      rw [h1] <;> omega), hmp]

/-- A group 2 of the same message without a carriage return keeps the
length. -/
theorem processGroup_len_kept (s : Si4735) (r : Response) (ht : groupType r = 2)
    (hab : abFlag r = s._abRadioText) (hno : ∀ c ∈ textChars r, c ≠ 13) :
    (processGroup s r).1.rds.radioTextLen = s.rds.radioTextLen := by
  have h := congrArg Prod.snd (processGroup_copy s r ht).1
  have hnot : ¬ (abFlag r ≠ s._abRadioText) := not_not.mpr hab
  rw [show (processGroup s r).1.rds.radioTextLen = _ from h, copyChars_len_none _ _ _ _ hno,
    if_neg hnot]

/-- C19: for every type-2 version-A group with segment index s whose four
raw characters contain a carriage return at position k and none after it,
rds.radioTextLen after the group is 4*s + k (for version B with its two
characters, 2*s + k) and the carriage return itself is stored as a space; a
group of the same message (same A/B flag as stored) without a carriage
return leaves rds.radioTextLen unchanged.  Segments 0..3 of one message in
order, with a carriage return at position 1 of segment 2 and none after it,
end with radioTextLen 9. -/
theorem radioTextLen_carriage_return (s : Si4735) (r : Response) (k : Nat)
    (ht : groupType r = 2) :
    (groupVersion r = false →
      [r.Block_C_H, r.Block_C_L, r.Block_D_H, r.Block_D_L][k]? = some 13 →
      (∀ j, k < j → [r.Block_C_H, r.Block_C_L, r.Block_D_H, r.Block_D_L][j]? ≠ some 13) →
      (processGroup s r).1.rds.radioTextLen = 4 * textSegment r + k ∧
      (s.rds.radioText.length = 65 →
        (processGroup s r).1.rds.radioText[4 * textSegment r + k]? = some ' '.toNat)) ∧
    (groupVersion r = true →
      [r.Block_D_H, r.Block_D_L][k]? = some 13 →
      (∀ j, k < j → [r.Block_D_H, r.Block_D_L][j]? ≠ some 13) →
      (processGroup s r).1.rds.radioTextLen = 2 * textSegment r + k ∧
      (s.rds.radioText.length = 65 →
        (processGroup s r).1.rds.radioText[2 * textSegment r + k]? = some ' '.toNat)) ∧
    (abFlag r = s._abRadioText → (∀ c ∈ textChars r, c ≠ 13) →
      (processGroup s r).1.rds.radioTextLen = s.rds.radioTextLen) ∧
    (∀ g0 g1 g2 g3 : Response,
      (∀ g ∈ [g0, g1, g2, g3], groupType g = 2 ∧ groupVersion g = false ∧ abFlag g = abFlag r) →
      textSegment g0 = 0 → textSegment g1 = 1 → textSegment g2 = 2 → textSegment g3 = 3 →
      g2.Block_C_L = 13 → g2.Block_D_H ≠ 13 → g2.Block_D_L ≠ 13 →
      (∀ c ∈ textChars g3, c ≠ 13) →
      (processGroups s [g0, g1, g2, g3]).rds.radioTextLen = 9) := by
  refine ⟨?_, ?_, ?_, ?_⟩
  · intro hv hk hafter
    have hc : textChars r = [r.Block_C_H, r.Block_C_L, r.Block_D_H, r.Block_D_L] := by
      simp only [textChars, hv, if_true]
    have hp : charsPerSegment r = 4 := by simp only [charsPerSegment, hv, if_true]
    rw [← hc] at hk hafter
    refine ⟨?_, fun hlen => ?_⟩
    · rw [processGroup_len_cr s r k ht hk hafter, hp]
    · have := processGroup_cr_stored s r k ht hlen hk
      rw [hp] at this
      exact this
  · intro hv hk hafter
    have hc : textChars r = [r.Block_D_H, r.Block_D_L] := by
      simp only [textChars, hv, Bool.true_eq_false, if_false]
    have hp : charsPerSegment r = 2 := by
      simp only [charsPerSegment, hv, Bool.true_eq_false, if_false]
    rw [← hc] at hk hafter
    refine ⟨?_, fun hlen => ?_⟩
    · rw [processGroup_len_cr s r k ht hk hafter, hp]
    · have := processGroup_cr_stored s r k ht hlen hk
      rw [hp] at this
      exact this
  · intro hab hno
    exact processGroup_len_kept s r ht hab hno
  · intro g0 g1 g2 g3 hall _ _ hs2 _ hcr h2 h3 hno
    have hg2 := hall g2 (by simp)
    have hg3 := hall g3 (by simp)
    have hc2 : textChars g2 = [g2.Block_C_H, g2.Block_C_L, g2.Block_D_H, g2.Block_D_L] := by
      simp only [textChars, hg2.2.1, if_true]
    have hp2 : charsPerSegment g2 = 4 := by simp only [charsPerSegment, hg2.2.1, if_true]
    have hk : (textChars g2)[1]? = some 13 := by rw [hc2]; simp [hcr]
    have hafter : ∀ j, 1 < j → (textChars g2)[j]? ≠ some 13 := by
      intro j hj
      rw [hc2]
      obtain ⟨m, rfl⟩ : ∃ m, j = m + 2 := ⟨j - 2, by omega⟩
      cases m with
      | zero => simp [h2]
      | succ n =>
        cases n with
        | zero => simp [h3]
        | succ _ => simp
    have hstate : processGroups s [g0, g1, g2, g3] =
        (processGroup (processGroup (processGroups s [g0, g1]) g2).1 g3).1 := rfl
    rw [hstate]
    have hlen2 := processGroup_len_cr (processGroups s [g0, g1]) g2 1 hg2.1 hk hafter
    have hab2 := (processGroup_copy (processGroups s [g0, g1]) g2 hg2.1).2
    rw [processGroup_len_kept _ g3 hg3.1 (by rw [hab2, hg3.2.2, hg2.2.2]) hno, hlen2, hp2, hs2]

/-- Witness for C19: the message "HELLO WO" "R\rxx" in segments 0..3 of
group 2A, with the carriage return at position 1 of segment 2. -/
theorem radioTextLen_carriage_return_witness :
    groupType (radioTextReply 2 82 13 32 32) = 2 ∧
    groupVersion (radioTextReply 2 82 13 32 32) = false ∧
    (processGroup station0 (radioTextReply 2 82 13 32 32)).1.rds.radioTextLen = 4 * 2 + 1 ∧
    (processGroup station0 (radioTextReply 2 82 13 32 32)).1.rds.radioText[4 * 2 + 1]? =
      some ' '.toNat ∧
    (processGroups station0
      [radioTextReply 0 72 69 76 76, radioTextReply 1 79 32 87 79,
        radioTextReply 2 82 13 32 32, radioTextReply 3 32 32 32 32]).rds.radioTextLen = 9 :=
  ⟨by decide, by decide,
   ((radioTextLen_carriage_return station0 (radioTextReply 2 82 13 32 32) 1 (by decide)).1
      (by decide) (by decide) (by
        intro j hj
        obtain ⟨m, rfl⟩ : ∃ m, j = m + 2 := ⟨j - 2, by omega⟩
        cases m with
        | zero => decide
        | succ n =>
          cases n with
          | zero => decide
          | succ _ => simp [radioTextReply])).1,
   ((radioTextLen_carriage_return station0 (radioTextReply 2 82 13 32 32) 1 (by decide)).1
      (by decide) (by decide) (by
        intro j hj
        obtain ⟨m, rfl⟩ : ∃ m, j = m + 2 := ⟨j - 2, by omega⟩
        cases m with
        | zero => decide
        | succ n =>
          cases n with
          | zero => decide
          | succ _ => simp [radioTextReply])).2 (by decide),
   (radioTextLen_carriage_return station0 (radioTextReply 2 82 13 32 32) 1 (by decide)).2.2.2
      (radioTextReply 0 72 69 76 76) (radioTextReply 1 79 32 87 79)
      (radioTextReply 2 82 13 32 32) (radioTextReply 3 32 32 32 32)
      (by decide) (by decide) (by decide) (by decide) (by decide) (by decide) (by decide)
      (by decide) (by decide)⟩

/-- The first 64 characters of the text a group 2 starts from are the base
of the specification. -/
theorem take_base (s : Si4735) (r : Response) (hlen : s.rds.radioText.length = 65) :
    (if abFlag r ≠ s._abRadioText then
        (List.range (65 - 1)).foldl (fun t i => t.set i ' '.toNat) s.rds.radioText
      else s.rds.radioText).take 64 = radioTextBase s r := by
  unfold radioTextBase
  split_ifs
  · exact blank_radioText _ hlen
  · rfl

/-- The stores of a type-2 group into the radio text, each character as
`make_printable` returns it. -/
theorem radioText_segment_stores (s : Si4735) (r : Response) (ht : groupType r = 2)
    (hlen : s.rds.radioText.length = 65) :
    (processGroup s r).1._abRadioText = abFlag r ∧
    (groupVersion r = false →
      (processGroup s r).1.rds.radioText.take 64 =
        ((((radioTextBase s r).set (4 * textSegment r) (make_printable r.Block_C_H)).set
          (4 * textSegment r + 1) (make_printable r.Block_C_L)).set
          (4 * textSegment r + 2) (make_printable r.Block_D_H)).set
          (4 * textSegment r + 3) (make_printable r.Block_D_L)) ∧
    (groupVersion r = true →
      (processGroup s r).1.rds.radioText.take 64 =
        ((radioTextBase s r).set (2 * textSegment r) (make_printable r.Block_D_H)).set
          (2 * textSegment r + 1) (make_printable r.Block_D_L)) := by
  obtain ⟨hcopy, hab⟩ := processGroup_copy s r ht
  have htext := congrArg Prod.fst hcopy
  refine ⟨hab, ?_, ?_⟩
  · intro hv
    have hc : textChars r = [r.Block_C_H, r.Block_C_L, r.Block_D_H, r.Block_D_L] := by
      simp only [textChars, hv, if_true]
    have hp : charsPerSegment r = 4 := by simp only [charsPerSegment, hv, if_true]
    rw [show (processGroup s r).1.rds.radioText = _ from htext, hc, hp]
    simp only [copyChars]
    rw [List.set_take, List.set_take, List.set_take, List.set_take, take_base s r hlen,
      Nat.mul_comm (textSegment r) 4]
  · intro hv
    have hc : textChars r = [r.Block_D_H, r.Block_D_L] := by
      simp only [textChars, hv, Bool.true_eq_false, if_false]
    have hp : charsPerSegment r = 2 := by
      simp only [charsPerSegment, hv, Bool.true_eq_false, if_false]
    rw [show (processGroup s r).1.rds.radioText = _ from htext, hc, hp]
    simp only [copyChars]
    rw [List.set_take, List.set_take, take_base s r hlen, Nat.mul_comm (textSegment r) 2]

/-- C20: for every type-2 group with A/B flag f and segment index s, with
base 64 spaces if f differs from the stored _abRadioText and the previous
rds.radioText[0..63] otherwise: afterwards rds.radioText[0..63] is base with
positions 4s..4s+3 replaced by the printable-filtered bytes C-high, C-low,
D-high, D-low for version A, or positions 2s..2s+1 replaced by the filtered
bytes D-high, D-low for version B, and _abRadioText is f.  The filter keeps
a byte in 32..126 and stores a space, code 32, for any other byte. -/
theorem radioText_segment (s : Si4735) (r : Response) (ht : groupType r = 2)
    (hlen : s.rds.radioText.length = 65) :
    (processGroup s r).1._abRadioText = abFlag r ∧
    (groupVersion r = false →
      (processGroup s r).1.rds.radioText.take 64 =
        ((((radioTextBase s r).set (4 * textSegment r)
            (if 32 ≤ r.Block_C_H ∧ r.Block_C_H ≤ 126 then r.Block_C_H else 32)).set
          (4 * textSegment r + 1)
            (if 32 ≤ r.Block_C_L ∧ r.Block_C_L ≤ 126 then r.Block_C_L else 32)).set
          (4 * textSegment r + 2)
            (if 32 ≤ r.Block_D_H ∧ r.Block_D_H ≤ 126 then r.Block_D_H else 32)).set
          (4 * textSegment r + 3)
            (if 32 ≤ r.Block_D_L ∧ r.Block_D_L ≤ 126 then r.Block_D_L else 32)) ∧
    (groupVersion r = true →
      (processGroup s r).1.rds.radioText.take 64 =
        ((radioTextBase s r).set (2 * textSegment r)
            (if 32 ≤ r.Block_D_H ∧ r.Block_D_H ≤ 126 then r.Block_D_H else 32)).set
          (2 * textSegment r + 1)
            (if 32 ≤ r.Block_D_L ∧ r.Block_D_L ≤ 126 then r.Block_D_L else 32)) ∧
    (∀ b, make_printable b = printableOrSpace b) := by
  have h := radioText_segment_stores s r ht hlen
  simp only [make_printable_eq, printableOrSpace] at h
  exact ⟨h.1, h.2.1, h.2.2, make_printable_eq⟩

/-- Witness for C20: segment 1 of a new message on the empty record, with
the bytes 'O', 7 (a control code), 200 (not ASCII) and 'O': 64 spaces with
"O  O" at positions 4..7, the two bytes that are not printable stored as
spaces; and the same bytes in a group 2B, which stores the last two. -/
theorem radioText_segment_witness :
    groupType (radioTextReply 1 79 7 200 79) = 2 ∧ station0.rds.radioText.length = 65 ∧
    (processGroup station0 (radioTextReply 1 79 7 200 79)).1._abRadioText = 0 ∧
    (processGroup station0 (radioTextReply 1 79 7 200 79)).1.rds.radioText.take 64 =
      List.replicate 4 32 ++ [79, 32, 32, 79] ++ List.replicate 56 32 ∧
    (processGroup station0
      { radioTextReply 1 79 7 200 79 with Block_B_H := 0x28 }).1.rds.radioText.take 64 =
      List.replicate 2 32 ++ [32, 79] ++ List.replicate 60 32 :=
  ⟨by decide, by decide,
   (radioText_segment station0 (radioTextReply 1 79 7 200 79) (by decide) (by decide)).1,
   ((radioText_segment station0 (radioTextReply 1 79 7 200 79) (by decide) (by decide)).2.1
      (by decide)).trans (by decide),
   ((radioText_segment station0 { radioTextReply 1 79 7 200 79 with Block_B_H := 0x28 }
      (by decide) (by decide)).2.2.1 (by decide)).trans (by decide)⟩

end Si4735

/-! ## The error tags and the program identification -/

theorem and_3F (x : Nat) : x &&& 0x3F = x % 64 := by
  simpa using and_shifted_ones x 6 0

theorem and_30 (x : Nat) : x &&& 0x30 = 16 * (x / 16 % 4) :=
  and_shifted_ones x 2 4

theorem and_0C (x : Nat) : x &&& 0x0C = 4 * (x / 4 % 4) :=
  and_shifted_ones x 2 2

theorem and_03 (x : Nat) : x &&& 0x03 = x % 4 := by
  simpa using and_shifted_ones x 2 0

namespace Si4735

/-- The test of group 4A holds exactly when each of the three error fields
of blocks B, C and D says no errors. -/
theorem blocksBCD_no_errors_iff (r : Response) :
    blocksBCD_no_errors r = true ↔
      r.resp12 &&& FIELD_RDS_STATUS_RESP12_BLOCK_B = RDS_STATUS_RESP12_BLOCK_B_NO_ERRORS ∧
      r.resp12 &&& FIELD_RDS_STATUS_RESP12_BLOCK_C = RDS_STATUS_RESP12_BLOCK_C_NO_ERRORS ∧
      r.resp12 &&& FIELD_RDS_STATUS_RESP12_BLOCK_D = RDS_STATUS_RESP12_BLOCK_D_NO_ERRORS := by
  have hm : (FIELD_RDS_STATUS_RESP12_BLOCK_B ||| FIELD_RDS_STATUS_RESP12_BLOCK_C |||
      FIELD_RDS_STATUS_RESP12_BLOCK_D) = 0x3F := by decide
  have hz : (RDS_STATUS_RESP12_BLOCK_B_NO_ERRORS ||| RDS_STATUS_RESP12_BLOCK_C_NO_ERRORS |||
      RDS_STATUS_RESP12_BLOCK_D_NO_ERRORS) = 0 := by decide
  have hB : FIELD_RDS_STATUS_RESP12_BLOCK_B = 0x30 := rfl
  have hC : FIELD_RDS_STATUS_RESP12_BLOCK_C = 0x0C := rfl
  have hD : FIELD_RDS_STATUS_RESP12_BLOCK_D = 0x03 := rfl
  have hB0 : RDS_STATUS_RESP12_BLOCK_B_NO_ERRORS = 0 := rfl
  have hC0 : RDS_STATUS_RESP12_BLOCK_C_NO_ERRORS = 0 := rfl
  have hD0 : RDS_STATUS_RESP12_BLOCK_D_NO_ERRORS = 0 := rfl
  unfold blocksBCD_no_errors
  rw [hm, hz, hB, hC, hD, hB0, hC0, hD0, beq_iff_eq, and_3F, and_30, and_0C, and_03]
  omega

/-- The test of group 4A reads the low six bits of the error byte only. -/
theorem blocksBCD_no_errors_low_bits (r : Response) (x : Nat) (hx : x % 64 = r.resp12 % 64) :
    blocksBCD_no_errors { r with resp12 := x } = blocksBCD_no_errors r := by
  have hm : (FIELD_RDS_STATUS_RESP12_BLOCK_B ||| FIELD_RDS_STATUS_RESP12_BLOCK_C |||
      FIELD_RDS_STATUS_RESP12_BLOCK_D) = 0x3F := by decide
  unfold blocksBCD_no_errors
  rw [hm, and_3F, and_3F]
  show (x % 64 == _) = _
  rw [hx]

/-- A type-4 version-A group goes to the clock branch, from a record with
the clock fields of the one before the group. -/
theorem processGroup_type4A (s : Si4735) (r : Response) (ht : groupType r = 4)
    (hv : groupVersion r = false) :
    ∃ s3 : Si4735, processGroup s r = group4A s3 r ∧ s3.rds.MJD = s.rds.MJD ∧
      s3.rds.hour = s.rds.hour ∧ s3.rds.minute = s.rds.minute ∧
      s3.rds.offset = s.rds.offset ∧ s3._intBits = s._intBits := by
  simp only [processGroup, ht, hv]
  simp only [Nat.reduceEqDiff, false_and, or_self, if_false, and_self, if_true,
    Bool.false_eq_true]
  refine ⟨_, rfl, ?_, ?_, ?_, ?_, ?_⟩ <;> (split_ifs <;> rfl)

/-- What the clock branch does to the clock fields and to `new_info`. -/
theorem group4A_clock (s : Si4735) (r : Response) :
    ((group4A s r).1.rds.MJD, (group4A s r).1.rds.hour, (group4A s r).1.rds.minute,
      (group4A s r).1.rds.offset, (group4A s r).2) =
      if blocksBCD_no_errors r = true then
        (clockMJD s._intBits r, clockHour r, clockMinute r,
          (if clockSent s._intBits r = true then clockOffset r else s.rds.offset), clockSent s._intBits r)
      else (s.rds.MJD, s.rds.hour, s.rds.minute, s.rds.offset, false) := by
  unfold group4A
  by_cases h1 : blocksBCD_no_errors r = true <;> by_cases h2 : clockSent s._intBits r = true <;>
    simp [h1, h2]

/-- What a type-4 version-A group does to the clock fields and to
`new_info`. -/
theorem processGroup_clock (s : Si4735) (r : Response) (ht : groupType r = 4)
    (hv : groupVersion r = false) :
    ((processGroup s r).1.rds.MJD, (processGroup s r).1.rds.hour,
      (processGroup s r).1.rds.minute, (processGroup s r).1.rds.offset,
      (processGroup s r).2) =
      if blocksBCD_no_errors r = true then
        (clockMJD s._intBits r, clockHour r, clockMinute r,
          (if clockSent s._intBits r = true then clockOffset r else s.rds.offset), clockSent s._intBits r)
      else (s.rds.MJD, s.rds.hour, s.rds.minute, s.rds.offset, false) := by
  obtain ⟨s3, h, hM, hh, hm, ho, hb⟩ := processGroup_type4A s r ht hv
  rw [h, group4A_clock, hM, hh, hm, ho, hb]

/-- C21: for every type-4 version-A group in which at least one of blocks B,
C, D is tagged with an error level other than no errors, decoding the group
leaves rds.MJD, rds.hour, rds.minute and rds.offset unchanged and does not
mark new information; and two such groups that differ only in the error tag
of block A (bits 6 and 7 of the error byte) are treated alike: the clock
fields and the mark of new information after them are the same. -/
theorem clock_group_with_errors_ignored (s : Si4735) (r : Response)
    (ht : groupType r = 4) (hv : groupVersion r = false) :
    ((r.resp12 &&& FIELD_RDS_STATUS_RESP12_BLOCK_B ≠ RDS_STATUS_RESP12_BLOCK_B_NO_ERRORS ∨
      r.resp12 &&& FIELD_RDS_STATUS_RESP12_BLOCK_C ≠ RDS_STATUS_RESP12_BLOCK_C_NO_ERRORS ∨
      r.resp12 &&& FIELD_RDS_STATUS_RESP12_BLOCK_D ≠ RDS_STATUS_RESP12_BLOCK_D_NO_ERRORS) →
      (processGroup s r).1.rds.MJD = s.rds.MJD ∧
      (processGroup s r).1.rds.hour = s.rds.hour ∧
      (processGroup s r).1.rds.minute = s.rds.minute ∧
      (processGroup s r).1.rds.offset = s.rds.offset ∧
      (processGroup s r).2 = false) ∧
    (∀ x : Nat, x % 64 = r.resp12 % 64 →
      (processGroup s { r with resp12 := x }).1.rds.MJD = (processGroup s r).1.rds.MJD ∧
      (processGroup s { r with resp12 := x }).1.rds.hour = (processGroup s r).1.rds.hour ∧
      (processGroup s { r with resp12 := x }).1.rds.minute = (processGroup s r).1.rds.minute ∧
      (processGroup s { r with resp12 := x }).1.rds.offset = (processGroup s r).1.rds.offset ∧
      (processGroup s { r with resp12 := x }).2 = (processGroup s r).2) := by
  constructor
  · intro herr
    have hno : ¬ blocksBCD_no_errors r = true := by
      rw [blocksBCD_no_errors_iff]
      intro h
      rcases herr with h1 | h1 | h1
      · exact h1 h.1
      · exact h1 h.2.1
      · exact h1 h.2.2
    have h := processGroup_clock s r ht hv
    rw [if_neg hno] at h
    simp only [Prod.mk.injEq] at h
    exact h
  · intro x hx
    have h1 := processGroup_clock s r ht hv
    have h2 := processGroup_clock s { r with resp12 := x } ht hv
    rw [blocksBCD_no_errors_low_bits r x hx] at h2
    have h3 : ((processGroup s { r with resp12 := x }).1.rds.MJD,
        (processGroup s { r with resp12 := x }).1.rds.hour,
        (processGroup s { r with resp12 := x }).1.rds.minute,
        (processGroup s { r with resp12 := x }).1.rds.offset,
        (processGroup s { r with resp12 := x }).2) =
        ((processGroup s r).1.rds.MJD, (processGroup s r).1.rds.hour,
          (processGroup s r).1.rds.minute, (processGroup s r).1.rds.offset,
          (processGroup s r).2) := by
      rw [h1, h2]
      rfl
    simp only [Prod.mk.injEq] at h3
    exact h3

/-- Witness for C21: after the clock group of MJD 60000, 12:00, the same
group with block C tagged as corrected changes nothing, also when block A is
tagged uncorrectable. -/
theorem clock_group_with_errors_ignored_witness :
    groupType damagedClockReply = 4 ∧ groupVersion damagedClockReply = false ∧
    damagedClockReply.resp12 &&& FIELD_RDS_STATUS_RESP12_BLOCK_C ≠
      RDS_STATUS_RESP12_BLOCK_C_NO_ERRORS ∧
    (processGroup (processGroups station0 [sampleClockReply]) damagedClockReply).1.rds.MJD =
      60000 ∧
    (processGroup (processGroups station0 [sampleClockReply]) damagedClockReply).2 = false :=
  ⟨by decide, by decide, by decide,
   ((clock_group_with_errors_ignored (processGroups station0 [sampleClockReply])
      damagedClockReply (by decide) (by decide)).1 (Or.inr (Or.inl (by decide)))).1.trans
      (by decide),
   ((clock_group_with_errors_ignored (processGroups station0 [sampleClockReply])
      damagedClockReply (by decide) (by decide)).1 (Or.inr (Or.inl (by decide)))).2.2.2.2⟩

/-- A clean type-4 version-A group whose date, time and offset byte are all
zero stores zero in rds.MJD, rds.hour and rds.minute, keeps rds.offset and
does not mark new information. -/
theorem processGroup_zero_clock (s : Si4735) (r : Response) (hc : cleanClockGroup r = true)
    (hz : clockSent s._intBits r = false) :
    (processGroup s r).1.rds.MJD = 0 ∧ (processGroup s r).1.rds.hour = 0 ∧
    (processGroup s r).1.rds.minute = 0 ∧ (processGroup s r).1.rds.offset = s.rds.offset ∧
    (processGroup s r).2 = false := by
  simp only [cleanClockGroup, Bool.and_eq_true, beq_iff_eq] at hc
  obtain ⟨⟨ht, hv⟩, he⟩ := hc
  have h := processGroup_clock s r ht hv
  rw [if_pos he, hz] at h
  simp only [Prod.mk.injEq, Bool.false_eq_true, if_false] at h
  simp only [clockSent, Bool.or_eq_false_iff, bne_eq_false_iff_eq] at hz
  obtain ⟨⟨⟨h1, h2⟩, h3⟩, _⟩ := hz
  rw [h1, h2, h3] at h
  exact h

/-- C22 as stated fails: after the clock group of MJD 60000, 12:00 UTC,
offset +2, a clean type-4 version-A group whose date, time and offset byte
are all zero does not mark new information and keeps rds.offset, but stores
0 in rds.MJD, rds.hour and rds.minute; getLocalDateTime then still returns
true and no longer writes the date and time last broadcast. -/
theorem zero_clock_group_overwrites :
    cleanClockGroup zeroClockReply = true ∧ clockSent station0._intBits zeroClockReply = false ∧
    (processGroups station0 [sampleClockReply]).rds.MJD = 60000 ∧
    (processGroups station0 [sampleClockReply]).rds.hour = 12 ∧
    (processGroups station0 [sampleClockReply]).rds.minute = 0 ∧
    (processGroups station0 [sampleClockReply]).rds.offset = 2 ∧
    (processGroup (processGroups station0 [sampleClockReply]) zeroClockReply).2 = false ∧
    (processGroup (processGroups station0 [sampleClockReply]) zeroClockReply).1.rds.MJD = 0 ∧
    (processGroup (processGroups station0 [sampleClockReply]) zeroClockReply).1.rds.hour = 0 ∧
    (processGroup (processGroups station0 [sampleClockReply]) zeroClockReply).1.rds.minute = 0 ∧
    (processGroup (processGroups station0 [sampleClockReply]) zeroClockReply).1.rds.offset = 2 ∧
    getLocalDateTime (processGroups station0 [sampleClockReply]) ⟨0, 0, 0, 0, 0, 0⟩ =
      some (true, ⟨2023, 2, 25, 6, 13, 0⟩) ∧
    getLocalDateTime (processGroup (processGroups station0 [sampleClockReply]) zeroClockReply).1
      ⟨0, 0, 0, 0, 0, 0⟩ = some (true, ⟨2038, 4, 23, 5, 1, 0⟩) := by
  refine ⟨by decide, by decide, by decide, by decide, by decide, by decide, by decide,
    by decide, by decide, by decide, by decide, by decide, by decide⟩

end Si4735

/-- A value shifted left by `i` places and a value below `2 ^ i` have no bit
in common: their bitwise or is their sum. -/
theorem shl_or_eq_add (a b i : Nat) (h : b < 2 ^ i) : (a <<< i) ||| b = a * 2 ^ i + b := by
  rw [Nat.shiftLeft_eq, Nat.mul_comm, ← Nat.mul_add_lt_is_or h]

theorem and_20 (x : Nat) : x &&& 0x20 = 32 * (x / 32 % 2) :=
  and_shifted_ones x 1 5

theorem and_1F (x : Nat) : x &&& 0x1F = x % 32 := by
  simpa using and_shifted_ones x 5 0

namespace Si4735

/-- The exact value of the expression of the day count of a group 4A: the
sum of its three bit fields, below 2^17. -/
theorem clockBits_eq (r : Response) (hH : r.Block_C_H < 256) (hL : r.Block_C_L < 256) :
    ((r.Block_B_L &&& 0b00000011) <<< 15) ||| (r.Block_C_H <<< 7) ||| (r.Block_C_L >>> 1) =
      (r.Block_B_L &&& 3) * 2 ^ 15 + r.Block_C_H * 2 ^ 7 + (r.Block_C_L >>> 1) ∧
    (r.Block_B_L &&& 3) * 2 ^ 15 + r.Block_C_H * 2 ^ 7 + (r.Block_C_L >>> 1) < 2 ^ 17 := by
  have ha : r.Block_B_L &&& 3 ≤ 3 := Nat.and_le_right
  have hc : r.Block_C_H <<< 7 < 2 ^ 15 := by rw [Nat.shiftLeft_eq]; omega
  have hd : r.Block_C_L >>> 1 < 2 ^ 7 := by rw [Nat.shiftRight_eq_div_pow]; omega
  have h2 : (r.Block_B_L &&& 3) * 2 ^ 15 + r.Block_C_H <<< 7 =
      ((r.Block_B_L &&& 3) * 2 ^ 8 + r.Block_C_H) <<< 7 := by
    rw [Nat.shiftLeft_eq, Nat.shiftLeft_eq]; ring
  constructor
  · show ((r.Block_B_L &&& 3) <<< 15) ||| (r.Block_C_H <<< 7) ||| (r.Block_C_L >>> 1) = _
    rw [shl_or_eq_add _ _ 15 hc, h2, shl_or_eq_add _ _ 7 hd]
    ring
  · omega

/-- The day count of a group 4A on a target whose `int` has at least 18
bits (ARM): the sum of its three bit fields. -/
theorem clockMJD_wide (bits : Nat) (r : Response) (hb : 18 ≤ bits) (hH : r.Block_C_H < 256)
    (hL : r.Block_C_L < 256) :
    clockMJD bits r =
      (r.Block_B_L &&& 3) * 2 ^ 15 + r.Block_C_H * 2 ^ 7 + (r.Block_C_L >>> 1) := by
  obtain ⟨he, hlt⟩ := clockBits_eq r hH hL
  have hm : 2 ^ 18 ≤ 2 ^ bits := Nat.pow_le_pow_right (by omega) hb
  unfold clockMJD wrapInt
  rw [he]
  generalize (r.Block_B_L &&& 3) * 2 ^ 15 + r.Block_C_H * 2 ^ 7 + (r.Block_C_L >>> 1) = e at hlt ⊢
  generalize 2 ^ bits = m at hm
  have hmod : (e : Int) % (m : Int) = e := Int.emod_eq_of_lt (by omega) (by omega)
  unfold Int.bmod
  simp only [hmod]
  rw [if_pos (by omega)]
  unfold u32
  omega

/-- The day count of a group 4A on a target whose `int` has 16 bits (AVR):
the low 16 bits of the sum of the bit fields, with the 16 bits above them set
when bit 15 is set. -/
theorem clockMJD_16 (r : Response) (hH : r.Block_C_H < 256) (hL : r.Block_C_L < 256) :
    clockMJD 16 r =
      if 32768 ≤ ((r.Block_B_L &&& 3) * 2 ^ 15 + r.Block_C_H * 2 ^ 7 + (r.Block_C_L >>> 1)) % 65536
      then ((r.Block_B_L &&& 3) * 2 ^ 15 + r.Block_C_H * 2 ^ 7 + (r.Block_C_L >>> 1)) % 65536 +
        4294901760
      else ((r.Block_B_L &&& 3) * 2 ^ 15 + r.Block_C_H * 2 ^ 7 + (r.Block_C_L >>> 1)) % 65536 := by
  obtain ⟨he, hlt⟩ := clockBits_eq r hH hL
  unfold clockMJD wrapInt
  rw [he]
  generalize (r.Block_B_L &&& 3) * 2 ^ 15 + r.Block_C_H * 2 ^ 7 + (r.Block_C_L >>> 1) = e at hlt ⊢
  unfold Int.bmod u32
  simp only [Nat.reducePow, Nat.cast_ofNat, Nat.reduceAdd, Nat.reduceDiv]
  split_ifs <;> omega

/-- The hour of a group 4A as a sum of its two bit fields. -/
theorem clockHour_eq (r : Response) (hH : r.Block_D_H < 256) :
    clockHour r = (r.Block_C_L &&& 1) * 16 + (r.Block_D_H >>> 4) := by
  have ha : r.Block_C_L &&& 1 ≤ 1 := Nat.and_le_right
  have hd : r.Block_D_H >>> 4 < 2 ^ 4 := by rw [Nat.shiftRight_eq_div_pow]; omega
  unfold clockHour
  rw [u8_ofNat, shl_or_eq_add _ _ 4 hd, Nat.mod_eq_of_lt]
  · omega
  · omega

/-- The minute of a group 4A as a sum of its two bit fields. -/
theorem clockMinute_eq (r : Response) (hL : r.Block_D_L < 256) :
    clockMinute r = (r.Block_D_H &&& 0x0F) * 4 + (r.Block_D_L >>> 6) := by
  have ha : r.Block_D_H &&& 0x0F ≤ 0x0F := Nat.and_le_right
  have hd : r.Block_D_L >>> 6 < 2 ^ 2 := by rw [Nat.shiftRight_eq_div_pow]; omega
  unfold clockMinute
  rw [u8_ofNat, shl_or_eq_add _ _ 2 hd, Nat.mod_eq_of_lt]
  · omega
  · omega

/-- The offset of a group 4A: the low five bits, negated when bit 5 is set. -/
theorem clockOffset_eq (r : Response) :
    clockOffset r =
      if r.Block_D_L.testBit 5 = true then -((r.Block_D_L &&& 0x1F : Nat) : Int)
      else ((r.Block_D_L &&& 0x1F : Nat) : Int) := by
  have hb : (r.Block_D_L &&& 0b00100000 != 0) = r.Block_D_L.testBit 5 := by
    rw [Nat.testBit_to_div_mod]
    have h := and_20 r.Block_D_L
    have h5 : 2 ^ 5 = 32 := rfl
    rw [h5]
    by_cases hbit : r.Block_D_L / 32 % 2 = 1
    · have hne : r.Block_D_L &&& 0b00100000 ≠ 0 := by
        intro h0
        have h1 : r.Block_D_L &&& 0x20 = 0 := h0
        omega
      simp [hbit, hne]
    · have h0 : r.Block_D_L &&& 0b00100000 = 0 := by
        have h1 : r.Block_D_L &&& 0x20 = 0 := by omega
        exact h1
      simp [hbit, h0]
  unfold clockOffset
  rw [hb]

/-- The fields stored by an accepted clock group on a target whose `int` has
at least 18 bits (ARM): for every type-4 version-A group accepted with blocks
B, C, D error-free and not all zero, the stored fields are
MJD = (B_low & 3)*2^15 + C_high*2^7 + (C_low >> 1),
hour = (C_low & 1)*16 + (D_high >> 4),
minute = (D_high & 0x0F)*4 + (D_low >> 6) and
offset = (D_low & 0x1F), negated when bit 5 of D_low is set; the offset lies
in -31..31 and is not NO_DATE_TIME; new information is marked.  The bytes of
the reply are below 256.  Hour, minute and offset do not depend on the
width. -/
theorem clock_fields_wide_int (s : Si4735) (r : Response) (hwf : r.wf) (hb : 18 ≤ s._intBits)
    (hc : cleanClockGroup r = true) (hs : clockSent s._intBits r = true) :
    (processGroup s r).1.rds.MJD =
      (r.Block_B_L &&& 3) * 2 ^ 15 + r.Block_C_H * 2 ^ 7 + (r.Block_C_L >>> 1) ∧
    (processGroup s r).1.rds.hour = (r.Block_C_L &&& 1) * 16 + (r.Block_D_H >>> 4) ∧
    (processGroup s r).1.rds.minute = (r.Block_D_H &&& 0x0F) * 4 + (r.Block_D_L >>> 6) ∧
    (processGroup s r).1.rds.offset =
      (if r.Block_D_L.testBit 5 = true then -((r.Block_D_L &&& 0x1F : Nat) : Int)
       else ((r.Block_D_L &&& 0x1F : Nat) : Int)) ∧
    -31 ≤ (processGroup s r).1.rds.offset ∧ (processGroup s r).1.rds.offset ≤ 31 ∧
    (processGroup s r).1.rds.offset ≠ NO_DATE_TIME ∧
    (processGroup s r).2 = true := by
  obtain ⟨_, _, _, _, _, _, hCH, hCL, hDH, hDL, _⟩ := hwf
  simp only [cleanClockGroup, Bool.and_eq_true, beq_iff_eq] at hc
  obtain ⟨⟨ht, hv⟩, he⟩ := hc
  have h := processGroup_clock s r ht hv
  rw [if_pos he, if_pos hs, hs] at h
  simp only [Prod.mk.injEq] at h
  obtain ⟨hM, hh, hm, ho, hn⟩ := h
  have hrange := clockOffset_range r
  have hno : NO_DATE_TIME = 127 := rfl
  refine ⟨?_, ?_, ?_, ?_, ?_, ?_, ?_, hn⟩
  · rw [hM, clockMJD_wide _ r hb hCH hCL]
  · rw [hh, clockHour_eq r hDH]
  · rw [hm, clockMinute_eq r hDL]
  · rw [ho, clockOffset_eq]
  · rw [ho]; exact hrange.1
  · rw [ho]; exact hrange.2
  · rw [ho, hno]; omega

/-- C29 as stated fails on AVR, where `int` has 16 bits: the clean clock
group of MJD 60000, 12:00, offset +2 (B_low = 0x01, C = 0xD4C0, D = 0xC002)
is accepted and stores rds.MJD = 4294961760, not
(B_low & 3)*2^15 + C_high*2^7 + (C_low >> 1) = 60000: the shift by 15 is
made in `int`, overflows, and the negative result is sign-extended into the
`unsigned long`; a group of day count 65536 + 1000 stores 1000, bit 16 being
lost.  Hour, minute and offset are stored as the claim says, and with a
32-bit `int` the same group stores 60000. -/
theorem clock_group_day_count_wraps :
    cleanClockGroup sampleClockReply = true ∧ clockSent 16 sampleClockReply = true ∧
    (sampleClockReply.Block_B_L &&& 3) * 2 ^ 15 + sampleClockReply.Block_C_H * 2 ^ 7 +
      (sampleClockReply.Block_C_L >>> 1) = 60000 ∧
    (processGroup { station0 with _intBits := 16 } sampleClockReply).1.rds.MJD = 4294961760 ∧
    (processGroup { station0 with _intBits := 16 } sampleClockReply).1.rds.hour = 12 ∧
    (processGroup { station0 with _intBits := 16 } sampleClockReply).1.rds.minute = 0 ∧
    (processGroup { station0 with _intBits := 16 } sampleClockReply).1.rds.offset = 2 ∧
    (processGroup { station0 with _intBits := 16 } sampleClockReply).2 = true ∧
    (processGroup { station0 with _intBits := 16 }
      { sampleClockReply with Block_B_L := 0x02, Block_C_H := 0x07, Block_C_L := 0xD0 }).1.rds.MJD
      = 1000 ∧
    (processGroup { station0 with _intBits := 32 } sampleClockReply).1.rds.MJD = 60000 := by
  refine ⟨by decide, by decide, by decide, by decide, by decide, by decide, by decide,
    by decide, by decide, by decide⟩

/-- Example of the fields on a 32-bit `int`: the clock group of MJD 60000,
12:00, offset +2, and the same group with the sign bit of the offset set. -/
theorem clock_fields_wide_int_example :
    Response.wf sampleClockReply ∧ cleanClockGroup sampleClockReply = true ∧
    clockSent station0._intBits sampleClockReply = true ∧
    (processGroup station0 sampleClockReply).1.rds.MJD = 60000 ∧
    (processGroup station0 sampleClockReply).1.rds.hour = 12 ∧
    (processGroup station0 sampleClockReply).1.rds.minute = 0 ∧
    (processGroup station0 sampleClockReply).1.rds.offset = 2 ∧
    (processGroup station0 { sampleClockReply with Block_D_L := 0x22 }).1.rds.offset = -2 :=
  ⟨by unfold Response.wf; decide, by decide, by decide,
   (clock_fields_wide_int station0 sampleClockReply (by unfold Response.wf; decide) (by decide)
      (by decide) (by decide)).1.trans (by decide),
   (clock_fields_wide_int station0 sampleClockReply (by unfold Response.wf; decide) (by decide)
      (by decide) (by decide)).2.1.trans (by decide),
   (clock_fields_wide_int station0 sampleClockReply (by unfold Response.wf; decide) (by decide)
      (by decide) (by decide)).2.2.1.trans (by decide),
   (clock_fields_wide_int station0 sampleClockReply (by unfold Response.wf; decide) (by decide)
      (by decide) (by decide)).2.2.2.1.trans (by decide),
   (clock_fields_wide_int station0 { sampleClockReply with Block_D_L := 0x22 }
      (by unfold Response.wf; decide) (by decide) (by decide) (by decide)).2.2.2.1.trans
      (by decide)⟩

end Si4735

/-! ## Program identification and program type -/

namespace Si4735

theorem group0_ids (s : Si4735) (r : Response) (type : Nat) :
    (group0 s r type).rds.programId = s.rds.programId ∧
    (group0 s r type).rds.programType = s.rds.programType := by
  simp only [group0]
  constructor <;> (split_ifs <;> (split <;> rfl))

theorem group1A_ids (s : Si4735) (r : Response) :
    (group1A s r).1.rds.programId = s.rds.programId ∧
    (group1A s r).1.rds.programType = s.rds.programType := by
  simp only [group1A]
  constructor <;> (split_ifs <;> rfl)

theorem group2_ids (s : Si4735) (r : Response) (version : Bool) :
    (group2 s r version).rds.programId = s.rds.programId ∧
    (group2 s r version).rds.programType = s.rds.programType := by
  simp only [group2]
  constructor <;> (split_ifs <;> rfl)

theorem group4A_ids (s : Si4735) (r : Response) :
    (group4A s r).1.rds.programId = s.rds.programId ∧
    (group4A s r).1.rds.programType = s.rds.programType := by
  simp only [group4A]
  constructor <;> (split_ifs <;> rfl)

theorem group10A_ids (s : Si4735) (r : Response) :
    (group10A s r).rds.programId = s.rds.programId ∧
    (group10A s r).rds.programType = s.rds.programType := by
  simp only [group10A]
  constructor <;> (split_ifs <;> rfl)

/-- The PI code after one decoded group, whatever the group type: the word
made of the two bytes of block A unless block A is tagged uncorrectable. -/
theorem processGroup_programId (s : Si4735) (r : Response) :
    (processGroup s r).1.rds.programId =
      if r.resp12 &&& FIELD_RDS_STATUS_RESP12_BLOCK_A ≠
          RDS_STATUS_RESP12_BLOCK_A_UNCORRECTABLE then MAKE_WORD r.PI_H r.PI_L
      else s.rds.programId := by
  simp only [processGroup]
  split_ifs <;>
    simp only [(group0_ids _ _ _).1, (group1A_ids _ _).1, (group2_ids _ _ _).1,
      (group4A_ids _ _).1, (group10A_ids _ _).1]

/-- The program type after one decoded group, whatever the group type. -/
theorem processGroup_programType (s : Si4735) (r : Response) :
    (processGroup s r).1.rds.programType =
      u8 ((((r.Block_B_H &&& 0b00000011) <<< 3) ||| (r.Block_B_L >>> 5) : Nat)) := by
  simp only [processGroup]
  split_ifs <;>
    simp only [(group0_ids _ _ _).2, (group1A_ids _ _).2, (group2_ids _ _ _).2,
      (group4A_ids _ _).2, (group10A_ids _ _).2]

/-- The word made of two bytes. -/
theorem MAKE_WORD_eq (hb lb : Nat) (h1 : hb < 256) (h2 : lb < 256) :
    MAKE_WORD hb lb = (hb <<< 8) ||| lb := by
  unfold MAKE_WORD
  rw [u16_ofNat, Nat.mod_eq_of_lt h1, Nat.mod_eq_of_lt h2, shl_or_eq_add _ _ 8 h2,
    Nat.mod_eq_of_lt]
  omega

/-- C30: for every decoded group, whatever its type, rds.programId becomes
(PI_high << 8) | PI_low if the error tag of block A is anything other than
uncorrectable, and is left unchanged if the tag is uncorrectable. -/
theorem programId_update (s : Si4735) (r : Response) (hwf : r.wf) :
    (r.resp12 &&& FIELD_RDS_STATUS_RESP12_BLOCK_A ≠ RDS_STATUS_RESP12_BLOCK_A_UNCORRECTABLE →
      (processGroup s r).1.rds.programId = (r.PI_H <<< 8) ||| r.PI_L) ∧
    (r.resp12 &&& FIELD_RDS_STATUS_RESP12_BLOCK_A = RDS_STATUS_RESP12_BLOCK_A_UNCORRECTABLE →
      (processGroup s r).1.rds.programId = s.rds.programId) := by
  obtain ⟨_, _, hH, hL, _⟩ := hwf
  constructor
  · intro h
    rw [processGroup_programId, if_pos h, MAKE_WORD_eq _ _ hH hL]
  · intro h
    rw [processGroup_programId, if_neg (not_not.mpr h)]

/-- Witness for C30: a group 5A, which getRDS does not decode, stores the PI
code 0x1234 when block A is free of errors and keeps the old one when block
A is uncorrectable. -/
theorem programId_update_witness :
    Response.wf otherGroupReply ∧ Response.wf lostPIReply ∧
    groupType otherGroupReply = 5 ∧ groupType lostPIReply = 5 ∧
    (processGroup (stationUS 0x54A8) otherGroupReply).1.rds.programId = 0x1234 ∧
    (processGroup (stationUS 0x54A8) lostPIReply).1.rds.programId = 0x54A8 :=
  ⟨by unfold Response.wf; decide, by unfold Response.wf; decide, by decide, by decide,
   ((programId_update (stationUS 0x54A8) otherGroupReply (by unfold Response.wf; decide)).1
      (by decide)).trans (by decide),
   ((programId_update (stationUS 0x54A8) lostPIReply (by unfold Response.wf; decide)).2
      (by decide)).trans (by decide)⟩

end Si4735

/-! ## Reset of the station record -/

namespace Si4735

/-- The region policy on a record without PI code and without a trusted
country code: the locale decides. -/
theorem no_ecc_without_pi (s : Si4735) (h0 : s.rds.programId = 0) :
    no_ecc s = decide (s._locale = LOCALE_US) := by
  unfold no_ecc
  rw [h0]
  by_cases hU : s._locale = LOCALE_US
  · simp [hU]
  · by_cases hC : s._locale = LOCALE_CA_MX <;> simp [hU, hC]

/-- On the freshly cleared record the region policy is decided by the locale
alone. -/
theorem check_if_RBDS_cleared (s : Si4735) :
    check_if_RBDS (clearStationInfo s) = decide (s._locale = LOCALE_US) := by
  have hc : (clearStationInfo s)._extendedCountryCode_count < RDS_THRESHOLD := by
    show 0 < RDS_THRESHOLD
    decide
  unfold check_if_RBDS
  rw [if_pos hc]
  exact no_ecc_without_pi (clearStationInfo s) rfl

/-- The value `clearStationInfo` leaves in rds.RBDS: the region policy
evaluated with the PI code cleared but with the country code and the counter
of the station tuned before. -/
theorem clearStationInfo_RBDS (s : Si4735) :
    (clearStationInfo s).rds.RBDS =
      if s._extendedCountryCode_count < RDS_THRESHOLD then decide (s._locale = LOCALE_US)
      else if s.rds.extendedCountryCode = ECC_US then true
      else if s.rds.extendedCountryCode = ECC_UNKNOWN then decide (s._locale = LOCALE_US)
      else false := by
  have h : (clearStationInfo s).rds.RBDS =
      check_if_RBDS { s with rds.programId := 0, rds.RDSSignal := false } := rfl
  rw [h]
  unfold check_if_RBDS
  rw [no_ecc_without_pi _ rfl]

/-- The call sign of a record without PI code: four spaces. -/
theorem getCallSign_cleared (s : Si4735) :
    (getCallSign (clearStationInfo s)).2 =
      (false, [' '.toNat, ' '.toNat, ' '.toNat, ' '.toNat, 0]) := by
  have h0 : (clearStationInfo s).rds.programId = 0 := rfl
  have hc : compatPI 0 = 0 := by decide
  have hd : decodeRanges 0 = (false, [' '.toNat, ' '.toNat, ' '.toNat, ' '.toNat, 0]) := by
    decide
  cases hR : check_if_RBDS (clearStationInfo s) <;>
    simp [getCallSign, hR, callSignOf, h0, hc, hd, fill_call_sign]

/-- C23: after clearStationInfo (and therefore after tuneFrequency and after
seek_start, which end with it) programId, groupA, groupB and programType are
0, RDSSignal is false, the country code and the language code are unknown,
the seven ternary flags and both A/B trackers are unknown, both confidence
counters are 0, offset is NO_DATE_TIME, programService is eight spaces,
radioTextLen is 0, radioText and programTypeName are empty strings;
getLocalDateTime and getLocalTime return false and getCallSign returns false
with four spaces.  The buffers are taken of their declared lengths. -/
theorem clearStationInfo_empty (s : Si4735) (hps : s.rds.programService.length = 9)
    (hrt : s.rds.radioText.length = 65) (hptn : s.rds.programTypeName.length = 9) :
    ((clearStationInfo s).rds.programId = 0 ∧ (clearStationInfo s).rds.groupA = 0 ∧
      (clearStationInfo s).rds.groupB = 0 ∧ (clearStationInfo s).rds.RDSSignal = false ∧
      (clearStationInfo s).rds.programType = 0 ∧
      (clearStationInfo s).rds.extendedCountryCode = ECC_UNKNOWN ∧
      (clearStationInfo s).rds.language = LANG_UNKNOWN) ∧
    ((clearStationInfo s).rds.trafficProgram = unknown ∧
      (clearStationInfo s).rds.trafficAlert = unknown ∧
      (clearStationInfo s).rds.music = unknown ∧
      (clearStationInfo s).rds.dynamicPTY = unknown ∧
      (clearStationInfo s).rds.compressedAudio = unknown ∧
      (clearStationInfo s).rds.binauralAudio = unknown ∧
      (clearStationInfo s).rds.RDSStereo = unknown ∧
      (clearStationInfo s)._abRadioText = unknown ∧
      (clearStationInfo s)._abProgramTypeName = unknown) ∧
    ((clearStationInfo s)._extendedCountryCode_count = 0 ∧
      (clearStationInfo s)._language_count = 0 ∧
      (clearStationInfo s).rds.offset = NO_DATE_TIME) ∧
    ((clearStationInfo s).rds.programService =
        List.replicate 8 ' '.toNat ++ s.rds.programService.drop 8 ∧
      (clearStationInfo s).rds.programService.take 8 = List.replicate 8 ' '.toNat ∧
      (clearStationInfo s).rds.radioTextLen = 0 ∧
      (clearStationInfo s).rds.radioText.head? = some 0 ∧
      (clearStationInfo s).rds.programTypeName.head? = some 0) ∧
    ((∀ time : DateTime, getLocalDateTime (clearStationInfo s) time = some (false, time)) ∧
      (∀ time : Time, getLocalTime (clearStationInfo s) time = (false, time)) ∧
      (getCallSign (clearStationInfo s)).2 =
        (false, [' '.toNat, ' '.toNat, ' '.toNat, ' '.toNat, 0])) ∧
    (tuneFrequency s = clearInterrupts (clearStationInfo s) STC_MASK ∧
      seek_start s = clearInterrupts (clearStationInfo s) STC_MASK ∧
      (clearInterrupts (clearStationInfo s) STC_MASK).rds = (clearStationInfo s).rds) := by
  have hps2 : (clearStationInfo s).rds.programService =
      List.replicate 8 ' '.toNat ++ s.rds.programService.drop 8 :=
    foldl_set_range ' '.toNat 8 s.rds.programService (by omega)
  have hrt2 : (clearStationInfo s).rds.radioText = s.rds.radioText.set 0 0 := rfl
  have hptn2 : (clearStationInfo s).rds.programTypeName = s.rds.programTypeName.set 0 0 := rfl
  have ho : (clearStationInfo s).rds.offset = NO_DATE_TIME := rfl
  refine ⟨⟨rfl, rfl, rfl, rfl, rfl, rfl, rfl⟩, ⟨rfl, rfl, rfl, rfl, rfl, rfl, rfl, rfl, rfl⟩,
    ⟨rfl, rfl, rfl⟩, ⟨hps2, ?_, rfl, ?_, ?_⟩, ⟨?_, ?_, getCallSign_cleared s⟩,
    ⟨rfl, rfl, rfl⟩⟩
  · rw [hps2]
    simp
  · rw [hrt2]
    cases hl : s.rds.radioText with
    | nil => rw [hl] at hrt; simp at hrt
    | cons a l => rfl
  · rw [hptn2]
    cases hl : s.rds.programTypeName with
    | nil => rw [hl] at hptn; simp at hptn
    | cons a l => rfl
  · intro time
    simp [getLocalDateTime, ho]
  · intro time
    simp [getLocalTime, ho]

/-- Witness for C23: the reset of a record that holds a PI code, a trusted
country code, a date and time and a radio text. -/
theorem clearStationInfo_empty_witness :
    (processGroups (stationUS 0x54A8)
      [sampleClockReply, radioTextReply 0 72 105 33 13]).rds.offset = 2 ∧
    (clearStationInfo (processGroups (stationUS 0x54A8)
      [sampleClockReply, radioTextReply 0 72 105 33 13])).rds.offset = NO_DATE_TIME ∧
    (clearStationInfo (processGroups (stationUS 0x54A8)
      [sampleClockReply, radioTextReply 0 72 105 33 13])).rds.programService.take 8 =
      List.replicate 8 ' '.toNat ∧
    (getCallSign (clearStationInfo (processGroups (stationUS 0x54A8)
      [sampleClockReply, radioTextReply 0 72 105 33 13]))).2 =
      (false, [' '.toNat, ' '.toNat, ' '.toNat, ' '.toNat, 0]) :=
  ⟨by decide,
   (clearStationInfo_empty (processGroups (stationUS 0x54A8)
      [sampleClockReply, radioTextReply 0 72 105 33 13])
      (by decide) (by decide) (by decide)).2.2.1.2.2,
   (clearStationInfo_empty (processGroups (stationUS 0x54A8)
      [sampleClockReply, radioTextReply 0 72 105 33 13])
      (by decide) (by decide) (by decide)).2.2.2.1.2.1,
   (clearStationInfo_empty (processGroups (stationUS 0x54A8)
      [sampleClockReply, radioTextReply 0 72 105 33 13])
      (by decide) (by decide) (by decide)).2.2.2.2.1.2.2⟩

/-- C24 as stated fails: two records with the same locale LOCALE_US are
reset; the one whose previous station had the trusted country code 0xE0 is
left with rds.RBDS false, the other with rds.RBDS true, although
check_if_RBDS() on either cleared record is true (as it is on every cleared
record exactly when the locale is LOCALE_US), and a call of getCallSign on
the cleared record stores true. -/
theorem clearStationInfo_RBDS_stale :
    station0._locale = LOCALE_US ∧ stationAbroad._locale = LOCALE_US ∧
    stationAbroad.rds.extendedCountryCode = 0xE0 ∧
    stationAbroad._extendedCountryCode_count = RDS_THRESHOLD ∧
    (clearStationInfo station0).rds.RBDS = true ∧
    (clearStationInfo stationAbroad).rds.RBDS = false ∧
    check_if_RBDS (clearStationInfo station0) = true ∧
    check_if_RBDS (clearStationInfo stationAbroad) = true ∧
    (getCallSign (clearStationInfo stationAbroad)).1.rds.RBDS = true ∧
    (∀ s : Si4735, check_if_RBDS (clearStationInfo s) = decide (s._locale = LOCALE_US)) := by
  refine ⟨by decide, by decide, by decide, by decide, by decide, by decide, by decide,
    by decide, by decide, check_if_RBDS_cleared⟩

end Si4735

/-! ## Program type text -/

namespace Si4735

/-- The program type decoded from the bytes of block B is below 32. -/
theorem programType_lt (r : Response) (hL : r.Block_B_L < 256) :
    u8 ((((r.Block_B_H &&& 0b00000011) <<< 3) ||| (r.Block_B_L >>> 5) : Nat)) < 32 := by
  have ha : r.Block_B_H &&& 0b00000011 ≤ 0b00000011 := Nat.and_le_right
  have hd : r.Block_B_L >>> 5 < 2 ^ 3 := by rw [Nat.shiftRight_eq_div_pow]; omega
  rw [u8_ofNat, shl_or_eq_add _ _ 3 hd]
  omega

theorem getRDSLoop_programType (replies : List Response) :
    ∀ (s : Si4735) (new_info : Bool), s.rds.programType < 32 →
      (∀ r ∈ replies, r.wf) → (getRDSLoop s new_info replies).1.rds.programType < 32 := by
  induction replies with
  | nil => intro s new_info h _; exact h
  | cons r rest ih =>
    intro s new_info h hwf
    simp only [getRDSLoop]
    split_ifs
    · exact h
    · apply ih
      · rw [processGroup_programType]
        exact programType_lt r (hwf r (List.mem_cons_self _ _)).2.2.2.2.2.1
      · exact fun x hx => hwf x (List.mem_cons_of_mem _ hx)

theorem getRDS_programType (s : Si4735) (replies : List Response)
    (h : s.rds.programType < 32) (hwf : ∀ r ∈ replies, r.wf) :
    (getRDS s replies).1.rds.programType < 32 := by
  unfold getRDS
  split_ifs
  · exact h
  · exact getRDSLoop_programType replies _ false h hwf

theorem foldl_getRDS_programType (polls : List (List Response)) :
    ∀ st : Si4735, st.rds.programType < 32 → (∀ replies ∈ polls, ∀ r ∈ replies, r.wf) →
      (polls.foldl (fun st replies => (getRDS st replies).1) st).rds.programType < 32 := by
  induction polls with
  | nil => intro st h _; exact h
  | cons p rest ih =>
    intro st h hwf
    rw [List.foldl_cons]
    apply ih
    · exact getRDS_programType st p h (hwf p (List.mem_cons_self _ _))
    · exact fun q hq => hwf q (List.mem_cons_of_mem _ hq)

/-- In every state reached from a reset by polls of `getRDS` the program type
is below 32. -/
theorem afterPolls_programType (s : Si4735) (polls : List (List Response))
    (hwf : ∀ replies ∈ polls, ∀ r ∈ replies, r.wf) :
    (afterPolls s polls).rds.programType < 32 := by
  unfold afterPolls
  apply foldl_getRDS_programType polls _ _ hwf
  show 0 < 32
  decide

theorem PTY_RBDS_to_str_length : PTY_RBDS_to_str.length = 51 := by decide

set_option maxRecDepth 100000 in
theorem PTY_RBDS_to_str_rows : ∀ row ∈ PTY_RBDS_to_str, row.length = 16 := by decide

theorem PTY_RDS_to_RBDS_length : PTY_RDS_to_RBDS.length = 32 := by decide

theorem PTY_RDS_to_RBDS_le : ∀ e ∈ PTY_RDS_to_RBDS, e ≤ 50 := by decide

/-- Every row index below 51 reads a row of 16 characters. -/
theorem PTY_RBDS_to_str_row (i : Nat) (h : i < 51) :
    ∃ row, PTY_RBDS_to_str[i]? = some row ∧ row.length = 16 := by
  have hi : i < PTY_RBDS_to_str.length := by rw [PTY_RBDS_to_str_length]; exact h
  exact ⟨PTY_RBDS_to_str[i], List.getElem?_eq_getElem hi,
    PTY_RBDS_to_str_rows _ (List.getElem_mem hi)⟩

/-- Every program type below 32 has a translation, which is at most 50. -/
theorem PTY_RDS_to_RBDS_entry (p : Nat) (h : p < 32) :
    ∃ i, PTY_RDS_to_RBDS[p]? = some i ∧ i ≤ 50 := by
  have hp : p < PTY_RDS_to_RBDS.length := by rw [PTY_RDS_to_RBDS_length]; exact h
  exact ⟨PTY_RDS_to_RBDS[p], List.getElem?_eq_getElem hp,
    PTY_RDS_to_RBDS_le _ (List.getElem_mem hp)⟩

/-- With a program type below 32 `getProgramTypeStr` reads both tables
within bounds. -/
theorem getProgramTypeStr_of_lt (t : Si4735) (h : t.rds.programType < 32) :
    (check_if_RBDS t = true →
      ∃ row, PTY_RBDS_to_str[t.rds.programType]? = some row ∧ row.length = 16 ∧
        getProgramTypeStr t = some ({ t with rds.RBDS := true }, row ++ [0])) ∧
    (check_if_RBDS t = false →
      ∃ i row, PTY_RDS_to_RBDS[t.rds.programType]? = some i ∧ i ≤ 50 ∧
        PTY_RBDS_to_str[i]? = some row ∧ row.length = 16 ∧
        getProgramTypeStr t = some ({ t with rds.RBDS := false }, row ++ [0])) := by
  constructor
  · intro hR
    obtain ⟨row, hrow, hlen⟩ := PTY_RBDS_to_str_row t.rds.programType (by omega)
    refine ⟨row, hrow, hlen, ?_⟩
    have htake : row.take 16 = row := List.take_of_length_le (by omega)
    simp only [getProgramTypeStr, programTypeRow, hR, if_true, hrow, htake]
  · intro hR
    obtain ⟨i, hi, hle⟩ := PTY_RDS_to_RBDS_entry t.rds.programType h
    obtain ⟨row, hrow, hlen⟩ := PTY_RBDS_to_str_row i (by omega)
    refine ⟨i, row, hi, hle, hrow, hlen, ?_⟩
    have htake : row.take 16 = row := List.take_of_length_le (by omega)
    simp only [getProgramTypeStr, programTypeRow, hR, Bool.false_eq_true, if_false, hi, hrow,
      htake]

/-- C25: in every state reached from a reset by polls of getRDS (the replies
being bytes), rds.programType is in 0..31 and getProgramTypeStr returns: it
writes the 16 characters of row rds.programType of the 51-row table when
check_if_RBDS() is true, and of row PTY_RDS_to_RBDS[rds.programType]
otherwise, followed by NUL; the translation table has 32 entries, each at
most 50, and the text table 51 rows of 16 characters, so both reads are
within bounds. -/
theorem getProgramTypeStr_in_bounds (s : Si4735) (polls : List (List Response))
    (hwf : ∀ replies ∈ polls, ∀ r ∈ replies, r.wf) :
    (afterPolls s polls).rds.programType < 32 ∧
    (check_if_RBDS (afterPolls s polls) = true →
      ∃ row, PTY_RBDS_to_str[(afterPolls s polls).rds.programType]? = some row ∧
        row.length = 16 ∧
        getProgramTypeStr (afterPolls s polls) =
          some ({ afterPolls s polls with rds.RBDS := true }, row ++ [0])) ∧
    (check_if_RBDS (afterPolls s polls) = false →
      ∃ i row, PTY_RDS_to_RBDS[(afterPolls s polls).rds.programType]? = some i ∧ i ≤ 50 ∧
        PTY_RBDS_to_str[i]? = some row ∧ row.length = 16 ∧
        getProgramTypeStr (afterPolls s polls) =
          some ({ afterPolls s polls with rds.RBDS := false }, row ++ [0])) ∧
    PTY_RDS_to_RBDS.length = 32 ∧ (∀ e ∈ PTY_RDS_to_RBDS, e ≤ 50) ∧
    PTY_RBDS_to_str.length = 51 ∧ (∀ row ∈ PTY_RBDS_to_str, row.length = 16) := by
  have h := afterPolls_programType s polls hwf
  exact ⟨h, (getProgramTypeStr_of_lt _ h).1, (getProgramTypeStr_of_lt _ h).2,
    PTY_RDS_to_RBDS_length, PTY_RDS_to_RBDS_le, PTY_RBDS_to_str_length, PTY_RBDS_to_str_rows⟩

/-- Witness for C25: after a group with program type 31 the text is that of
row 31 under RBDS; with the locale LOCALE_OTHER a group with program type 2
gives the text of row 32. -/
theorem getProgramTypeStr_in_bounds_witness :
    (∀ replies ∈ [[otherGroupReply]], ∀ r ∈ replies, Response.wf r) ∧
    (afterPolls station0 [[otherGroupReply]]).rds.programType < 32 ∧
    (afterPolls station0 [[otherGroupReply]]).rds.programType = 31 ∧
    (getProgramTypeStr (afterPolls station0 [[otherGroupReply]])).map Prod.snd =
      some ([' ', 'A', 'L', 'E', 'R', 'T', '!', ' ', 'A', 'L', 'E', 'R', 'T', '!', ' ',
        ' '].map Char.toNat ++ [0]) ∧
    (getProgramTypeStr (afterPolls { station0 with _locale := LOCALE_OTHER }
      [[{ otherGroupReply with Block_B_H := 0x50, Block_B_L := 0x40 }]])).map Prod.snd =
      some (['C', 'u', 'r', 'r', 'e', 'n', 't', ' ', 'A', 'f', 'f', 'a', 'i', 'r', 's',
        ' '].map Char.toNat ++ [0]) :=
  ⟨by decide,
   (getProgramTypeStr_in_bounds station0 [[otherGroupReply]] (by decide)).1,
   by decide, by decide, by decide⟩

end Si4735

/-! ## New information -/

namespace Si4735

end Si4735

/-! ## Hexadecimal command strings -/

namespace Si4735

/-- The first digit of a pair is replaced by the truth value 1 of the loop
condition: whatever the digit, the byte is first set to 0x10. -/
theorem tempValue_one_shifted : u8 ((tempValue 1 * 16 : Nat)) = 0x10 := by decide

/-- One pair of characters in the loop of `sendCommand`: the byte stored is
0x10 plus the value of the second character; the first character is only
tested for NUL. -/
theorem sendCommandLoop_pair (buffer : List Nat) (index c d : Nat) (rest : List Nat)
    (hc : c ≠ 0) (hd : d ≠ 0) (hi : index < CMD_MAX_LENGTH)
    (hb : buffer.length = CMD_MAX_LENGTH) :
    sendCommandLoop buffer index (c :: d :: rest) =
      sendCommandLoop (buffer.set index (u8 ((0x10 + tempValue d : Nat)))) (index + 1) rest := by
  have h8 : CMD_MAX_LENGTH = 8 := rfl
  have hidx : u8 ((index + 1 : Nat)) = index + 1 := by
    rw [u8_ofNat]; omega
  have hget : (buffer.set index 0x10).getD index 0 = 0x10 := by
    rw [List.getD_eq_getElem?_getD, List.getElem?_set_self]
    · rfl
    · omega
  rw [sendCommandLoop]
  simp only [hc, hi, ne_eq, not_false_eq_true, and_self, if_true, one_ne_zero, if_false, hd,
    hidx, List.set_set, tempValue_one_shifted, hget]

/-- Writing position `i` and keeping the first `i + 1` elements. -/
theorem take_succ_set {α : Type} (v : α) :
    ∀ (l : List α) (i : Nat), i < l.length → (l.set i v).take (i + 1) = l.take i ++ [v] := by
  intro l
  induction l with
  | nil => intro i h; simp at h
  | cons a l ih =>
    intro i h
    cases i with
    | zero => simp
    | succ j =>
      have hj : j < l.length := by simpa using h
      simp [List.set, ih j hj]

/-- On a hexadecimal digit the source computes its value; the digit is not
NUL. -/
theorem tempValue_hex (c : Nat) (h : isHexDigit c = true) :
    tempValue c = hexValue c ∧ hexValue c ≤ 15 ∧ c ≠ 0 := by
  simp only [isHexDigit, Bool.or_eq_true, Bool.and_eq_true, decide_eq_true_eq] at h
  have e0 : '0'.toNat = 48 := rfl
  have e9 : '9'.toNat = 57 := rfl
  have eA : 'A'.toNat = 65 := rfl
  have eF : 'F'.toNat = 70 := rfl
  have ea : 'a'.toNat = 97 := rfl
  have ef : 'f'.toNat = 102 := rfl
  have ez : 'z'.toNat = 122 := rfl
  rw [e0, e9, eA, eF, ea, ef] at h
  unfold tempValue hexValue toupper u8
  rw [e0, e9, eA, eF, ea, ef, ez]
  rcases h with (h | h) | h
  · have c1 : ¬ c > 57 := by omega
    have c2 : 48 ≤ c ∧ c ≤ 57 := h
    rw [if_neg c1, if_pos c2]
    omega
  · have c1 : c > 57 := by omega
    have c2 : ¬ (48 ≤ c ∧ c ≤ 57) := by omega
    have c3 : 65 ≤ c ∧ c ≤ 70 := h
    have c4 : ¬ (97 ≤ c ∧ c ≤ 122) := by omega
    rw [if_pos c1, if_neg c2, if_pos c3, if_neg c4]
    omega
  · have c1 : c > 57 := by omega
    have c2 : ¬ (48 ≤ c ∧ c ≤ 57) := by omega
    have c3 : ¬ (65 ≤ c ∧ c ≤ 70) := by omega
    have c4 : 97 ≤ c ∧ c ≤ 102 := h
    have c5 : 97 ≤ c ∧ c ≤ 122 := by omega
    rw [if_pos c1, if_neg c2, if_neg c3, if_pos c4, if_pos c5]
    omega

/-- The loop of `sendCommand` on a string of `2n` hexadecimal digits: `n`
bytes are stored, byte `i` being 0x10 plus the value of digit `2i+1`. -/
theorem sendCommandLoop_digits (n : Nat) :
    ∀ (cmd buffer : List Nat) (index : Nat), cmd.length = 2 * n →
      index + n ≤ CMD_MAX_LENGTH → buffer.length = CMD_MAX_LENGTH →
      (∀ c ∈ cmd, isHexDigit c = true) →
      (sendCommandLoop buffer index cmd).2 = index + n ∧
      (sendCommandLoop buffer index cmd).1.take (index + n) =
        buffer.take index ++
          (List.range n).map (fun i => 0x10 + hexValue (cmd.getD (2 * i + 1) 0)) := by
  induction n with
  | zero =>
    intro cmd buffer index hlen _ _ _
    have hnil : cmd = [] := List.length_eq_zero.mp (by omega)
    subst hnil
    simp [sendCommandLoop]
  | succ k ih =>
    intro cmd buffer index hlen hidx hb hhex
    match cmd, hlen, hhex with
    | [], hlen, _ => simp at hlen
    | [_], hlen, _ => simp at hlen; omega
    | c :: d :: rest, hlen, hhex =>
      have hc := tempValue_hex c (hhex c (by simp))
      have hd := tempValue_hex d (hhex d (by simp))
      have h8 : CMD_MAX_LENGTH = 8 := rfl
      have hi : index < CMD_MAX_LENGTH := by omega
      have hi2 : index < buffer.length := by omega
      have hrest : rest.length = 2 * k := by
        simp only [List.length_cons] at hlen
        omega
      have hv : u8 ((0x10 + tempValue d : Nat)) = 0x10 + hexValue d := by
        rw [u8_ofNat, hd.1]
        omega
      rw [sendCommandLoop_pair buffer index c d rest hc.2.2 hd.2.2 hi hb, hv]
      obtain ⟨h1, h2⟩ := ih rest (buffer.set index (0x10 + hexValue d)) (index + 1) hrest
        (by omega) (by rw [List.length_set]; exact hb)
        (fun x hx => hhex x (List.mem_cons_of_mem _ (List.mem_cons_of_mem _ hx)))
      have e1 : index + (k + 1) = index + 1 + k := by omega
      refine ⟨by rw [h1]; omega, ?_⟩
      rw [e1, h2, take_succ_set _ buffer index hi2, List.range_succ_eq_map, List.map_cons,
        List.map_map, List.append_assoc]
      rfl

/-- The packet `sendCommand` builds from a string of `2n` hexadecimal
digits, `n` at most 8: it has length `n`, and byte `i` is 0x10 plus the value
of digit `2i+1`; the digit `2i` has no influence. -/
theorem sendCommand_digits (buffer cmd : List Nat) (n : Nat) (hlen : cmd.length = 2 * n)
    (hn : n ≤ CMD_MAX_LENGTH) (hb : buffer.length = CMD_MAX_LENGTH)
    (hhex : ∀ c ∈ cmd, isHexDigit c = true) :
    sendCommand buffer cmd =
      (List.range n).map (fun i => 0x10 + hexValue (cmd.getD (2 * i + 1) 0)) := by
  obtain ⟨h1, h2⟩ := sendCommandLoop_digits n cmd buffer 0 hlen (by omega) hb hhex
  unfold sendCommand
  simp only [h1]
  rw [h2]
  simp

/-- C27 as stated fails: the string "2000" is sent as the bytes 0x10 0x10,
not 0x20 0x00, and "A5" as 0x15, not 0xA5; only a string whose bytes all
have the high digit 1, such as "1F", is sent as written.  The packet has
the right length. -/
theorem sendCommand_first_digit_lost :
    sendCommand (List.replicate CMD_MAX_LENGTH 0) ['2'.toNat, '0'.toNat, '0'.toNat, '0'.toNat] =
      [0x10, 0x10] ∧
    hexBytes ['2'.toNat, '0'.toNat, '0'.toNat, '0'.toNat] = [0x20, 0x00] ∧
    sendCommand (List.replicate CMD_MAX_LENGTH 0) ['A'.toNat, '5'.toNat] = [0x15] ∧
    hexBytes ['A'.toNat, '5'.toNat] = [0xA5] ∧
    sendCommand (List.replicate CMD_MAX_LENGTH 0) ['1'.toNat, 'F'.toNat] = [0x1F] ∧
    hexBytes ['1'.toNat, 'F'.toNat] = [0x1F] := by
  refine ⟨by decide, by decide, by decide, by decide, by decide, by decide⟩

end Si4735

/-! ## The space fill of the call sign -/

/-- The first correction as arithmetic: the low nibble of the high byte
becomes the high nibble, the low byte stays. -/
theorem restoreCoverage_arith (x : Nat) :
    restoreCoverage x = 4096 * (x / 256 % 16) + x % 256 := by
  have hb : x &&& 0x00FF < 2 ^ 8 := by rw [and_00FF]; omega
  have h1 : (x &&& 0x0F00) <<< 4 = (x / 256 % 16 * 16) <<< 8 := by
    rw [and_0F00, Nat.shiftLeft_eq, Nat.shiftLeft_eq]; omega
  unfold restoreCoverage
  rw [h1, shl_or_eq_add _ _ 8 hb, and_00FF]
  omega

/-- The identifiers that the compatibility corrections turn into 0. -/
theorem compatPI_eq_zero_iff (pi : Nat) (h : pi < 65536) :
    Si4735.compatPI pi = 0 ↔ pi = 0 ∨ pi = 0xA000 ∨ pi = 0xAF00 ∨ pi = 0xAFA0 := by
  by_cases hA : pi / 4096 % 16 = 10
  · have h1 : 0xA000 ≤ pi := by omega
    have h2 : pi ≤ 0xAFFF := by omega
    have hs : (pi <<< 8) % 2 ^ 16 = 256 * (pi % 256) := by
      rw [Nat.shiftLeft_eq]; omega
    rw [Si4735.compatPI_eq_correctedPI pi h1 h2]
    unfold correctedPI
    by_cases hAF : pi / 256 = 0xAF
    · rw [if_neg (not_not.mpr hAF)]
      simp only [hs]
      by_cases hn : 256 * (pi % 256) / 4096 = 0xA
      · rw [if_pos hn, restoreCoverage_arith]
        omega
      · rw [if_neg hn]
        omega
    · rw [if_pos hAF, restoreCoverage_arith]
      omega
  · rw [Si4735.compatPI_of_nibble_ne hA]
    omega

namespace Si4735

/-- The chain of range tests gives the space fill for the value 0 only. -/
theorem decodeRanges_spaces_iff (p : Nat) :
    decodeRanges p = (false, [' '.toNat, ' '.toNat, ' '.toNat, ' '.toNat, 0]) ↔ p = 0 := by
  constructor
  · intro h
    by_contra hp
    unfold decodeRanges at h
    dsimp only at h
    split_ifs at h <;> first
      | exact Bool.noConfusion (congrArg Prod.fst h : true = false)
      | (have h2 := congrArg Prod.snd h; simp [fill_call_sign] at h2)
  · intro h
    subst h
    decide

/-- Under the US scheme getCallSign writes the space fill exactly for the
identifiers 0, 0xA000, 0xAF00 and 0xAFA0: the last three are received
identifiers that the compatibility corrections turn into 0. -/
theorem getCallSign_spaces_iff (s : Si4735) (hR : check_if_RBDS s = true)
    (hpi : s.rds.programId < 65536) :
    (getCallSign s).2 = (false, [' '.toNat, ' '.toNat, ' '.toNat, ' '.toNat, 0]) ↔
      s.rds.programId = 0 ∨ s.rds.programId = 0xA000 ∨ s.rds.programId = 0xAF00 ∨
        s.rds.programId = 0xAFA0 := by
  have hget : (getCallSign s).2 = callSignOf true s.rds.programId s.rds.groupA := by
    simp [getCallSign, hR]
  rw [hget]
  by_cases h1 : s.rds.programId / 4096 % 16 = 1
  · have hc : s.rds.programId &&& 0xF000 = 0x1000 := by rw [and_F000]; omega
    have hg : s.rds.groupA ||| 256 ≠ 0 := or_bit8_ne_zero s.rds.groupA
    have hstar : callSignOf true s.rds.programId s.rds.groupA = fill_call_sign '*'.toNat := by
      simp [callSignOf, hc, hg]
    rw [hstar]
    constructor
    · intro h
      exact absurd h (by decide)
    · intro h
      omega
  · have hc : ¬ s.rds.programId &&& 0xF000 = 0x1000 := by rw [and_F000]; omega
    have hplain : callSignOf true s.rds.programId s.rds.groupA =
        decodeRanges (compatPI s.rds.programId) := by
      simp [callSignOf, hc]
    rw [hplain, decodeRanges_spaces_iff, compatPI_eq_zero_iff _ hpi]

/-- C28 as stated fails: with the received identifiers 0xA000, 0xAF00 and
0xAFA0, which are not 0, the scheme is the US one and getCallSign returns
false and writes four spaces, the pattern of a record without identifier. -/
theorem getCallSign_spaces_for_received_pi :
    check_if_RBDS { station0 with rds.programId := 0xA000 } = true ∧
    (getCallSign { station0 with rds.programId := 0xA000 }).2 =
      (false, [' '.toNat, ' '.toNat, ' '.toNat, ' '.toNat, 0]) ∧
    check_if_RBDS { station0 with rds.programId := 0xAF00 } = true ∧
    (getCallSign { station0 with rds.programId := 0xAF00 }).2 =
      (false, [' '.toNat, ' '.toNat, ' '.toNat, ' '.toNat, 0]) ∧
    check_if_RBDS { station0 with rds.programId := 0xAFA0 } = true ∧
    (getCallSign { station0 with rds.programId := 0xAFA0 }).2 =
      (false, [' '.toNat, ' '.toNat, ' '.toNat, ' '.toNat, 0]) ∧
    (getCallSign (processGroup station0 { otherGroupReply with PI_H := 0xA0, PI_L := 0 }).1).2 =
      (false, [' '.toNat, ' '.toNat, ' '.toNat, ' '.toNat, 0]) := by
  refine ⟨by decide, by decide, by decide, by decide, by decide, by decide, by decide⟩

end Si4735

/-! ## The masks of the groups received -/

namespace Si4735

theorem group0_masks (s : Si4735) (r : Response) (type : Nat) :
    (group0 s r type).rds.groupA = s.rds.groupA ∧
    (group0 s r type).rds.groupB = s.rds.groupB := by
  simp only [group0]
  constructor <;> (split_ifs <;> (split <;> rfl))

theorem group1A_masks (s : Si4735) (r : Response) :
    (group1A s r).1.rds.groupA = s.rds.groupA ∧
    (group1A s r).1.rds.groupB = s.rds.groupB := by
  simp only [group1A]
  constructor <;> (split_ifs <;> rfl)

theorem group2_masks (s : Si4735) (r : Response) (version : Bool) :
    (group2 s r version).rds.groupA = s.rds.groupA ∧
    (group2 s r version).rds.groupB = s.rds.groupB := by
  simp only [group2]
  constructor <;> (split_ifs <;> rfl)

theorem group4A_masks (s : Si4735) (r : Response) :
    (group4A s r).1.rds.groupA = s.rds.groupA ∧
    (group4A s r).1.rds.groupB = s.rds.groupB := by
  simp only [group4A]
  constructor <;> (split_ifs <;> rfl)

theorem group10A_masks (s : Si4735) (r : Response) :
    (group10A s r).rds.groupA = s.rds.groupA ∧
    (group10A s r).rds.groupB = s.rds.groupB := by
  simp only [group10A]
  constructor <;> (split_ifs <;> rfl)

/-- The mask of version-A groups after one decoded group. -/
theorem processGroup_groupA (s : Si4735) (r : Response) :
    (processGroup s r).1.rds.groupA =
      if groupVersion r = true then s.rds.groupA
      else u16 ((s.rds.groupA ||| (1 <<< groupType r) : Nat)) := by
  simp only [processGroup]
  split_ifs <;>
    simp only [(group0_masks _ _ _).1, (group1A_masks _ _).1, (group2_masks _ _ _).1,
      (group4A_masks _ _).1, (group10A_masks _ _).1]

/-- The mask of version-B groups after one decoded group. -/
theorem processGroup_groupB (s : Si4735) (r : Response) :
    (processGroup s r).1.rds.groupB =
      if groupVersion r = true then u16 ((s.rds.groupB ||| (1 <<< groupType r) : Nat))
      else s.rds.groupB := by
  simp only [processGroup]
  split_ifs <;>
    simp only [(group0_masks _ _ _).2, (group1A_masks _ _).2, (group2_masks _ _ _).2,
      (group4A_masks _ _).2, (group10A_masks _ _).2]

/-- The group type of a reply made of bytes is the high nibble of the high
byte of block B. -/
theorem groupType_lt (r : Response) (h : r.Block_B_H < 256) :
    groupType r = r.Block_B_H / 16 ∧ groupType r < 16 := by
  unfold groupType
  rw [u8_ofNat, Nat.shiftRight_eq_div_pow]
  omega

/-- Setting bit `t` of a 16-bit mask, stored back into the `word`. -/
theorem u16_or_bit (x t : Nat) (hx : x < 65536) (ht : t < 16) :
    u16 ((x ||| (1 <<< t) : Nat)) = x ||| 2 ^ t ∧ x ||| 2 ^ t < 65536 := by
  have h2 : (2 : Nat) ^ t < 2 ^ 16 := Nat.pow_lt_pow_right (by decide) ht
  have hlt : x ||| 2 ^ t < 65536 := Nat.or_lt_two_pow hx h2
  rw [u16_ofNat, Nat.shiftLeft_eq, Nat.one_mul, Nat.mod_eq_of_lt hlt]
  exact ⟨rfl, hlt⟩

end Si4735

/-- A single-bit mask tests that bit. -/
theorem and_pow_ne_zero (x k : Nat) : (x &&& 2 ^ k != 0) = x.testBit k := by
  have h := and_shifted_ones x 1 k
  have h1 : (2 : Nat) ^ 1 - 1 = 1 := rfl
  have h2 : (2 : Nat) ^ 1 = 2 := rfl
  have hpos : 0 < 2 ^ k := Nat.two_pow_pos k
  rw [h1, h2, Nat.mul_one] at h
  rw [Nat.testBit_to_div_mod, h]
  rcases Nat.mod_two_eq_zero_or_one (x / 2 ^ k) with h0 | h0
  · rw [h0]; simp
  · rw [h0]
    have hne : 2 ^ k * 1 ≠ 0 := by omega
    simp [hne]

namespace Si4735

/-- One decoded group on the two masks, bit by bit: bit `t` of the mask of
its version is set, every other bit of both masks stays. -/
theorem processGroup_mask_bits (s : Si4735) (r : Response) (hA : s.rds.groupA < 65536)
    (hB : s.rds.groupB < 65536) (hr : r.Block_B_H < 256) :
    ((processGroup s r).1.rds.groupA < 65536 ∧ (processGroup s r).1.rds.groupB < 65536) ∧
    (∀ i, (processGroup s r).1.rds.groupA.testBit i =
      (s.rds.groupA.testBit i || (decide (i = groupType r) && !groupVersion r))) ∧
    (∀ i, (processGroup s r).1.rds.groupB.testBit i =
      (s.rds.groupB.testBit i || (decide (i = groupType r) && groupVersion r))) := by
  have ht := (groupType_lt r hr).2
  have hAo := u16_or_bit s.rds.groupA (groupType r) hA ht
  have hBo := u16_or_bit s.rds.groupB (groupType r) hB ht
  rw [processGroup_groupA, processGroup_groupB]
  cases hv : groupVersion r
  · simp only [Bool.false_eq_true, if_false, hAo.1, Nat.testBit_or, Nat.testBit_two_pow,
      Bool.not_false, Bool.and_true, Bool.and_false, Bool.or_false]
    refine ⟨⟨hAo.2, hB⟩, fun i => ?_, fun _ => trivial⟩
    simp [eq_comm]
  · simp only [if_true, hBo.1, Nat.testBit_or, Nat.testBit_two_pow,
      Bool.not_true, Bool.and_true, Bool.and_false, Bool.or_false]
    refine ⟨⟨hA, hBo.2⟩, fun _ => trivial, fun i => ?_⟩
    simp [eq_comm]

/-- Along the loop of `getRDS` the masks stay 16-bit words and keep every
bit they have. -/
theorem getRDSLoop_masks (replies : List Response) :
    ∀ (s : Si4735) (new_info : Bool), s.rds.groupA < 65536 → s.rds.groupB < 65536 →
      (∀ r ∈ replies, r.wf) →
      ((getRDSLoop s new_info replies).1.rds.groupA < 65536 ∧
        (getRDSLoop s new_info replies).1.rds.groupB < 65536) ∧
      (∀ i, s.rds.groupA.testBit i = true →
        (getRDSLoop s new_info replies).1.rds.groupA.testBit i = true) ∧
      (∀ i, s.rds.groupB.testBit i = true →
        (getRDSLoop s new_info replies).1.rds.groupB.testBit i = true) := by
  induction replies with
  | nil => intro s new_info hA hB _; exact ⟨⟨hA, hB⟩, fun _ h => h, fun _ h => h⟩
  | cons r rest ih =>
    intro s new_info hA hB hwf
    simp only [getRDSLoop]
    split_ifs
    · exact ⟨⟨hA, hB⟩, fun _ h => h, fun _ h => h⟩
    · have hr := (hwf r (List.mem_cons_self _ _)).2.2.2.2.1
      obtain ⟨⟨hA2, hB2⟩, hbA, hbB⟩ := processGroup_mask_bits
        { s with rds.RDSSignal := r.resp2 &&& FIELD_RDS_STATUS_RESP2_SYNC != 0 } r hA hB hr
      obtain ⟨hlt, hmA, hmB⟩ := ih _ (new_info || (processGroup
        { s with rds.RDSSignal := r.resp2 &&& FIELD_RDS_STATUS_RESP2_SYNC != 0 } r).2)
        hA2 hB2 (fun x hx => hwf x (List.mem_cons_of_mem _ hx))
      refine ⟨hlt, fun i h => hmA i ?_, fun i h => hmB i ?_⟩
      · rw [hbA i]
        exact Bool.or_eq_true_iff.mpr (Or.inl h)
      · rw [hbB i]
        exact Bool.or_eq_true_iff.mpr (Or.inl h)

theorem getRDS_masks (s : Si4735) (replies : List Response) (hA : s.rds.groupA < 65536)
    (hB : s.rds.groupB < 65536) (hwf : ∀ r ∈ replies, r.wf) :
    ((getRDS s replies).1.rds.groupA < 65536 ∧ (getRDS s replies).1.rds.groupB < 65536) ∧
    (∀ i, s.rds.groupA.testBit i = true → (getRDS s replies).1.rds.groupA.testBit i = true) ∧
    (∀ i, s.rds.groupB.testBit i = true → (getRDS s replies).1.rds.groupB.testBit i = true) := by
  unfold getRDS
  split_ifs
  · exact ⟨⟨hA, hB⟩, fun _ h => h, fun _ h => h⟩
  · exact getRDSLoop_masks replies (clearInterrupts s RDS_MASK) false hA hB hwf

theorem foldl_getRDS_masks (polls : List (List Response)) :
    ∀ s : Si4735, s.rds.groupA < 65536 → s.rds.groupB < 65536 →
      (∀ replies ∈ polls, ∀ r ∈ replies, r.wf) →
      (∀ i, s.rds.groupA.testBit i = true →
        (polls.foldl (fun st replies => (getRDS st replies).1) s).rds.groupA.testBit i = true) ∧
      (∀ i, s.rds.groupB.testBit i = true →
        (polls.foldl (fun st replies => (getRDS st replies).1) s).rds.groupB.testBit i = true) := by
  induction polls with
  | nil => intro s _ _ _; exact ⟨fun _ h => h, fun _ h => h⟩
  | cons p rest ih =>
    intro s hA hB hwf
    obtain ⟨⟨hA2, hB2⟩, hmA, hmB⟩ := getRDS_masks s p hA hB (hwf p (List.mem_cons_self _ _))
    obtain ⟨hrA, hrB⟩ := ih (getRDS s p).1 hA2 hB2
      (fun q hq => hwf q (List.mem_cons_of_mem _ hq))
    rw [List.foldl_cons]
    exact ⟨fun i h => hrA i (hmA i h), fun i h => hrB i (hmB i h)⟩

/-- A mask that keeps every bit of a non-zero mask is not zero. -/
theorem ne_zero_of_bits (x y : Nat) (h : ∀ i, x.testBit i = true → y.testBit i = true)
    (hx : x ≠ 0) : y ≠ 0 := by
  obtain ⟨i, hi, -⟩ := Nat.exists_most_significant_bit hx
  intro hy
  have := h i hi
  rw [hy] at this
  simp at this

/-- C31: decoding a group of type t (high nibble of the high byte of block
B) and version v (bit 3) sets bit t of rds.groupA when v = A and of
rds.groupB when v = B and changes no other bit of either mask; along any
sequence of polls of getRDS both masks keep every bit they have, so a mask
that is not zero stays so, and clearStationInfo sets both to zero.  The
masks are 16-bit words and the replies are made of bytes. -/
theorem group_masks_gain_bits (s : Si4735) (r : Response) (polls : List (List Response))
    (hA : s.rds.groupA < 65536) (hB : s.rds.groupB < 65536) (hr : r.Block_B_H < 256)
    (hwf : ∀ replies ∈ polls, ∀ x ∈ replies, x.wf) :
    (groupType r = r.Block_B_H / 16 ∧ groupVersion r = r.Block_B_H.testBit 3) ∧
    (∀ i, (processGroup s r).1.rds.groupA.testBit i =
      (s.rds.groupA.testBit i || (decide (i = groupType r) && !groupVersion r))) ∧
    (∀ i, (processGroup s r).1.rds.groupB.testBit i =
      (s.rds.groupB.testBit i || (decide (i = groupType r) && groupVersion r))) ∧
    (∀ i, s.rds.groupA.testBit i = true →
      (polls.foldl (fun st replies => (getRDS st replies).1) s).rds.groupA.testBit i = true) ∧
    (∀ i, s.rds.groupB.testBit i = true →
      (polls.foldl (fun st replies => (getRDS st replies).1) s).rds.groupB.testBit i = true) ∧
    (s.rds.groupA ≠ 0 →
      (polls.foldl (fun st replies => (getRDS st replies).1) s).rds.groupA ≠ 0) ∧
    (s.rds.groupB ≠ 0 →
      (polls.foldl (fun st replies => (getRDS st replies).1) s).rds.groupB ≠ 0) ∧
    (clearStationInfo s).rds.groupA = 0 ∧ (clearStationInfo s).rds.groupB = 0 := by
  obtain ⟨-, hbA, hbB⟩ := processGroup_mask_bits s r hA hB hr
  obtain ⟨hmA, hmB⟩ := foldl_getRDS_masks polls s hA hB hwf
  have hver : groupVersion r = r.Block_B_H.testBit 3 := and_pow_ne_zero r.Block_B_H 3
  exact ⟨⟨(groupType_lt r hr).1, hver⟩, hbA, hbB, hmA, hmB,
    ne_zero_of_bits _ _ hmA, ne_zero_of_bits _ _ hmB, rfl, rfl⟩

/-- Witness for C31: after a reset, a group 4A sets bit 4 of groupA; a poll
with a group 15B then sets bit 15 of groupB and keeps bit 4 of groupA. -/
theorem group_masks_gain_bits_witness :
    (processGroup (clearStationInfo station0) sampleClockReply).1.rds.groupA = 0x0010 ∧
    (processGroup (clearStationInfo station0) sampleClockReply).1.rds.groupA.testBit 4 = true ∧
    ((getRDS (processGroup (clearStationInfo station0) sampleClockReply).1
      [fastBasicReply 0 65 66]).1.rds.groupA.testBit 4 = true) ∧
    ((getRDS (processGroup (clearStationInfo station0) sampleClockReply).1
      [fastBasicReply 0 65 66]).1.rds.groupB = 0x8000) :=
  ⟨by decide, by decide,
   (group_masks_gain_bits (processGroup (clearStationInfo station0) sampleClockReply).1
      sampleClockReply [[fastBasicReply 0 65 66]] (by decide) (by decide) (by decide)
      (by decide)).2.2.2.1 4 (by decide),
   by decide⟩

end Si4735

/-! ## Groups without further action -/

namespace Si4735

/-- Group 1A of a variant other than 0 and 3 does nothing. -/
theorem group1A_other_variant (s : Si4735) (r : Response)
    (h0 : r.Block_C_H &&& 0b01110000 ≠ 0 <<< 4) (h3 : r.Block_C_H &&& 0b01110000 ≠ 3 <<< 4) :
    group1A s r = (s, false) := by
  unfold group1A
  dsimp only
  rw [if_neg h0, if_neg h3]

/-- C32: for every group whose (type, version) is none of (0,A), (0,B),
(15,B), (1,A), (2,A), (2,B), (4,A), (10,A), and for every type-1 version-A
group whose variant is neither 0 nor 3, decoding the group does not mark new
information and changes no field of the record other than programId,
programType, trafficProgram and the masks groupA and groupB: every other
field of the station record, both A/B trackers and both confidence counters
keep their values (RDSSignal is written by the loop of getRDS before the
group is decoded, not by the decoding). -/
theorem other_group_frame (s : Si4735) (r : Response)
    (h : (groupType r ≠ 0 ∧ ¬ (groupType r = 15 ∧ groupVersion r = true) ∧
        ¬ (groupType r = 1 ∧ groupVersion r = false) ∧ groupType r ≠ 2 ∧
        ¬ (groupType r = 4 ∧ groupVersion r = false) ∧
        ¬ (groupType r = 10 ∧ groupVersion r = false)) ∨
      (groupType r = 1 ∧ groupVersion r = false ∧ r.Block_C_H &&& 0b01110000 ≠ 0 <<< 4 ∧
        r.Block_C_H &&& 0b01110000 ≠ 3 <<< 4)) :
    (processGroup s r).2 = false ∧
    ((processGroup s r).1.rds.RDSSignal = s.rds.RDSSignal ∧
      (processGroup s r).1.rds.RBDS = s.rds.RBDS ∧
      (processGroup s r).1.rds.extendedCountryCode = s.rds.extendedCountryCode ∧
      (processGroup s r).1.rds.language = s.rds.language) ∧
    ((processGroup s r).1.rds.trafficAlert = s.rds.trafficAlert ∧
      (processGroup s r).1.rds.music = s.rds.music ∧
      (processGroup s r).1.rds.dynamicPTY = s.rds.dynamicPTY ∧
      (processGroup s r).1.rds.compressedAudio = s.rds.compressedAudio ∧
      (processGroup s r).1.rds.binauralAudio = s.rds.binauralAudio ∧
      (processGroup s r).1.rds.RDSStereo = s.rds.RDSStereo) ∧
    ((processGroup s r).1.rds.programService = s.rds.programService ∧
      (processGroup s r).1.rds.radioTextLen = s.rds.radioTextLen ∧
      (processGroup s r).1.rds.radioText = s.rds.radioText ∧
      (processGroup s r).1.rds.programTypeName = s.rds.programTypeName) ∧
    ((processGroup s r).1.rds.MJD = s.rds.MJD ∧ (processGroup s r).1.rds.hour = s.rds.hour ∧
      (processGroup s r).1.rds.minute = s.rds.minute ∧
      (processGroup s r).1.rds.offset = s.rds.offset) ∧
    ((processGroup s r).1._mode = s._mode ∧ (processGroup s r).1._locale = s._locale ∧
      (processGroup s r).1._interrupts = s._interrupts) ∧
    ((processGroup s r).1._abRadioText = s._abRadioText ∧
      (processGroup s r).1._abProgramTypeName = s._abProgramTypeName ∧
      (processGroup s r).1._extendedCountryCode_count = s._extendedCountryCode_count ∧
      (processGroup s r).1._language_count = s._language_count) := by
  rcases h with ⟨h0, h15, h1, h2, h4, h10⟩ | ⟨ht, hv, hv0, hv3⟩
  · have hc : ¬ (groupType r = 0 ∨ (groupType r = 15 ∧ groupVersion r = true)) := by
      rintro (h | h)
      · exact h0 h
      · exact h15 h
    simp only [processGroup]
    rw [if_neg hc, if_neg h1, if_neg h2, if_neg h4, if_neg h10]
    refine ⟨rfl, ⟨?_, ?_, ?_, ?_⟩, ⟨?_, ?_, ?_, ?_, ?_, ?_⟩, ⟨?_, ?_, ?_, ?_⟩, ⟨?_, ?_, ?_, ?_⟩,
      ⟨?_, ?_, ?_⟩, ⟨?_, ?_, ?_, ?_⟩⟩ <;> (split_ifs <;> rfl)
  · have hc : ¬ (groupType r = 0 ∨ (groupType r = 15 ∧ groupVersion r = true)) := by
      rw [ht, hv]; decide
    simp only [processGroup]
    rw [if_neg hc, if_pos ⟨ht, hv⟩, group1A_other_variant _ _ hv0 hv3]
    refine ⟨rfl, ⟨?_, ?_, ?_, ?_⟩, ⟨?_, ?_, ?_, ?_, ?_, ?_⟩, ⟨?_, ?_, ?_, ?_⟩, ⟨?_, ?_, ?_, ?_⟩,
      ⟨?_, ?_, ?_⟩, ⟨?_, ?_, ?_, ?_⟩⟩ <;> (split_ifs <;> rfl)

/-- Witness for C32: a group 5A, and a group 1A of variant 1, on a record
that holds a date and time and a trusted country code. -/
theorem other_group_frame_witness :
    (processGroup (processGroups (stationUS 0x54A8) [sampleClockReply]) otherGroupReply).2 =
      false ∧
    (processGroup (processGroups (stationUS 0x54A8) [sampleClockReply])
      otherGroupReply).1.rds.MJD = 60000 ∧
    (processGroup (stationUS 0x54A8)
      { eccReply 0xE0 with Block_C_H := 0x10 }).1.rds.extendedCountryCode = 0xA0 :=
  ⟨(other_group_frame (processGroups (stationUS 0x54A8) [sampleClockReply]) otherGroupReply
      (Or.inl (by decide))).1,
   ((other_group_frame (processGroups (stationUS 0x54A8) [sampleClockReply]) otherGroupReply
      (Or.inl (by decide))).2.2.2.2.1.1).trans (by decide),
   ((other_group_frame (stationUS 0x54A8) { eccReply 0xE0 with Block_C_H := 0x10 }
      (Or.inr (by decide))).2.1.2.2.1).trans (by decide)⟩

end Si4735

/-! ## Basic tuning and switching information -/

namespace Si4735

/-- A group of type 0, or of type 15 and version B, goes to the branch of
the basic tuning information, from a record with the flags and the station
name of the one before the group. -/
theorem processGroup_basic (s : Si4735) (r : Response)
    (h : groupType r = 0 ∨ (groupType r = 15 ∧ groupVersion r = true)) :
    ∃ s3 : Si4735, processGroup s r = (group0 s3 r (groupType r), true) ∧
      s3.rds.dynamicPTY = s.rds.dynamicPTY ∧ s3.rds.compressedAudio = s.rds.compressedAudio ∧
      s3.rds.binauralAudio = s.rds.binauralAudio ∧ s3.rds.RDSStereo = s.rds.RDSStereo ∧
      s3.rds.programService = s.rds.programService := by
  simp only [processGroup]
  rw [if_pos h]
  refine ⟨_, rfl, ?_, ?_, ?_, ?_, ?_⟩ <;> (split_ifs <;> rfl)

/-- The segment index of a group 0 or 15B, stored in a `byte`. -/
theorem u8_basicSegment (r : Response) :
    u8 ((r.Block_B_L &&& 0b00000011 : Nat)) = r.Block_B_L &&& 3 ∧ r.Block_B_L &&& 3 ≤ 3 := by
  have h : r.Block_B_L &&& 3 ≤ 3 := Nat.and_le_right
  refine ⟨?_, h⟩
  rw [u8_ofNat]
  show (r.Block_B_L &&& 3) % 256 = _
  omega

/-- The flags written by the branch of the basic tuning information. -/
theorem group0_flags (s : Si4735) (r : Response) (type : Nat) :
    (group0 s r type).rds.trafficAlert = ofBool (r.Block_B_L &&& 0b00010000 != 0) ∧
    (group0 s r type).rds.music = ofBool (r.Block_B_L &&& 0b00001000 != 0) ∧
    (r.Block_B_L &&& 3 = 0 →
      (group0 s r type).rds.dynamicPTY = ofBool (r.Block_B_L &&& 0b00000100 != 0) ∧
      (group0 s r type).rds.compressedAudio = s.rds.compressedAudio ∧
      (group0 s r type).rds.binauralAudio = s.rds.binauralAudio ∧
      (group0 s r type).rds.RDSStereo = s.rds.RDSStereo) ∧
    (r.Block_B_L &&& 3 = 1 →
      (group0 s r type).rds.dynamicPTY = s.rds.dynamicPTY ∧
      (group0 s r type).rds.compressedAudio = ofBool (r.Block_B_L &&& 0b00000100 != 0) ∧
      (group0 s r type).rds.binauralAudio = s.rds.binauralAudio ∧
      (group0 s r type).rds.RDSStereo = s.rds.RDSStereo) ∧
    (r.Block_B_L &&& 3 = 2 →
      (group0 s r type).rds.dynamicPTY = s.rds.dynamicPTY ∧
      (group0 s r type).rds.compressedAudio = s.rds.compressedAudio ∧
      (group0 s r type).rds.binauralAudio = ofBool (r.Block_B_L &&& 0b00000100 != 0) ∧
      (group0 s r type).rds.RDSStereo = s.rds.RDSStereo) ∧
    (r.Block_B_L &&& 3 = 3 →
      (group0 s r type).rds.dynamicPTY = s.rds.dynamicPTY ∧
      (group0 s r type).rds.compressedAudio = s.rds.compressedAudio ∧
      (group0 s r type).rds.binauralAudio = s.rds.binauralAudio ∧
      (group0 s r type).rds.RDSStereo = ofBool (r.Block_B_L &&& 0b00000100 != 0)) := by
  have hu := (u8_basicSegment r).1
  refine ⟨?_, ?_, ?_, ?_, ?_, ?_⟩
  · simp only [group0]
    split_ifs <;> (split <;> rfl)
  · simp only [group0]
    split_ifs <;> (split <;> rfl)
  all_goals
    intro hk
    unfold group0
    dsimp only
    rw [hu.trans hk]
    refine ⟨?_, ?_, ?_, ?_⟩ <;> (split_ifs <;> rfl)

/-- The station name written by the branch of the basic tuning information:
two characters at `segment*2` for type 0, nothing for type 15. -/
theorem group0_programService (s : Si4735) (r : Response) (type : Nat) :
    (group0 s r type).rds.programService =
      if type = 0 then
        (s.rds.programService.set ((r.Block_B_L &&& 3) * 2) (make_printable r.Block_D_H)).set
          ((r.Block_B_L &&& 3) * 2 + 1) (make_printable r.Block_D_L)
      else s.rds.programService := by
  have hu := (u8_basicSegment r).1
  have hle := (u8_basicSegment r).2
  have hk : r.Block_B_L &&& 3 = 0 ∨ r.Block_B_L &&& 3 = 1 ∨ r.Block_B_L &&& 3 = 2 ∨
      r.Block_B_L &&& 3 = 3 := by omega
  rcases hk with hk | hk | hk | hk <;>
  · unfold group0
    dsimp only
    rw [hu.trans hk, hk]
    split_ifs <;> rfl

/-- C33: for every type-0 group (either version) and every type-15 version-B
group, with segment index B_low & 3 and decoder-identification bit DI = bit 2
of B_low: trafficAlert becomes bit 4 of B_low, music becomes bit 3 of B_low,
and exactly one of the four flags is assigned DI, dynamicPTY for segment 0,
compressedAudio for segment 1, binauralAudio for segment 2, RDSStereo for
segment 3, while the other three keep their previous values. -/
theorem basic_flags (s : Si4735) (r : Response)
    (h : groupType r = 0 ∨ (groupType r = 15 ∧ groupVersion r = true)) :
    (processGroup s r).1.rds.trafficAlert = ofBool (r.Block_B_L.testBit 4) ∧
    (processGroup s r).1.rds.music = ofBool (r.Block_B_L.testBit 3) ∧
    r.Block_B_L &&& 3 ≤ 3 ∧
    (r.Block_B_L &&& 3 = 0 →
      (processGroup s r).1.rds.dynamicPTY = ofBool (r.Block_B_L.testBit 2) ∧
      (processGroup s r).1.rds.compressedAudio = s.rds.compressedAudio ∧
      (processGroup s r).1.rds.binauralAudio = s.rds.binauralAudio ∧
      (processGroup s r).1.rds.RDSStereo = s.rds.RDSStereo) ∧
    (r.Block_B_L &&& 3 = 1 →
      (processGroup s r).1.rds.dynamicPTY = s.rds.dynamicPTY ∧
      (processGroup s r).1.rds.compressedAudio = ofBool (r.Block_B_L.testBit 2) ∧
      (processGroup s r).1.rds.binauralAudio = s.rds.binauralAudio ∧
      (processGroup s r).1.rds.RDSStereo = s.rds.RDSStereo) ∧
    (r.Block_B_L &&& 3 = 2 →
      (processGroup s r).1.rds.dynamicPTY = s.rds.dynamicPTY ∧
      (processGroup s r).1.rds.compressedAudio = s.rds.compressedAudio ∧
      (processGroup s r).1.rds.binauralAudio = ofBool (r.Block_B_L.testBit 2) ∧
      (processGroup s r).1.rds.RDSStereo = s.rds.RDSStereo) ∧
    (r.Block_B_L &&& 3 = 3 →
      (processGroup s r).1.rds.dynamicPTY = s.rds.dynamicPTY ∧
      (processGroup s r).1.rds.compressedAudio = s.rds.compressedAudio ∧
      (processGroup s r).1.rds.binauralAudio = s.rds.binauralAudio ∧
      (processGroup s r).1.rds.RDSStereo = ofBool (r.Block_B_L.testBit 2)) := by
  obtain ⟨s3, h3, hd, hc, hb, hs, -⟩ := processGroup_basic s r h
  obtain ⟨hTA, hM, h0, h1, h2, h3'⟩ := group0_flags s3 r (groupType r)
  have e4 : (r.Block_B_L &&& 0b00010000 != 0) = r.Block_B_L.testBit 4 :=
    and_pow_ne_zero r.Block_B_L 4
  have e3 : (r.Block_B_L &&& 0b00001000 != 0) = r.Block_B_L.testBit 3 :=
    and_pow_ne_zero r.Block_B_L 3
  have e2 : (r.Block_B_L &&& 0b00000100 != 0) = r.Block_B_L.testBit 2 :=
    and_pow_ne_zero r.Block_B_L 2
  rw [e4] at hTA
  rw [e3] at hM
  rw [e2, hc, hb, hs] at h0
  rw [e2, hd, hb, hs] at h1
  rw [e2, hd, hc, hs] at h2
  rw [e2, hd, hc, hb] at h3'
  rw [h3]
  exact ⟨hTA, hM, (u8_basicSegment r).2, h0, h1, h2, h3'⟩

/-- Witness for C33: after a reset, a group 0A with B_low = 0b00011101
(traffic alert, music, DI set, segment 1) sets compressedAudio and leaves the
other three flags unknown. -/
theorem basic_flags_witness :
    (processGroup (clearStationInfo station0) (basicReply 0b00011101 65 66)).1.rds.trafficAlert
      = 1 ∧
    (processGroup (clearStationInfo station0) (basicReply 0b00011101 65 66)).1.rds.music = 1 ∧
    (processGroup (clearStationInfo station0)
      (basicReply 0b00011101 65 66)).1.rds.compressedAudio = 1 ∧
    (processGroup (clearStationInfo station0)
      (basicReply 0b00011101 65 66)).1.rds.dynamicPTY = unknown ∧
    (processGroup (clearStationInfo station0)
      (fastBasicReply 0b00000011 65 66)).1.rds.RDSStereo = 0 :=
  ⟨(basic_flags (clearStationInfo station0) (basicReply 0b00011101 65 66)
      (Or.inl (by decide))).1.trans (by decide),
   (basic_flags (clearStationInfo station0) (basicReply 0b00011101 65 66)
      (Or.inl (by decide))).2.1.trans (by decide),
   ((basic_flags (clearStationInfo station0) (basicReply 0b00011101 65 66)
      (Or.inl (by decide))).2.2.2.2.1 (by decide)).2.1.trans (by decide),
   ((basic_flags (clearStationInfo station0) (basicReply 0b00011101 65 66)
      (Or.inl (by decide))).2.2.2.2.1 (by decide)).1.trans (by decide),
   ((basic_flags (clearStationInfo station0) (fastBasicReply 0b00000011 65 66)
      (Or.inr (by decide))).2.2.2.2.2.2 (by decide)).2.2.2.trans (by decide)⟩

/-! ## The station name -/

/-- A decoded group of type 0 on the station name. -/
theorem processGroup_storeName (s : Si4735) (r : Response) (ht : groupType r = 0) :
    (processGroup s r).1.rds.programService = storeName s.rds.programService r := by
  obtain ⟨s3, h3, -, -, -, -, hps⟩ := processGroup_basic s r (Or.inl ht)
  rw [h3, group0_programService, ht, if_pos rfl, hps]
  rfl

/-- A decoded group of type 15 and version B leaves the station name. -/
theorem processGroup_fast_name (s : Si4735) (r : Response) (ht : groupType r = 15)
    (hv : groupVersion r = true) :
    (processGroup s r).1.rds.programService = s.rds.programService := by
  obtain ⟨s3, h3, -, -, -, -, hps⟩ := processGroup_basic s r (Or.inr ⟨ht, hv⟩)
  rw [h3, group0_programService, ht, if_neg (by decide), hps]

/-- A sequence of groups of type 0 on the station name. -/
theorem processGroups_storeName (gs : List Response) :
    ∀ s : Si4735, (∀ g ∈ gs, groupType g = 0) →
      (processGroups s gs).rds.programService = gs.foldl storeName s.rds.programService := by
  induction gs with
  | nil => intro s _; rfl
  | cons g rest ih =>
    intro s h
    have hrec := ih (processGroup s g).1 (fun x hx => h x (List.mem_cons_of_mem _ hx))
    simp only [processGroups, List.foldl_cons] at hrec ⊢
    rw [hrec, processGroup_storeName s g (h g (List.mem_cons_self _ _))]

/-- The stores of two groups with different segments do not meet. -/
theorem storeName_comm (z : List Nat) (x y : Response)
    (h : x.Block_B_L &&& 3 ≠ y.Block_B_L &&& 3) :
    storeName (storeName z x) y = storeName (storeName z y) x := by
  have hab : (x.Block_B_L &&& 3) * 2 ≠ (y.Block_B_L &&& 3) * 2 := by omega
  have ha1b : (x.Block_B_L &&& 3) * 2 + 1 ≠ (y.Block_B_L &&& 3) * 2 := by omega
  have ha1b1 : (x.Block_B_L &&& 3) * 2 + 1 ≠ (y.Block_B_L &&& 3) * 2 + 1 := by omega
  have hab1 : (x.Block_B_L &&& 3) * 2 ≠ (y.Block_B_L &&& 3) * 2 + 1 := by omega
  unfold storeName
  rw [List.set_comm (make_printable x.Block_D_L) (make_printable y.Block_D_H)
      (z.set ((x.Block_B_L &&& 3) * 2) (make_printable x.Block_D_H)) ha1b,
    List.set_comm (make_printable x.Block_D_H) (make_printable y.Block_D_H) z hab,
    List.set_comm (make_printable x.Block_D_L) (make_printable y.Block_D_L)
      ((z.set ((y.Block_B_L &&& 3) * 2) (make_printable y.Block_D_H)).set
        ((x.Block_B_L &&& 3) * 2) (make_printable x.Block_D_H)) ha1b1,
    List.set_comm (make_printable x.Block_D_H) (make_printable y.Block_D_L)
      (z.set ((y.Block_B_L &&& 3) * 2) (make_printable y.Block_D_H)) hab1]

end Si4735

/-- A list of nine elements. -/
theorem list_of_length_nine {α : Type} (l : List α) (h : l.length = 9) :
    ∃ a0 a1 a2 a3 a4 a5 a6 a7 a8, l = [a0, a1, a2, a3, a4, a5, a6, a7, a8] := by
  match l, h with
  | [a0, a1, a2, a3, a4, a5, a6, a7, a8], _ => exact ⟨a0, a1, a2, a3, a4, a5, a6, a7, a8, rfl⟩

namespace Si4735

/-- The stores of the four segments in their order, on a name of nine
characters. -/
theorem storeName_four (ps : List Nat) (g0 g1 g2 g3 : Response) (hlen : ps.length = 9)
    (h0 : g0.Block_B_L &&& 3 = 0) (h1 : g1.Block_B_L &&& 3 = 1)
    (h2 : g2.Block_B_L &&& 3 = 2) (h3 : g3.Block_B_L &&& 3 = 3) :
    [g0, g1, g2, g3].foldl storeName ps =
      [make_printable g0.Block_D_H, make_printable g0.Block_D_L,
        make_printable g1.Block_D_H, make_printable g1.Block_D_L,
        make_printable g2.Block_D_H, make_printable g2.Block_D_L,
        make_printable g3.Block_D_H, make_printable g3.Block_D_L] ++ ps.drop 8 := by
  obtain ⟨a0, a1, a2, a3, a4, a5, a6, a7, a8, rfl⟩ := list_of_length_nine ps hlen
  simp only [List.foldl_cons, List.foldl_nil, storeName, h0, h1, h2, h3]
  rfl

/-- The stores of a type-0 group into the station name, each character as
`make_printable` returns it, and the name after one group for each segment. -/
theorem programService_segment_stores (s : Si4735) (r : Response)
    (hlen : s.rds.programService.length = 9) :
    (groupType r = 0 →
      (processGroup s r).1.rds.programService[(r.Block_B_L &&& 3) * 2]? =
        some (make_printable r.Block_D_H) ∧
      (processGroup s r).1.rds.programService[(r.Block_B_L &&& 3) * 2 + 1]? =
        some (make_printable r.Block_D_L) ∧
      (∀ i, i ≠ (r.Block_B_L &&& 3) * 2 → i ≠ (r.Block_B_L &&& 3) * 2 + 1 →
        (processGroup s r).1.rds.programService[i]? = s.rds.programService[i]?) ∧
      (processGroup s r).1.rds.programService.length = 9) ∧
    (groupType r = 15 → groupVersion r = true →
      (processGroup s r).1.rds.programService = s.rds.programService) ∧
    (∀ (gs : List Response) (g0 g1 g2 g3 : Response), gs.Perm [g0, g1, g2, g3] →
      (groupType g0 = 0 ∧ groupType g1 = 0 ∧ groupType g2 = 0 ∧ groupType g3 = 0) →
      (g0.Block_B_L &&& 3 = 0 ∧ g1.Block_B_L &&& 3 = 1 ∧ g2.Block_B_L &&& 3 = 2 ∧
        g3.Block_B_L &&& 3 = 3) →
      (processGroups s gs).rds.programService =
        [make_printable g0.Block_D_H, make_printable g0.Block_D_L,
          make_printable g1.Block_D_H, make_printable g1.Block_D_L,
          make_printable g2.Block_D_H, make_printable g2.Block_D_L,
          make_printable g3.Block_D_H, make_printable g3.Block_D_L] ++
          s.rds.programService.drop 8) := by
  refine ⟨?_, ?_, ?_⟩
  · intro ht
    have hseg : r.Block_B_L &&& 3 ≤ 3 := Nat.and_le_right
    rw [processGroup_storeName s r ht]
    unfold storeName
    refine ⟨?_, ?_, ?_, ?_⟩
    · rw [List.getElem?_set_ne (by omega), List.getElem?_set_self (by omega)]
    · rw [List.getElem?_set_self (by rw [List.length_set]; omega)]
    · intro i h1 h2
      rw [List.getElem?_set_ne (fun e => h2 e.symm), List.getElem?_set_ne (fun e => h1 e.symm)]
    · rw [List.length_set, List.length_set, hlen]
  · intro ht hv
    exact processGroup_fast_name s r ht hv
  · intro gs g0 g1 g2 g3 hperm ⟨t0, t1, t2, t3⟩ ⟨h0, h1, h2, h3⟩
    have hmem : ∀ g ∈ gs, g = g0 ∨ g = g1 ∨ g = g2 ∨ g = g3 := by
      intro g hg
      have := (hperm.mem_iff).mp hg
      simpa using this
    have htype : ∀ g ∈ gs, groupType g = 0 := by
      intro g hg
      rcases hmem g hg with rfl | rfl | rfl | rfl <;> assumption
    rw [processGroups_storeName gs s htype, ← storeName_four _ g0 g1 g2 g3 hlen h0 h1 h2 h3]
    apply List.Perm.foldl_eq' hperm
    intro x hx y hy z
    by_cases hxy : x.Block_B_L &&& 3 = y.Block_B_L &&& 3
    · have hsame : x = y := by
        rcases hmem x hx with rfl | rfl | rfl | rfl <;>
          rcases hmem y hy with rfl | rfl | rfl | rfl <;>
          first | rfl | (exfalso; omega)
      rw [hsame]
    · exact storeName_comm z x y hxy

/-- C34: for every type-0 group with segment index s = B_low & 3,
rds.programService[2s] and [2s+1] become the printable-filtered high and low
bytes of block D (a byte in 32..126 is kept, any other byte is stored as a
space), and every other position, the terminator among them, keeps its
value; a type-15 version-B group leaves rds.programService unchanged.  After
one type-0 group for each segment 0..3, decoded in any order, programService
is the concatenation of the four filtered character pairs, followed by the
terminator it had.  The buffer is taken of its declared length 9. -/
theorem programService_segment (s : Si4735) (r : Response)
    (hlen : s.rds.programService.length = 9) :
    (groupType r = 0 →
      (processGroup s r).1.rds.programService[(r.Block_B_L &&& 3) * 2]? =
        some (printableOrSpace r.Block_D_H) ∧
      (processGroup s r).1.rds.programService[(r.Block_B_L &&& 3) * 2 + 1]? =
        some (printableOrSpace r.Block_D_L) ∧
      (∀ i, i ≠ (r.Block_B_L &&& 3) * 2 → i ≠ (r.Block_B_L &&& 3) * 2 + 1 →
        (processGroup s r).1.rds.programService[i]? = s.rds.programService[i]?) ∧
      (processGroup s r).1.rds.programService.length = 9) ∧
    (groupType r = 15 → groupVersion r = true →
      (processGroup s r).1.rds.programService = s.rds.programService) ∧
    (∀ (gs : List Response) (g0 g1 g2 g3 : Response), gs.Perm [g0, g1, g2, g3] →
      (groupType g0 = 0 ∧ groupType g1 = 0 ∧ groupType g2 = 0 ∧ groupType g3 = 0) →
      (g0.Block_B_L &&& 3 = 0 ∧ g1.Block_B_L &&& 3 = 1 ∧ g2.Block_B_L &&& 3 = 2 ∧
        g3.Block_B_L &&& 3 = 3) →
      (processGroups s gs).rds.programService =
        [printableOrSpace g0.Block_D_H, printableOrSpace g0.Block_D_L,
          printableOrSpace g1.Block_D_H, printableOrSpace g1.Block_D_L,
          printableOrSpace g2.Block_D_H, printableOrSpace g2.Block_D_L,
          printableOrSpace g3.Block_D_H, printableOrSpace g3.Block_D_L] ++
          s.rds.programService.drop 8) := by
  have h := programService_segment_stores s r hlen
  simp only [make_printable_eq] at h
  exact h

/-- Witness for C34: the four segments of the name "RADIO 1" followed by
the byte 200, which is not printable and is stored as a space, received in
the order 2, 0, 3, 1; a segment made of the control codes 7 and 127, stored
as two spaces; and a group 15B that carries other characters. -/
theorem programService_segment_witness :
    (processGroups (clearStationInfo station0)
      [basicReply 2 79 32, basicReply 0 82 65, basicReply 3 49 200,
        basicReply 1 68 73]).rds.programService =
      ['R', 'A', 'D', 'I', 'O', ' ', '1', ' '].map Char.toNat ++ [0] ∧
    (processGroup (processGroups (clearStationInfo station0) [basicReply 0 82 65])
      (basicReply 0 7 127)).1.rds.programService[0]? = some 32 ∧
    (processGroup (processGroups (clearStationInfo station0) [basicReply 0 82 65])
      (basicReply 0 7 127)).1.rds.programService[1]? = some 32 ∧
    (processGroup (processGroups (clearStationInfo station0) [basicReply 2 79 32])
      (fastBasicReply 1 88 89)).1.rds.programService =
      (processGroups (clearStationInfo station0) [basicReply 2 79 32]).rds.programService :=
  ⟨((programService_segment (clearStationInfo station0) (basicReply 0 82 65)
      (by decide)).2.2
      [basicReply 2 79 32, basicReply 0 82 65, basicReply 3 49 200, basicReply 1 68 73]
      (basicReply 0 82 65) (basicReply 1 68 73) (basicReply 2 79 32) (basicReply 3 49 200)
      (by decide) (by decide) (by decide)).trans (by decide),
   ((programService_segment (processGroups (clearStationInfo station0) [basicReply 0 82 65])
      (basicReply 0 7 127) (by decide)).1 (by decide)).1.trans (by decide),
   ((programService_segment (processGroups (clearStationInfo station0) [basicReply 0 82 65])
      (basicReply 0 7 127) (by decide)).1 (by decide)).2.1.trans (by decide),
   (programService_segment (processGroups (clearStationInfo station0) [basicReply 2 79 32])
      (fastBasicReply 1 88 89) (by decide)).2.1 (by decide) (by decide)⟩

end Si4735

/-! ## Program type name -/

namespace Si4735

/-- A type-10 version-A group goes to the branch of the program type name,
from a record with the name, its A/B flag and the radio text of the one
before the group. -/
theorem processGroup_type10A (s : Si4735) (r : Response) (ht : groupType r = 10)
    (hv : groupVersion r = false) :
    ∃ s3 : Si4735, processGroup s r = (group10A s3 r, true) ∧
      s3.rds.programTypeName = s.rds.programTypeName ∧
      s3._abProgramTypeName = s._abProgramTypeName ∧
      s3.rds.radioText = s.rds.radioText ∧ s3.rds.radioTextLen = s.rds.radioTextLen := by
  simp only [processGroup, ht, hv]
  simp only [Nat.reduceEqDiff, false_and, or_self, if_false, and_self, if_true,
    Bool.false_eq_true]
  refine ⟨_, rfl, ?_, ?_, ?_, ?_⟩ <;> (split_ifs <;> rfl)

/-- The segment index of a group 10A, stored in a `byte`. -/
theorem u8_nameSegment (r : Response) :
    u8 ((r.Block_B_L &&& 0x01 : Nat)) = r.Block_B_L &&& 1 ∧ r.Block_B_L &&& 1 ≤ 1 := by
  have h : r.Block_B_L &&& 1 ≤ 1 := Nat.and_le_right
  refine ⟨?_, h⟩
  rw [u8_ofNat]
  show (r.Block_B_L &&& 1) % 256 = _
  omega

/-- The branch of the program type name: the A/B flag stored, the four
characters written on the blanked or the previous name, the radio text left
alone. -/
theorem group10A_eq (s : Si4735) (r : Response) :
    (group10A s r)._abProgramTypeName = abFlag r ∧
    (group10A s r).rds.programTypeName =
      ((((if abFlag r ≠ s._abProgramTypeName then
            (List.range (9 - 1)).foldl (fun t i => t.set i ' '.toNat) s.rds.programTypeName
          else s.rds.programTypeName).set
        ((r.Block_B_L &&& 1) * 4) (make_printable r.Block_C_H)).set
        ((r.Block_B_L &&& 1) * 4 + 1) (make_printable r.Block_C_L)).set
        ((r.Block_B_L &&& 1) * 4 + 2) (make_printable r.Block_D_H)).set
        ((r.Block_B_L &&& 1) * 4 + 3) (make_printable r.Block_D_L) ∧
    (group10A s r).rds.radioText = s.rds.radioText ∧
    (group10A s r).rds.radioTextLen = s.rds.radioTextLen := by
  have hu := (u8_nameSegment r).1
  unfold group10A abFlag
  dsimp only
  rw [hu]
  by_cases h : ofBool (r.Block_B_L &&& 0b00010000 != 0) ≠ s._abProgramTypeName
  · rw [if_pos h, if_pos h]
    refine ⟨?_, ?_, ?_, ?_⟩ <;> rfl
  · rw [if_neg h, if_neg h]
    refine ⟨(not_not.mp h).symm, ?_, ?_, ?_⟩ <;> rfl

/-- The stores of a type-10 version-A group into the program type name,
each character as `make_printable` returns it. -/
theorem programTypeName_segment_stores (s : Si4735) (r : Response) (ht : groupType r = 10)
    (hv : groupVersion r = false) (hlen : s.rds.programTypeName.length = 9) :
    (processGroup s r).1._abProgramTypeName = abFlag r ∧
    (processGroup s r).1.rds.programTypeName.take 8 =
      ((((if abFlag r ≠ s._abProgramTypeName then List.replicate 8 ' '.toNat
          else s.rds.programTypeName.take 8).set
        (4 * (r.Block_B_L &&& 1)) (make_printable r.Block_C_H)).set
        (4 * (r.Block_B_L &&& 1) + 1) (make_printable r.Block_C_L)).set
        (4 * (r.Block_B_L &&& 1) + 2) (make_printable r.Block_D_H)).set
        (4 * (r.Block_B_L &&& 1) + 3) (make_printable r.Block_D_L) ∧
    (processGroup s r).1.rds.programTypeName[8]? = s.rds.programTypeName[8]? ∧
    (processGroup s r).1.rds.programTypeName.length = 9 ∧
    (processGroup s r).1.rds.radioText = s.rds.radioText ∧
    (processGroup s r).1.rds.radioTextLen = s.rds.radioTextLen := by
  obtain ⟨s3, h3, hn, ha, ht3, hl3⟩ := processGroup_type10A s r ht hv
  obtain ⟨hab, hname, hrt, hrl⟩ := group10A_eq s3 r
  have hseg : r.Block_B_L &&& 1 ≤ 1 := Nat.and_le_right
  have hblank : (List.range (9 - 1)).foldl (fun t i => t.set i ' '.toNat)
      s.rds.programTypeName = List.replicate 8 ' '.toNat ++ s.rds.programTypeName.drop 8 :=
    foldl_set_range ' '.toNat 8 s.rds.programTypeName (by omega)
  rw [h3]
  rw [hn, ha] at hname
  refine ⟨hab, ?_, ?_, ?_, hrt.trans ht3, hrl.trans hl3⟩
  · rw [show (group10A s3 r, true).1.rds.programTypeName = _ from hname, List.set_take,
      List.set_take, List.set_take, List.set_take, Nat.mul_comm 4]
    by_cases hf : abFlag r ≠ s._abProgramTypeName
    · rw [if_pos hf, if_pos hf, hblank, List.take_left' (by simp)]
    · rw [if_neg hf, if_neg hf]
  · rw [show (group10A s3 r, true).1.rds.programTypeName = _ from hname,
      List.getElem?_set_ne (by omega), List.getElem?_set_ne (by omega),
      List.getElem?_set_ne (by omega), List.getElem?_set_ne (by omega)]
    by_cases hf : abFlag r ≠ s._abProgramTypeName
    · rw [if_pos hf, hblank, List.getElem?_append_right (by simp)]
      simp
    · rw [if_neg hf]
  · rw [show (group10A s3 r, true).1.rds.programTypeName = _ from hname, List.length_set,
      List.length_set, List.length_set, List.length_set]
    by_cases hf : abFlag r ≠ s._abProgramTypeName
    · rw [if_pos hf, hblank]
      simp [hlen]
    · rw [if_neg hf, hlen]

/-- C35: for every type-10 version-A group with A/B flag f and segment
s = B_low & 1: with base eight spaces if f differs from the stored
_abProgramTypeName (unknown included) and the previous eight characters of
rds.programTypeName otherwise, the eight characters afterwards are base with
positions 4s..4s+3 replaced by the printable-filtered bytes C-high, C-low,
D-high, D-low (a byte in 32..126 is kept, any other byte is stored as a
space); the terminator keeps its value, _abProgramTypeName is f, and
rds.radioText and rds.radioTextLen are unchanged.  The buffer is taken of its
declared length 9. -/
theorem programTypeName_segment (s : Si4735) (r : Response) (ht : groupType r = 10)
    (hv : groupVersion r = false) (hlen : s.rds.programTypeName.length = 9) :
    (processGroup s r).1._abProgramTypeName = abFlag r ∧
    (processGroup s r).1.rds.programTypeName.take 8 =
      ((((if abFlag r ≠ s._abProgramTypeName then List.replicate 8 ' '.toNat
          else s.rds.programTypeName.take 8).set
        (4 * (r.Block_B_L &&& 1)) (printableOrSpace r.Block_C_H)).set
        (4 * (r.Block_B_L &&& 1) + 1) (printableOrSpace r.Block_C_L)).set
        (4 * (r.Block_B_L &&& 1) + 2) (printableOrSpace r.Block_D_H)).set
        (4 * (r.Block_B_L &&& 1) + 3) (printableOrSpace r.Block_D_L) ∧
    (processGroup s r).1.rds.programTypeName[8]? = s.rds.programTypeName[8]? ∧
    (processGroup s r).1.rds.programTypeName.length = 9 ∧
    (processGroup s r).1.rds.radioText = s.rds.radioText ∧
    (processGroup s r).1.rds.radioTextLen = s.rds.radioTextLen := by
  have h := programTypeName_segment_stores s r ht hv hlen
  simp only [make_printable_eq] at h
  exact h

/-- Witness for C35: after a reset, segment 1 with the bytes 'J', 7 (a
control code), 'z', 200 (not ASCII) blanks the name and writes "J z " at
positions 4..7, the two bytes that are not printable stored as spaces;
segment 0 with the same flag then fills the first half with "Cool" and keeps
the second. -/
theorem programTypeName_segment_witness :
    (processGroup (clearStationInfo station0)
      (typeNameReply 1 74 7 122 200)).1.rds.programTypeName.take 8 =
      [' ', ' ', ' ', ' ', 'J', ' ', 'z', ' '].map Char.toNat ∧
    (processGroup (processGroup (clearStationInfo station0) (typeNameReply 1 74 7 122 200)).1
      (typeNameReply 0 67 111 111 108)).1.rds.programTypeName.take 8 =
      ['C', 'o', 'o', 'l', 'J', ' ', 'z', ' '].map Char.toNat :=
  ⟨(programTypeName_segment (clearStationInfo station0) (typeNameReply 1 74 7 122 200)
      (by decide) (by decide) (by decide)).2.1.trans (by decide),
   (programTypeName_segment
      (processGroup (clearStationInfo station0) (typeNameReply 1 74 7 122 200)).1
      (typeNameReply 0 67 111 111 108) (by decide) (by decide) (by decide)).2.1.trans
      (by decide)⟩

end Si4735

/-! ## The character buffers and their terminators -/

/-- Blanking the positions `0 .. n-1` keeps the length. -/
theorem foldl_set_range_length {α : Type} (c : α) (n : Nat) (l : List α) :
    ((List.range n).foldl (fun t i => t.set i c) l).length = l.length := by
  induction n with
  | zero => rfl
  | succ k ih =>
    rw [List.range_succ, List.foldl_append]
    simp only [List.foldl_cons, List.foldl_nil, List.length_set]
    exact ih

/-- Blanking the positions `0 .. n-1` leaves the positions from `n` on. -/
theorem foldl_set_range_ge {α : Type} (c : α) (n : Nat) (l : List α) (j : Nat) (h : n ≤ j) :
    ((List.range n).foldl (fun t i => t.set i c) l)[j]? = l[j]? := by
  induction n with
  | zero => rfl
  | succ k ih =>
    rw [List.range_succ, List.foldl_append]
    simp only [List.foldl_cons, List.foldl_nil]
    rw [List.getElem?_set_ne (by omega), ih (by omega)]

namespace Si4735

/-- The copy loop leaves the positions after the characters copied. -/
theorem copyChars_after (block : List Nat) :
    ∀ (text : List Nat) (len rt j : Nat), rt + block.length ≤ j →
      (copyChars text len rt block).1[j]? = text[j]? := by
  induction block with
  | nil => intro text len rt j _; rfl
  | cons ch rest ih =>
    intro text len rt j hj
    simp only [List.length_cons] at hj
    rw [copyChars, ih _ _ _ j (by omega), List.getElem?_set_ne (by omega)]

/-- The length saved by the copy loop is the one before or the index of a
character copied. -/
theorem copyChars_len_le (block : List Nat) :
    ∀ (text : List Nat) (len rt b : Nat), len ≤ b → rt + block.length ≤ b + 1 →
      (copyChars text len rt block).2 ≤ b := by
  induction block with
  | nil => intro text len rt b h _; exact h
  | cons ch rest ih =>
    intro text len rt b h hb
    simp only [List.length_cons] at hb
    rw [copyChars]
    apply ih _ _ _ b _ (by omega)
    split_ifs
    · rw [u8_ofNat]
      have := Nat.mod_le rt 256
      omega
    · exact h

/-- The dispatch of the loop body on the group type starts from a record
that has the character buffers, the length of the radio text and the A/B
flags of the record before the group. -/
theorem processGroup_dispatch (s : Si4735) (r : Response) :
    ∃ s3 : Si4735,
      processGroup s r =
        (if groupType r = 0 ∨ (groupType r = 15 ∧ groupVersion r = true) then
          (group0 s3 r (groupType r), true)
        else if groupType r = 1 ∧ groupVersion r = false then group1A s3 r
        else if groupType r = 2 then (group2 s3 r (groupVersion r), true)
        else if groupType r = 4 ∧ groupVersion r = false then group4A s3 r
        else if groupType r = 10 ∧ groupVersion r = false then (group10A s3 r, true)
        else (s3, false)) ∧
      s3.rds.programService = s.rds.programService ∧ s3.rds.radioText = s.rds.radioText ∧
      s3.rds.radioTextLen = s.rds.radioTextLen ∧
      s3.rds.programTypeName = s.rds.programTypeName ∧
      s3._abRadioText = s._abRadioText ∧ s3._abProgramTypeName = s._abProgramTypeName := by
  simp only [processGroup]
  refine ⟨_, rfl, ?_, ?_, ?_, ?_, ?_, ?_⟩ <;> (split_ifs <;> rfl)

theorem group0_buffers (s : Si4735) (r : Response) (type : Nat) :
    (group0 s r type).rds.radioText = s.rds.radioText ∧
    (group0 s r type).rds.radioTextLen = s.rds.radioTextLen ∧
    (group0 s r type).rds.programTypeName = s.rds.programTypeName := by
  simp only [group0]
  refine ⟨?_, ?_, ?_⟩ <;> (split_ifs <;> (split <;> rfl))

theorem group1A_buffers (s : Si4735) (r : Response) :
    (group1A s r).1.rds.programService = s.rds.programService ∧
    (group1A s r).1.rds.radioText = s.rds.radioText ∧
    (group1A s r).1.rds.radioTextLen = s.rds.radioTextLen ∧
    (group1A s r).1.rds.programTypeName = s.rds.programTypeName := by
  simp only [group1A]
  refine ⟨?_, ?_, ?_, ?_⟩ <;> (split_ifs <;> rfl)

theorem group2_buffers (s : Si4735) (r : Response) (version : Bool) :
    (group2 s r version).rds.programService = s.rds.programService ∧
    (group2 s r version).rds.programTypeName = s.rds.programTypeName := by
  simp only [group2]
  refine ⟨?_, ?_⟩ <;> (split_ifs <;> rfl)

theorem group4A_buffers (s : Si4735) (r : Response) :
    (group4A s r).1.rds.programService = s.rds.programService ∧
    (group4A s r).1.rds.radioText = s.rds.radioText ∧
    (group4A s r).1.rds.radioTextLen = s.rds.radioTextLen ∧
    (group4A s r).1.rds.programTypeName = s.rds.programTypeName := by
  simp only [group4A]
  refine ⟨?_, ?_, ?_, ?_⟩ <;> (split_ifs <;> rfl)

theorem group10A_buffers (s : Si4735) (r : Response) :
    (group10A s r).rds.programService = s.rds.programService := by
  simp only [group10A]
  split_ifs <;> rfl

/-- The characters per segment and the characters carried agree, and a
segment ends inside the 64 characters of the text. -/
theorem textChars_bound (r : Response) :
    textSegment r * charsPerSegment r + (textChars r).length ≤ 64 := by
  have hseg := textSegment_le r
  unfold charsPerSegment textChars
  split_ifs
  · simp only [List.length_cons, List.length_nil]; omega
  · simp only [List.length_cons, List.length_nil]; omega

/-- One decoded group, whatever its bytes, keeps the lengths of the three
character buffers and the characters at `programService[8]`, `radioText[64]`
and `programTypeName[8]`, and keeps the length of the radio text at most 65. -/
theorem processGroup_buffers (s : Si4735) (r : Response) :
    ((processGroup s r).1.rds.programService[8]? = s.rds.programService[8]? ∧
      (processGroup s r).1.rds.programService.length = s.rds.programService.length) ∧
    ((processGroup s r).1.rds.radioText[64]? = s.rds.radioText[64]? ∧
      (processGroup s r).1.rds.radioText.length = s.rds.radioText.length) ∧
    ((processGroup s r).1.rds.programTypeName[8]? = s.rds.programTypeName[8]? ∧
      (processGroup s r).1.rds.programTypeName.length = s.rds.programTypeName.length) ∧
    (s.rds.radioTextLen ≤ 65 → (processGroup s r).1.rds.radioTextLen ≤ 65) := by
  obtain ⟨s3, h, hps, hrt, hrl, hptn, hab, habn⟩ := processGroup_dispatch s r
  rw [h, ← hps, ← hrt, ← hrl, ← hptn]
  by_cases h0 : groupType r = 0 ∨ (groupType r = 15 ∧ groupVersion r = true)
  · have hseg : r.Block_B_L &&& 3 ≤ 3 := Nat.and_le_right
    obtain ⟨g1, g2, g3⟩ := group0_buffers s3 r (groupType r)
    rw [if_pos h0]
    refine ⟨?_, ⟨by rw [g1], by rw [g1]⟩, ⟨by rw [g3], by rw [g3]⟩, fun hl => by rw [g2]; exact hl⟩
    show (group0 s3 r (groupType r)).rds.programService[8]? = _ ∧
      (group0 s3 r (groupType r)).rds.programService.length = _
    rw [group0_programService]
    split_ifs
    · rw [List.getElem?_set_ne (by omega), List.getElem?_set_ne (by omega), List.length_set,
        List.length_set]
      exact ⟨rfl, rfl⟩
    · exact ⟨rfl, rfl⟩
  · rw [if_neg h0]
    by_cases h1 : groupType r = 1 ∧ groupVersion r = false
    · obtain ⟨g0, g1, g2, g3⟩ := group1A_buffers s3 r
      rw [if_pos h1, g0, g1, g2, g3]
      exact ⟨⟨rfl, rfl⟩, ⟨rfl, rfl⟩, ⟨rfl, rfl⟩, fun hl => hl⟩
    · rw [if_neg h1]
      by_cases h2 : groupType r = 2
      · obtain ⟨g0, g3⟩ := group2_buffers s3 r (groupVersion r)
        have hcopy := group2_copy s3 r
        have hbound := textChars_bound r
        rw [if_pos h2]
        refine ⟨by rw [g0]; exact ⟨rfl, rfl⟩, ?_, by rw [g3]; exact ⟨rfl, rfl⟩, ?_⟩
        · show (group2 s3 r (groupVersion r)).rds.radioText[64]? = _ ∧
            (group2 s3 r (groupVersion r)).rds.radioText.length = _
          rw [show (group2 s3 r (groupVersion r)).rds.radioText = _ from
            congrArg Prod.fst hcopy, copyChars_after _ _ _ _ 64 hbound, copyChars_length]
          split_ifs
          · exact ⟨foldl_set_range_ge _ _ _ 64 (by omega), foldl_set_range_length _ _ _⟩
          · exact ⟨rfl, rfl⟩
        · intro hl
          show (group2 s3 r (groupVersion r)).rds.radioTextLen ≤ 65
          rw [show (group2 s3 r (groupVersion r)).rds.radioTextLen = _ from
            congrArg Prod.snd hcopy]
          apply copyChars_len_le _ _ _ _ 65 _ (by omega)
          split_ifs
          · exact Nat.le_refl 65
          · exact hl
      · rw [if_neg h2]
        by_cases h4 : groupType r = 4 ∧ groupVersion r = false
        · obtain ⟨g0, g1, g2, g3⟩ := group4A_buffers s3 r
          rw [if_pos h4, g0, g1, g2, g3]
          exact ⟨⟨rfl, rfl⟩, ⟨rfl, rfl⟩, ⟨rfl, rfl⟩, fun hl => hl⟩
        · rw [if_neg h4]
          by_cases h10 : groupType r = 10 ∧ groupVersion r = false
          · obtain ⟨-, hname, g1, g2⟩ := group10A_eq s3 r
            have g0 := group10A_buffers s3 r
            have hseg : r.Block_B_L &&& 1 ≤ 1 := Nat.and_le_right
            rw [if_pos h10]
            refine ⟨by rw [g0]; exact ⟨rfl, rfl⟩, by rw [g1]; exact ⟨rfl, rfl⟩, ?_,
              fun hl => by rw [g2]; exact hl⟩
            show (group10A s3 r).rds.programTypeName[8]? = _ ∧
              (group10A s3 r).rds.programTypeName.length = _
            rw [hname, List.getElem?_set_ne (by omega), List.getElem?_set_ne (by omega),
              List.getElem?_set_ne (by omega), List.getElem?_set_ne (by omega),
              List.length_set, List.length_set, List.length_set, List.length_set]
            split_ifs
            · exact ⟨foldl_set_range_ge _ _ _ 8 (by omega), foldl_set_range_length _ _ _⟩
            · exact ⟨rfl, rfl⟩
          · rw [if_neg h10]
            exact ⟨⟨rfl, rfl⟩, ⟨rfl, rfl⟩, ⟨rfl, rfl⟩, fun hl => hl⟩

/-- The loop of `getRDS` keeps the lengths of the buffers, their terminators
and the bound 65 on the length of the radio text. -/
theorem getRDSLoop_buffers (replies : List Response) :
    ∀ (s : Si4735) (new_info : Bool),
      ((getRDSLoop s new_info replies).1.rds.programService[8]? = s.rds.programService[8]? ∧
        (getRDSLoop s new_info replies).1.rds.programService.length =
          s.rds.programService.length) ∧
      ((getRDSLoop s new_info replies).1.rds.radioText[64]? = s.rds.radioText[64]? ∧
        (getRDSLoop s new_info replies).1.rds.radioText.length = s.rds.radioText.length) ∧
      ((getRDSLoop s new_info replies).1.rds.programTypeName[8]? =
          s.rds.programTypeName[8]? ∧
        (getRDSLoop s new_info replies).1.rds.programTypeName.length =
          s.rds.programTypeName.length) ∧
      (s.rds.radioTextLen ≤ 65 → (getRDSLoop s new_info replies).1.rds.radioTextLen ≤ 65) := by
  induction replies with
  | nil => intro s new_info; exact ⟨⟨rfl, rfl⟩, ⟨rfl, rfl⟩, ⟨rfl, rfl⟩, fun h => h⟩
  | cons r rest ih =>
    intro s new_info
    simp only [getRDSLoop]
    split_ifs
    · exact ⟨⟨rfl, rfl⟩, ⟨rfl, rfl⟩, ⟨rfl, rfl⟩, fun h => h⟩
    · obtain ⟨⟨a1, a2⟩, ⟨a3, a4⟩, ⟨a5, a6⟩, a7⟩ := processGroup_buffers
        { s with rds.RDSSignal := r.resp2 &&& FIELD_RDS_STATUS_RESP2_SYNC != 0 } r
      obtain ⟨⟨b1, b2⟩, ⟨b3, b4⟩, ⟨b5, b6⟩, b7⟩ := ih (processGroup
        { s with rds.RDSSignal := r.resp2 &&& FIELD_RDS_STATUS_RESP2_SYNC != 0 } r).1
        (new_info || (processGroup
          { s with rds.RDSSignal := r.resp2 &&& FIELD_RDS_STATUS_RESP2_SYNC != 0 } r).2)
      exact ⟨⟨b1.trans a1, b2.trans a2⟩, ⟨b3.trans a3, b4.trans a4⟩,
        ⟨b5.trans a5, b6.trans a6⟩, fun h => b7 (a7 h)⟩

theorem getRDS_buffers (s : Si4735) (replies : List Response) :
    ((getRDS s replies).1.rds.programService[8]? = s.rds.programService[8]? ∧
      (getRDS s replies).1.rds.programService.length = s.rds.programService.length) ∧
    ((getRDS s replies).1.rds.radioText[64]? = s.rds.radioText[64]? ∧
      (getRDS s replies).1.rds.radioText.length = s.rds.radioText.length) ∧
    ((getRDS s replies).1.rds.programTypeName[8]? = s.rds.programTypeName[8]? ∧
      (getRDS s replies).1.rds.programTypeName.length = s.rds.programTypeName.length) ∧
    (s.rds.radioTextLen ≤ 65 → (getRDS s replies).1.rds.radioTextLen ≤ 65) := by
  unfold getRDS
  split_ifs
  · exact ⟨⟨rfl, rfl⟩, ⟨rfl, rfl⟩, ⟨rfl, rfl⟩, fun h => h⟩
  · exact getRDSLoop_buffers replies (clearInterrupts s RDS_MASK) false

/-- In every state reached from a reset by polls of `getRDS` the length of
the radio text is at most 65. -/
theorem afterPolls_radioTextLen (s : Si4735) (polls : List (List Response)) :
    (afterPolls s polls).rds.radioTextLen ≤ 65 := by
  have hfold : ∀ (ps : List (List Response)) (st : Si4735), st.rds.radioTextLen ≤ 65 →
      (ps.foldl (fun st replies => (getRDS st replies).1) st).rds.radioTextLen ≤ 65 := by
    intro ps
    induction ps with
    | nil => intro st h; exact h
    | cons p rest ih =>
      intro st h
      rw [List.foldl_cons]
      exact ih _ ((getRDS_buffers st p).2.2.2 h)
  unfold afterPolls
  apply hfold
  show 0 ≤ 65
  omega

end Si4735

/-- A store at a character position of the array is made. -/
theorem storeChar_some (size : Nat) (field : List Nat) (i v : Nat) (h : i + 1 < size) :
    storeChar size field i v = some (field.set i v) := by
  unfold storeChar
  rw [if_pos h]

/-- A store at the terminator or past the array is refused. -/
theorem storeChar_none (size : Nat) (field : List Nat) (i v : Nat) (h : size ≤ i + 1) :
    storeChar size field i v = none := by
  unfold storeChar
  rw [if_neg (by omega)]

/-- Checked stores at positions that are all inside the characters of the
array are the unchecked stores. -/
theorem foldlM_storeChar (size v : Nat) (l : List Nat) (h : ∀ i ∈ l, i + 1 < size) :
    ∀ t : List Nat,
      l.foldlM (fun t i => storeChar size t i v) t = some (l.foldl (fun t i => t.set i v) t) := by
  induction l with
  | nil => intro t; rfl
  | cons a rest ih =>
    intro t
    rw [List.foldlM_cons, storeChar_some size t a v (h a (List.mem_cons_self _ _)),
      List.foldl_cons]
    exact ih (fun i hi => h i (List.mem_cons_of_mem _ hi)) _

/-- The checked blank-fill loop makes every store. -/
theorem blankChecked_eq (size : Nat) (field : List Nat) :
    blankChecked size field =
      some ((List.range (size - 1)).foldl (fun t i => t.set i ' '.toNat) field) := by
  unfold blankChecked
  apply foldlM_storeChar
  intro i hi
  have := List.mem_range.mp hi
  omega

namespace Si4735

/-- The checked copy loop makes every store when the characters end at or
before position 63. -/
theorem copyCharsChecked_eq (block : List Nat) :
    ∀ (text : List Nat) (len rt : Nat), rt + block.length ≤ 64 →
      copyCharsChecked text len rt block = some (copyChars text len rt block) := by
  induction block with
  | nil => intro text len rt _; rfl
  | cons ch rest ih =>
    intro text len rt h
    have hl : (ch :: rest).length = rest.length + 1 := rfl
    rw [hl] at h
    simp only [copyCharsChecked, copyChars]
    rw [storeChar_some 65 text rt _ (by omega)]
    exact ih _ _ _ (by omega)

/-- The checked handler of groups 0A, 0B and 15B makes every store. -/
theorem group0Checked_eq (s : Si4735) (r : Response) (type : Nat) :
    group0Checked s r type = some (group0 s r type) := by
  have hu := (u8_basicSegment r).1
  have hle := (u8_basicSegment r).2
  have hu2 : u8 ((r.Block_B_L &&& 0b00000011 : Nat)) ≤ 3 := by
    rw [show u8 ((r.Block_B_L &&& 0b00000011 : Nat)) = r.Block_B_L &&& 3 from hu]; exact hle
  unfold group0Checked group0
  dsimp only
  by_cases ht : type = 0
  · rw [if_pos ht, if_pos ht, storeChar_some 9 _ _ _ (by omega)]
    dsimp only
    rw [storeChar_some 9 _ _ _ (by omega)]
  · rw [if_neg ht, if_neg ht]

/-- The checked handler of groups 2A and 2B makes every store. -/
theorem group2Checked_eq (s : Si4735) (r : Response) (version : Bool) :
    group2Checked s r version = some (group2 s r version) := by
  have hseg := textSegment_le r
  have hu := u8_textSegment r
  unfold group2Checked group2
  dsimp only
  rw [blankChecked_eq, hu]
  by_cases hf : ofBool (r.Block_B_L &&& 0b00010000 != 0) ≠ s._abRadioText
  · rw [if_pos hf, if_pos hf]
    dsimp only
    by_cases hv : version = false
    · rw [if_pos hv, if_pos hv, copyCharsChecked_eq _ _ _ _ (by
        show textSegment r * 4 + 4 ≤ 64
        omega)]
    · rw [if_neg hv, if_neg hv, copyCharsChecked_eq _ _ _ _ (by
        show textSegment r * 2 + 2 ≤ 64
        omega)]
  · rw [if_neg hf, if_neg hf]
    dsimp only
    by_cases hv : version = false
    · rw [if_pos hv, if_pos hv, copyCharsChecked_eq _ _ _ _ (by
        show textSegment r * 4 + 4 ≤ 64
        omega)]
    · rw [if_neg hv, if_neg hv, copyCharsChecked_eq _ _ _ _ (by
        show textSegment r * 2 + 2 ≤ 64
        omega)]

/-- The checked handler of group 10A makes every store. -/
theorem group10AChecked_eq (s : Si4735) (r : Response) :
    group10AChecked s r = some (group10A s r) := by
  have hu := u8_nameSegment r
  have hle : r.Block_B_L &&& 1 ≤ 1 := Nat.and_le_right
  unfold group10AChecked group10A
  dsimp only
  rw [blankChecked_eq]
  by_cases hf : ofBool (r.Block_B_L &&& 0b00010000 != 0) ≠ s._abProgramTypeName
  · rw [if_pos hf, if_pos hf]
    dsimp only
    rw [hu.1, storeChar_some 9 _ _ _ (by omega)]
    dsimp only
    rw [storeChar_some 9 _ _ _ (by omega)]
    dsimp only
    rw [storeChar_some 9 _ _ _ (by omega)]
    dsimp only
    rw [storeChar_some 9 _ _ _ (by omega)]
  · rw [if_neg hf, if_neg hf]
    dsimp only
    rw [hu.1, storeChar_some 9 _ _ _ (by omega)]
    dsimp only
    rw [storeChar_some 9 _ _ _ (by omega)]
    dsimp only
    rw [storeChar_some 9 _ _ _ (by omega)]
    dsimp only
    rw [storeChar_some 9 _ _ _ (by omega)]

/-- The checked loop body decodes every group without a refused store, and
gives the result of `processGroup`. -/
theorem processGroupChecked_eq (s : Si4735) (r : Response) :
    processGroupChecked s r = some (processGroup s r) := by
  unfold processGroupChecked processGroup
  dsimp only
  rw [group0Checked_eq, group2Checked_eq, group10AChecked_eq]
  by_cases h0 : groupType r = 0 ∨ (groupType r = 15 ∧ groupVersion r = true)
  · rw [if_pos h0, if_pos h0]
    rfl
  · rw [if_neg h0, if_neg h0]
    by_cases h1 : groupType r = 1 ∧ groupVersion r = false
    · rw [if_pos h1, if_pos h1]
    · rw [if_neg h1, if_neg h1]
      by_cases h2 : groupType r = 2
      · rw [if_pos h2, if_pos h2]
        rfl
      · rw [if_neg h2, if_neg h2]
        by_cases h4 : groupType r = 4 ∧ groupVersion r = false
        · rw [if_pos h4, if_pos h4]
        · rw [if_neg h4, if_neg h4]
          by_cases h10 : groupType r = 10 ∧ groupVersion r = false
          · rw [if_pos h10, if_pos h10]
            rfl
          · rw [if_neg h10, if_neg h10]

/-- The checked loop of `getRDS` runs without a refused store. -/
theorem getRDSLoopChecked_eq (replies : List Response) :
    ∀ (s : Si4735) (new_info : Bool),
      getRDSLoopChecked s new_info replies = some (getRDSLoop s new_info replies) := by
  induction replies with
  | nil => intro s new_info; rfl
  | cons r rest ih =>
    intro s new_info
    simp only [getRDSLoopChecked, getRDSLoop]
    rw [processGroupChecked_eq]
    split_ifs
    · rfl
    · exact ih _ _

/-- The checked `getRDS` runs without a refused store. -/
theorem getRDSChecked_eq (s : Si4735) (replies : List Response) :
    getRDSChecked s replies = some (getRDS s replies) := by
  unfold getRDSChecked getRDS
  split_ifs
  · rfl
  · exact getRDSLoopChecked_eq _ _ _

/-- C37: for every group record, whatever its bytes, every character write
of getRDS lands inside the field.  The loop body and the whole of getRDS,
run with every store into rds.programService, rds.radioText and
rds.programTypeName checked, never meet a refused store and give the result
of the unchecked code; a checked store is made exactly at the indices 0..7 of
the two 9-byte arrays and 0..63 of the 65-byte array and refused at the
terminators 8 and 64.  The indices are 2s and 2s+1 with s = B_low & 3, at
most 7, for the station name; 4s..4s+3 for version A, at most 63, and
2s..2s+1 for version B, at most 31, with s = B_low & 0x0F, for the radio
text; 4s..4s+3 with s = B_low & 1, at most 7, for the program type name.  The
terminators at programService[8], radioText[64] and programTypeName[8] and
the lengths of the three buffers are the same after the group, and after a
whole poll of getRDS, as before. -/
theorem writes_inside_fields (s : Si4735) (r : Response) (replies : List Response) :
    (processGroupChecked s r = some (processGroup s r) ∧
      getRDSChecked s replies = some (getRDS s replies)) ∧
    (∀ (field : List Nat) (v : Nat),
      storeChar 9 field 8 v = none ∧ storeChar 65 field 64 v = none ∧
      (∀ i, i ≤ 7 → storeChar 9 field i v = some (field.set i v)) ∧
      (∀ i, i ≤ 63 → storeChar 65 field i v = some (field.set i v))) ∧
    ((r.Block_B_L &&& 3) * 2 + 1 ≤ 7 ∧ textSegment r * 4 + 3 ≤ 63 ∧
      textSegment r * 2 + 1 ≤ 31 ∧ (r.Block_B_L &&& 1) * 4 + 3 ≤ 7 ∧
      textSegment r * charsPerSegment r + (textChars r).length ≤ 64) ∧
    ((processGroup s r).1.rds.programService[8]? = s.rds.programService[8]? ∧
      (processGroup s r).1.rds.radioText[64]? = s.rds.radioText[64]? ∧
      (processGroup s r).1.rds.programTypeName[8]? = s.rds.programTypeName[8]?) ∧
    ((processGroup s r).1.rds.programService.length = s.rds.programService.length ∧
      (processGroup s r).1.rds.radioText.length = s.rds.radioText.length ∧
      (processGroup s r).1.rds.programTypeName.length = s.rds.programTypeName.length) ∧
    ((getRDS s replies).1.rds.programService[8]? = s.rds.programService[8]? ∧
      (getRDS s replies).1.rds.radioText[64]? = s.rds.radioText[64]? ∧
      (getRDS s replies).1.rds.programTypeName[8]? = s.rds.programTypeName[8]?) ∧
    ((getRDS s replies).1.rds.programService.length = s.rds.programService.length ∧
      (getRDS s replies).1.rds.radioText.length = s.rds.radioText.length ∧
      (getRDS s replies).1.rds.programTypeName.length = s.rds.programTypeName.length) := by
  have h3 : r.Block_B_L &&& 3 ≤ 3 := Nat.and_le_right
  have h1 : r.Block_B_L &&& 1 ≤ 1 := Nat.and_le_right
  have hseg := textSegment_le r
  obtain ⟨⟨a1, a2⟩, ⟨a3, a4⟩, ⟨a5, a6⟩, -⟩ := processGroup_buffers s r
  obtain ⟨⟨b1, b2⟩, ⟨b3, b4⟩, ⟨b5, b6⟩, -⟩ := getRDS_buffers s replies
  refine ⟨⟨processGroupChecked_eq s r, getRDSChecked_eq s replies⟩, ?_,
    ⟨by omega, by omega, by omega, by omega, textChars_bound r⟩, ⟨a1, a3, a5⟩,
    ⟨a2, a4, a6⟩, ⟨b1, b3, b5⟩, ⟨b2, b4, b6⟩⟩
  intro field v
  exact ⟨storeChar_none 9 field 8 v (by omega), storeChar_none 65 field 64 v (by omega),
    fun i hi => storeChar_some 9 field i v (by omega),
    fun i hi => storeChar_some 65 field i v (by omega)⟩

/-- C36 as stated fails: after a reset, one group 2A without a carriage
return leaves rds.radioTextLen at 65, the size of the buffer with its
terminator, above the 64 characters of the field; position 65 is outside the
buffer. -/
theorem radioTextLen_default_exceeds_field :
    (afterPolls station0 [[radioTextReply 0 72 105 33 32]]).rds.radioTextLen = 65 ∧
    (processGroups (clearStationInfo station0)
      [radioTextReply 0 72 105 33 32]).rds.radioTextLen = 65 ∧
    (afterPolls station0 [[radioTextReply 0 72 105 33 32]]).rds.radioText.length = 65 ∧
    (afterPolls station0 [[radioTextReply 0 72 105 33 32]]).rds.radioText[65]? = none ∧
    (afterPolls station0 [[radioTextReply 0 72 105 33 32]]).rds.radioText[64]? = some 0 := by
  refine ⟨by decide, by decide, by decide, by decide, by decide⟩

/-- The counter of `confidenceStep` over a run of carried values: it stays
at most 3; below 3 it counts the equal values that end the run; and at 3 the
stored value stands three times in a row somewhere in the run. -/
theorem confidenceStep_run (l : List Nat) :
    ∀ (seen : List Nat) (e c : Nat), c ≤ 3 →
      (c < 3 → ∃ pre, seen = pre ++ List.replicate c e) →
      (c = 3 → ∃ pre post, seen = pre ++ [e, e, e] ++ post) →
      (l.foldl confidenceStep (e, c)).2 ≤ 3 ∧
      ((l.foldl confidenceStep (e, c)).2 = 3 → ∃ pre post,
        seen ++ l = pre ++ [(l.foldl confidenceStep (e, c)).1,
          (l.foldl confidenceStep (e, c)).1, (l.foldl confidenceStep (e, c)).1] ++ post) := by
  induction l with
  | nil =>
    intro seen e c hc _ h3
    refine ⟨hc, fun h => ?_⟩
    rw [List.append_nil]
    exact h3 h
  | cons v rest ih =>
    intro seen e c hc hlt h3
    have hseen : seen ++ v :: rest = (seen ++ [v]) ++ rest := by
      rw [List.append_assoc]; rfl
    rw [List.foldl_cons, hseen]
    by_cases hc3 : c < 3
    · obtain ⟨pre, hpre⟩ := hlt hc3
      rw [confidenceStep_below e c v hc3]
      by_cases hev : e = v
      · subst hev
        rw [if_pos rfl]
        have hrun : seen ++ [e] = pre ++ List.replicate (c + 1) e := by
          rw [hpre, List.append_assoc, List.replicate_succ']
        apply ih (seen ++ [e]) e (c + 1) (by omega) (fun _ => ⟨pre, hrun⟩)
        intro h
        have hc2 : c = 2 := by omega
        subst hc2
        exact ⟨pre, [], by rw [hrun, List.append_nil]; rfl⟩
      · rw [if_neg hev]
        apply ih (seen ++ [v]) v (0 + 1) (by omega) (fun _ => ⟨seen, rfl⟩)
        intro h
        omega
    · have hc3e : c = 3 := by omega
      obtain ⟨pre, post, hpp⟩ := h3 hc3e
      rw [confidenceStep_reached e c v (by show 3 ≤ c; omega)]
      apply ih (seen ++ [v]) e c hc (fun h => absurd h hc3)
      intro _
      exact ⟨pre, post ++ [v], by rw [hpp, List.append_assoc]⟩

/-- C38: in every state reached from clearStationInfo by decoding groups,
both confidence counters are at most RDS_THRESHOLD; whenever the counter of
the country code is at RDS_THRESHOLD (the only case in which check_if_RBDS
looks at the code), the stored rds.extendedCountryCode stands three times in
a row in the values carried by the type-1 version-A variant-0 groups decoded
so far, no other variant-0 value between them; likewise for the language
counter, rds.language and the variant-3 groups. -/
theorem confidence_counters_bounded (s : Si4735) (gs : List Response) :
    ((processGroups (clearStationInfo s) gs)._extendedCountryCode_count ≤ RDS_THRESHOLD ∧
      (processGroups (clearStationInfo s) gs)._language_count ≤ RDS_THRESHOLD) ∧
    ((processGroups (clearStationInfo s) gs)._extendedCountryCode_count = RDS_THRESHOLD →
      ∃ pre post, (gs.filter isECCGroup).map (fun r => r.Block_C_L) =
        pre ++ [(processGroups (clearStationInfo s) gs).rds.extendedCountryCode,
          (processGroups (clearStationInfo s) gs).rds.extendedCountryCode,
          (processGroups (clearStationInfo s) gs).rds.extendedCountryCode] ++ post) ∧
    ((processGroups (clearStationInfo s) gs)._language_count = RDS_THRESHOLD →
      ∃ pre post, (gs.filter isLanguageGroup).map (fun r => r.Block_C_L) =
        pre ++ [(processGroups (clearStationInfo s) gs).rds.language,
          (processGroups (clearStationInfo s) gs).rds.language,
          (processGroups (clearStationInfo s) gs).rds.language] ++ post) ∧
    (check_if_RBDS (processGroups (clearStationInfo s) gs) =
        no_ecc (processGroups (clearStationInfo s) gs) ∨
      ∃ pre post, (gs.filter isECCGroup).map (fun r => r.Block_C_L) =
        pre ++ [(processGroups (clearStationInfo s) gs).rds.extendedCountryCode,
          (processGroups (clearStationInfo s) gs).rds.extendedCountryCode,
          (processGroups (clearStationInfo s) gs).rds.extendedCountryCode] ++ post) := by
  have h3 : RDS_THRESHOLD = 3 := rfl
  have hecc := processGroups_ecc gs (clearStationInfo s)
  have hlang := processGroups_language gs (clearStationInfo s)
  have he0 : (clearStationInfo s)._extendedCountryCode_count = 0 := rfl
  have hl0 : (clearStationInfo s)._language_count = 0 := rfl
  rw [he0] at hecc
  rw [hl0] at hlang
  obtain ⟨e1, e2⟩ := confidenceStep_run ((gs.filter isECCGroup).map (fun r => r.Block_C_L)) []
    (clearStationInfo s).rds.extendedCountryCode 0 (by omega) (fun _ => ⟨[], rfl⟩)
    (fun h => by omega)
  obtain ⟨l1, l2⟩ := confidenceStep_run ((gs.filter isLanguageGroup).map (fun r => r.Block_C_L))
    [] (clearStationInfo s).rds.language 0 (by omega) (fun _ => ⟨[], rfl⟩)
    (fun h => by omega)
  rw [← hecc] at e1 e2
  rw [← hlang] at l1 l2
  rw [List.nil_append] at e2 l2
  rw [h3]
  refine ⟨⟨e1, l1⟩, e2, l2, ?_⟩
  by_cases hc : (processGroups (clearStationInfo s) gs)._extendedCountryCode_count < 3
  · left
    unfold check_if_RBDS
    rw [h3, if_pos hc]
  · right
    exact e2 (by
      show (processGroups (clearStationInfo s) gs)._extendedCountryCode_count = 3
      have := e1
      simp only at this
      omega)

/-- The month-table search stops inside the table for every day count: the
first entry of the table is 0. -/
theorem monthSearch_stops (d : Nat) :
    ∃ mon value, monthSearch d NUM_MONTHS = some (mon, value) ∧ mon < NUM_MONTHS ∧
      month[mon]? = some value ∧ value ≤ d := by
  rw [monthSearch_eq]
  split_ifs <;> exact ⟨_, _, rfl, by decide, by decide, by omega⟩

/-- The date part on the first 59 day counts: January and February of 2000,
counted as if day count 0 were January 1. -/
theorem calendarDate_early (d : Nat) (h : d < 59) :
    calendarDate d =
      some (2000, if d < 31 then 1 else 2, if d < 31 then d + 1 else d - 30) := by
  have hmod : d % 36524 = d := by omega
  have hdiv : d / 36524 = 0 := by omega
  rcases yearOfDays_cases d (by omega) with ⟨-, hy⟩ | ⟨c1, -, -⟩ | ⟨c1, -, -⟩
  · rw [hmod, hdiv] at hy
    have h1 : d < 31 + 28 + 0 := by omega
    by_cases h2 : d < 31
    · have e : u8 ((d + 1 : Nat)) = d + 1 := by rw [u8_ofNat]; omega
      simp only [calendarDate, hy, monthDayOfDays, if_pos h1, if_pos h2, e]
    · have e : u8 ((d + 1 : Int) - 31) = d - 30 := by unfold u8; omega
      simp only [calendarDate, hy, monthDayOfDays, if_pos h1, if_neg h2, e]
  · omega
  · omega

/-- The date part writes a date of the calendar for every 16-bit day
count. -/
theorem calendarDate_valid (d : Nat) (h2 : d ≤ 65535) :
    ∃ y mo da, calendarDate d = some (y, mo, da) ∧ validDate y mo da := by
  by_cases h1 : 59 ≤ d
  · obtain ⟨y, mo, da, hcal, hvalid, -⟩ := calendarDate_spec d h1 h2
    exact ⟨y, mo, da, hcal, hvalid⟩
  · have hleap : isLeapYear 2000 = true := by decide
    refine ⟨2000, _, _, calendarDate_early d (by omega), ?_⟩
    unfold validDate
    rw [hleap]
    by_cases h3 : d < 31
    · simp only [if_pos h3, daysInMonth]
      refine ⟨by omega, by omega, by omega, ?_⟩
      simp
      omega
    · simp only [if_neg h3, daysInMonth]
      refine ⟨by omega, by omega, by omega, ?_⟩
      simp
      omega

/-- No month of the calendar has more than 31 days. -/
theorem daysInMonth_le (leap : Bool) (m : Nat) : daysInMonth leap m ≤ 31 := by
  unfold daysInMonth
  split_ifs <;> omega

/-- February has at most 29 days. -/
theorem daysInMonth_february (leap : Bool) : daysInMonth leap 2 ≤ 29 := by
  cases leap <;> decide

/-- Breaking down any minute count gives a structure, with every field in
its range. -/
theorem breakDown_total (x : Nat) :
    ∃ t, breakDown x = some t ∧ validDate t.year t.month t.day ∧
      t.hour < 24 ∧ t.minute < 60 ∧ t.wday < 7 := by
  have hd : u16 ((x / 60 / 24 : Nat)) ≤ 65535 := by rw [u16_ofNat]; omega
  obtain ⟨y, mo, da, hcal, hvalid⟩ := calendarDate_valid _ hd
  refine ⟨{ year := y, month := mo, day := da,
            wday := u8 ((u16 ((x / 60 / 24 : Nat)) % 7 : Nat)),
            hour := u8 ((x / 60 % 24 : Nat)), minute := u8 ((x % 60 : Nat)) }, ?_, hvalid, ?_, ?_, ?_⟩
  · simp only [breakDown, hcal]
  · show u8 ((x / 60 % 24 : Nat)) < 24
    rw [u8_ofNat]; omega
  · show u8 ((x % 60 : Nat)) < 60
    rw [u8_ofNat]; omega
  · show u8 ((u16 ((x / 60 / 24 : Nat)) % 7 : Nat)) < 7
    rw [u8_ofNat]; omega

/-- C39: for every stored rds.MJD, rds.hour, rds.minute and every rds.offset
other than NO_DATE_TIME, wrapping day counts and minute sums included,
getLocalDateTime returns: the downward search of the month table stops at
an index inside the table for every day count (the first entry is 0), the
function returns true and writes month in 1..12, day in 1..31 and not beyond
the length of that month in the written year (February at most 29), hour in
0..23, minute in 0..59 and wday in 0..6. -/
theorem getLocalDateTime_total (s : Si4735) (time : DateTime)
    (ho : s.rds.offset ≠ NO_DATE_TIME) :
    (∀ d, ∃ mon value, monthSearch d NUM_MONTHS = some (mon, value) ∧ mon < NUM_MONTHS ∧
      month[mon]? = some value ∧ value ≤ d) ∧
    (month[0]? = some 0) ∧
    ∃ t, getLocalDateTime s time = some (true, t) ∧
      (1 ≤ t.month ∧ t.month ≤ 12) ∧
      (1 ≤ t.day ∧ t.day ≤ 31 ∧ t.day ≤ daysInMonth (isLeapYear t.year) t.month) ∧
      (t.month = 2 → t.day ≤ 29) ∧
      t.hour < 24 ∧ t.minute < 60 ∧ t.wday < 7 := by
  obtain ⟨t, hb, ⟨hm1, hm12, hd1, hlen⟩, hh, hmin, hw⟩ :=
    breakDown_total (localMinutes s.rds.MJD s.rds.hour s.rds.minute s.rds.offset)
  refine ⟨monthSearch_stops, by decide, t, ?_, ⟨hm1, hm12⟩,
    ⟨hd1, hlen.trans (daysInMonth_le _ _), hlen⟩, ?_, hh, hmin, hw⟩
  · simp only [getLocalDateTime, if_neg ho, localDateTime, hb]
  · intro h2
    rw [h2] at hlen
    exact hlen.trans (daysInMonth_february _)

/-- Witness for C39: MJD 0 (the day count wraps below the origin), hour 255
and minute 255 (a minute sum beyond one day), offset -128 half hours. -/
theorem getLocalDateTime_total_witness :
    ((-128 : Int) ≠ NO_DATE_TIME) ∧
    (∀ d, ∃ mon value, monthSearch d NUM_MONTHS = some (mon, value) ∧ mon < NUM_MONTHS ∧
      month[mon]? = some value ∧ value ≤ d) ∧
    (month[0]? = some 0) ∧
    ∃ t, getLocalDateTime
        { station0 with rds.MJD := 0, rds.hour := 255, rds.minute := 255, rds.offset := -128 }
        ⟨0, 0, 0, 0, 0, 0⟩ = some (true, t) ∧
      (1 ≤ t.month ∧ t.month ≤ 12) ∧
      (1 ≤ t.day ∧ t.day ≤ 31 ∧ t.day ≤ daysInMonth (isLeapYear t.year) t.month) ∧
      (t.month = 2 → t.day ≤ 29) ∧
      t.hour < 24 ∧ t.minute < 60 ∧ t.wday < 7 :=
  ⟨by decide, getLocalDateTime_total
    { station0 with rds.MJD := 0, rds.hour := 255, rds.minute := 255, rds.offset := -128 }
    ⟨0, 0, 0, 0, 0, 0⟩ (by decide)⟩

/-- The minute count of a record at offset 0 whose day is not before the
origin and whose day count fits 16 bits. -/
theorem localMinutes_utc (MJD hour minute : Nat) (hlo : 51545 ≤ MJD) (hhi : MJD ≤ 117080)
    (hh : hour < 24) (hm : minute < 60) :
    localMinutes MJD hour minute 0 = (MJD - 51545) * 1440 + hour * 60 + minute := by
  have e0 : MJD_ORIGIN = 51545 := by decide
  have a1 : u32 ((MJD : Int) - (51545 : Nat)) = MJD - 51545 := by
    unfold u32; omega
  have a2 : u16 ((MJD - 51545 : Nat)) = MJD - 51545 := by
    rw [u16_ofNat]; omega
  have a3 : u32 (((MJD - 51545) * (24 * 60) + hour * 60 + minute : Nat)) =
      (MJD - 51545) * 1440 + hour * 60 + minute := by
    rw [u32_ofNat]; omega
  have a4 : u32 ((((MJD - 51545) * 1440 + hour * 60 + minute : Nat) : Int)
      + 0 * 30) = (MJD - 51545) * 1440 + hour * 60 + minute := by
    unfold u32; omega
  simp only [localMinutes, e0, a1, a2, a3, a4]

/-- C40 as stated fails: for rds.MJD 51545, 0:00, offset 0 the converter
writes 2000-01-01 with wday 0, not 2000-01-02; 2000-01-02 is the date whose
Modified Julian Day is 51545, and the date written has Modified Julian Day
51544.  Likewise rds.MJD 51603, which is 2000-02-29, is written as
2000-02-28: the day count from the origin 2000-Jan-2 is turned into a date as
if it were counted from 2000-Jan-1. -/
theorem getLocalDateTime_origin_day_early :
    getLocalDateTime
        { station0 with rds.MJD := 51545, rds.hour := 0, rds.minute := 0, rds.offset := 0 }
        ⟨0, 0, 0, 0, 0, 0⟩ = some (true, ⟨2000, 1, 1, 0, 0, 0⟩) ∧
    mjdOfDate 2000 1 2 = 51545 ∧ mjdOfDate 2000 1 1 = 51544 ∧
    getLocalDateTime
        { station0 with rds.MJD := 51603, rds.hour := 0, rds.minute := 0, rds.offset := 0 }
        ⟨0, 0, 0, 0, 0, 0⟩ = some (true, ⟨2000, 2, 28, 2, 0, 0⟩) ∧
    mjdOfDate 2000 2 29 = 51603 := by
  refine ⟨by decide, ?_, ?_, by decide, ?_⟩ <;>
    simp [mjdOfDate, dayNumber, daysBeforeYear_eq, daysBeforeMonth, daysInMonth, isLeapYear]

/-- What the converter writes for the days before 2000-Mar-1: for every MJD
in 51545..51603 (hour < 24, minute < 60, offset 0) getLocalDateTime returns
true and writes the weekday of that day, wday = (MJD + 3) mod 7 (0 at MJD
51545), the stored hour and minute, and the date of the day before: year
2000, January (MJD - 51544) up to MJD 51575 and February (MJD - 51575) after,
a date of the calendar whose Modified Julian Day is MJD - 1. -/
theorem getLocalDateTime_early_2000 (s : Si4735) (time : DateTime)
    (hlo : 51545 ≤ s.rds.MJD) (hhi : s.rds.MJD ≤ 51603)
    (hh : s.rds.hour < 24) (hm : s.rds.minute < 60) (ho : s.rds.offset = 0) :
    ∃ t, getLocalDateTime s time = some (true, t) ∧
      t.year = 2000 ∧
      (t.month, t.day) =
        (if s.rds.MJD ≤ 51575 then (1, s.rds.MJD - 51544) else (2, s.rds.MJD - 51575)) ∧
      validDate t.year t.month t.day ∧
      mjdOfDate t.year t.month t.day = (s.rds.MJD : Int) - 1 ∧
      t.wday = (s.rds.MJD + 3) % 7 ∧ t.hour = s.rds.hour ∧ t.minute = s.rds.minute := by
  have hne : ¬ ((0 : Int) = NO_DATE_TIME) := by decide
  have hleap : isLeapYear 2000 = true := by decide
  have hmin := localMinutes_utc s.rds.MJD s.rds.hour s.rds.minute hlo (by omega) hh hm
  have hcal := calendarDate_early (s.rds.MJD - 51545) (by omega)
  by_cases h3 : s.rds.MJD ≤ 51575
  · have h3a : s.rds.MJD - 51545 < 31 := by omega
    rw [if_pos h3a, if_pos h3a] at hcal
    refine ⟨{ year := 2000, month := 1, day := s.rds.MJD - 51545 + 1,
              wday := (s.rds.MJD - 51545) % 7,
              hour := s.rds.hour, minute := s.rds.minute }, ?_, rfl, ?_, ?_, ?_, ?_, rfl, rfl⟩
    · simp only [getLocalDateTime, ho, hne, if_false, localDateTime, hmin]
      rw [breakDown_eq _ _ _ (by omega) hh hm, hcal]
    · rw [if_pos h3]
      show (1, s.rds.MJD - 51545 + 1) = (1, s.rds.MJD - 51544)
      rw [show s.rds.MJD - 51545 + 1 = s.rds.MJD - 51544 by omega]
    · show validDate 2000 1 (s.rds.MJD - 51545 + 1)
      unfold validDate
      rw [hleap]
      refine ⟨by omega, by omega, by omega, ?_⟩
      simp [daysInMonth]
      omega
    · show mjdOfDate 2000 1 (s.rds.MJD - 51545 + 1) = (s.rds.MJD : Int) - 1
      rw [mjdOfDate, dayNumber_epoch]
      simp only [dayNumber, hleap, daysBeforeYear_eq, daysBeforeMonth]
      omega
    · show (s.rds.MJD - 51545) % 7 = (s.rds.MJD + 3) % 7
      omega
  · have h3a : ¬ (s.rds.MJD - 51545 < 31) := by omega
    rw [if_neg h3a, if_neg h3a] at hcal
    refine ⟨{ year := 2000, month := 2, day := s.rds.MJD - 51545 - 30,
              wday := (s.rds.MJD - 51545) % 7,
              hour := s.rds.hour, minute := s.rds.minute }, ?_, rfl, ?_, ?_, ?_, ?_, rfl, rfl⟩
    · simp only [getLocalDateTime, ho, hne, if_false, localDateTime, hmin]
      rw [breakDown_eq _ _ _ (by omega) hh hm, hcal]
    · rw [if_neg h3]
      show (2, s.rds.MJD - 51545 - 30) = (2, s.rds.MJD - 51575)
      rw [show s.rds.MJD - 51545 - 30 = s.rds.MJD - 51575 by omega]
    · show validDate 2000 2 (s.rds.MJD - 51545 - 30)
      unfold validDate
      rw [hleap]
      refine ⟨by omega, by omega, by omega, ?_⟩
      simp [daysInMonth]
      omega
    · show mjdOfDate 2000 2 (s.rds.MJD - 51545 - 30) = (s.rds.MJD : Int) - 1
      rw [mjdOfDate, dayNumber_epoch]
      simp [dayNumber, hleap, daysBeforeYear_eq, daysBeforeMonth, daysInMonth]
      omega
    · show (s.rds.MJD - 51545) % 7 = (s.rds.MJD + 3) % 7
      omega

/-- Example of the days before 2000-Mar-1: MJD 51580 (2000-02-06, a Sunday)
at 12:00 is written as 2000-02-05 with wday 0. -/
theorem getLocalDateTime_early_2000_witness :
    (51545 ≤ 51580 ∧ 51580 ≤ 51603) ∧ (12 < 24 ∧ 0 < 60) ∧
    ∃ t, getLocalDateTime
          { station0 with rds.MJD := 51580, rds.hour := 12, rds.minute := 0, rds.offset := 0 }
          ⟨0, 0, 0, 0, 0, 0⟩ = some (true, t) ∧
      t.year = 2000 ∧
      (t.month, t.day) = (if 51580 ≤ 51575 then (1, 51580 - 51544) else (2, 51580 - 51575)) ∧
      validDate t.year t.month t.day ∧
      mjdOfDate t.year t.month t.day = ((51580 : Nat) : Int) - 1 ∧
      t.wday = (51580 + 3) % 7 ∧ t.hour = 12 ∧ t.minute = 0 :=
  ⟨by decide, by decide,
   getLocalDateTime_early_2000
     { station0 with rds.MJD := 51580, rds.hour := 12, rds.minute := 0, rds.offset := 0 }
     ⟨0, 0, 0, 0, 0, 0⟩ (by decide) (by decide) (by decide) (by decide) rfl⟩

/-- Witness for C37: the last segment of a group 2A (segment 15, characters
at 60..63) decoded on the empty record, alone and in a poll, with checked
stores; the checked copy loop refuses a copy of four characters that starts
at position 61, and a checked store refuses the terminator of the station
name. -/
theorem writes_inside_fields_witness :
    (station0.rds.programService[8]? = some 0 ∧ station0.rds.radioText[64]? = some 0 ∧
      station0.rds.programTypeName[8]? = some 0) ∧
    (copyCharsChecked station0.rds.radioText 0 61 [72, 105, 33, 32] = none ∧
      storeChar 9 station0.rds.programService 8 65 = none) ∧
    (processGroup station0 (radioTextReply 15 72 105 33 32)).1.rds.radioText[63]? = some 32 ∧
    processGroupChecked station0 (radioTextReply 15 72 105 33 32) =
      some (processGroup station0 (radioTextReply 15 72 105 33 32)) ∧
    getRDSChecked station0 [radioTextReply 15 72 105 33 32, basicReply 3 49 33] =
      some (getRDS station0 [radioTextReply 15 72 105 33 32, basicReply 3 49 33]) ∧
    (processGroup station0 (radioTextReply 15 72 105 33 32)).1.rds.radioText[64]? =
      station0.rds.radioText[64]? ∧
    (getRDS station0 [radioTextReply 15 72 105 33 32, basicReply 3 49 33]).1.rds.radioText.length =
      station0.rds.radioText.length :=
  ⟨by decide, by decide, by decide,
   (writes_inside_fields station0 (radioTextReply 15 72 105 33 32)
      [radioTextReply 15 72 105 33 32, basicReply 3 49 33]).1.1,
   (writes_inside_fields station0 (radioTextReply 15 72 105 33 32)
      [radioTextReply 15 72 105 33 32, basicReply 3 49 33]).1.2,
   (writes_inside_fields station0 (radioTextReply 15 72 105 33 32)
      [radioTextReply 15 72 105 33 32, basicReply 3 49 33]).2.2.2.1.2.1,
   (writes_inside_fields station0 (radioTextReply 15 72 105 33 32)
      [radioTextReply 15 72 105 33 32, basicReply 3 49 33]).2.2.2.2.2.2.2.1⟩

/-- Witness for C38: after the country code 0xA0 three times in a row, a
clock group in between, the counter is at the threshold and the stored code
0xA0 stands three times in a row in the carried values. -/
theorem confidence_counters_bounded_witness :
    (processGroups (clearStationInfo station0)
        [eccReply 0xE0, eccReply 0xA0, sampleClockReply, eccReply 0xA0,
          eccReply 0xA0])._extendedCountryCode_count = RDS_THRESHOLD ∧
    (processGroups (clearStationInfo station0)
        [eccReply 0xE0, eccReply 0xA0, sampleClockReply, eccReply 0xA0,
          eccReply 0xA0]).rds.extendedCountryCode = 0xA0 ∧
    ∃ pre post,
      ([eccReply 0xE0, eccReply 0xA0, sampleClockReply, eccReply 0xA0,
          eccReply 0xA0].filter isECCGroup).map (fun r => r.Block_C_L) =
        pre ++ [(processGroups (clearStationInfo station0)
            [eccReply 0xE0, eccReply 0xA0, sampleClockReply, eccReply 0xA0,
              eccReply 0xA0]).rds.extendedCountryCode,
          (processGroups (clearStationInfo station0)
            [eccReply 0xE0, eccReply 0xA0, sampleClockReply, eccReply 0xA0,
              eccReply 0xA0]).rds.extendedCountryCode,
          (processGroups (clearStationInfo station0)
            [eccReply 0xE0, eccReply 0xA0, sampleClockReply, eccReply 0xA0,
              eccReply 0xA0]).rds.extendedCountryCode] ++ post :=
  ⟨by decide, by decide,
   (confidence_counters_bounded station0
      [eccReply 0xE0, eccReply 0xA0, sampleClockReply, eccReply 0xA0, eccReply 0xA0]).2.1
      (by decide)⟩

end Si4735
